import Mathlib

/-!
# finance-app: the computations of the client

A shallow embedding of the aggregation block of
`src/frontend/src/pages/Statistics.js` (lines 62-154, the colour expression of
line 188 and the evolution chart of lines 218-236), of `getHealthStatusColor`,
`getHealthStatusText` and `evolutionData` of `src/frontend/src/pages/Dashboard.js`,
of the totals of `Incomes.js` and `Expenses.js`, of the progress of a goal in
`SavingsGoals.js`, of the current budgets of `Budgets.js`, of the session kept by
`src/frontend/src/context/AuthContext.js`, of `PrivateRoute` and the routes of
`src/frontend/src/App.js`, and of the error message of `Register.js`.

Modelling choices:

* the arithmetic of amounts is modelled twice. The first model takes amounts as
  exact rationals; it serves the statements in which rounding plays no part
  (which transactions are counted, in which bucket, under which label, in which
  colour band). The second model, in `Binary64`, takes amounts as JS Numbers,
  that is IEEE 754 binary64 values, with every `+`, `-`, `*`, `/` rounding to
  nearest, ties to even, overflowing to an infinity and producing `NaN` as the
  language does; it serves the statements about exactness, the order of
  summation, finiteness and the digits written by `toFixed`;
* a `Date` is its time value, milliseconds since the epoch, `none` being the
  Invalid Date whose getters return `NaN`;
* the time zone of the environment is the function `tza` giving the local offset
  (in milliseconds) at a UTC time, so that local time is `t + tza t`;
* a plain JS object used as a map is the list of its own properties in
  creation order, together with what it inherits from `Object.prototype`;
* a call on AuthProvider is a step on the state it holds, taken with the
  responses of the server; calls complete one after the other.
-/

namespace FinanceApp

/-! ## ECMAScript dates -/

/-- Milliseconds per day. -/
def msPerDay : Int := 86400000

/-- Calendar date (year, month 1..12, day 1..31) of a day number counted from
1970-01-01, in the proleptic Gregorian calendar. -/
def civilFromDays (z : Int) : Int × Int × Int :=
  let z := z + 719468
  let era := z / 146097
  let doe := z % 146097
  let yoe := (doe - doe / 1460 + doe / 36524 - doe / 146096) / 365
  let y := yoe + era * 400
  let doy := doe - (365 * yoe + yoe / 4 - yoe / 100)
  let mp := (5 * doy + 2) / 153
  let d := doy - (153 * mp + 2) / 5 + 1
  let m := if mp < 10 then mp + 3 else mp - 9
  (if m ≤ 2 then y + 1 else y, m, d)

/-- Day number, counted from 1970-01-01, of a calendar date. -/
def daysFromCivil (y m d : Int) : Int :=
  let y := if m ≤ 2 then y - 1 else y
  let era := y / 400
  let yoe := y % 400
  let doy := (153 * (if m > 2 then m - 3 else m + 9) + 2) / 5 + d - 1
  let doe := yoe * 365 + yoe / 4 - yoe / 100 + doy
  era * 146097 + doe - 719468

/-- The value of `new Date(s)`: the time value in milliseconds since the
epoch (UTC), or `none` for an Invalid Date. -/
abbrev JSDate := Option Int

/-- Gregorian leap years. -/
def isLeapYear (y : Nat) : Bool :=
  (y % 4 == 0 && y % 100 != 0) || y % 400 == 0

/-- Number of days of month `m` (1..12) of year `y`. -/
def daysInMonth (y m : Nat) : Nat :=
  if m = 2 then (if isLeapYear y then 29 else 28)
  else if m = 4 ∨ m = 6 ∨ m = 9 ∨ m = 11 then 30
  else 31

/-- The string is a calendar date `YYYY-MM-DD`. -/
def validDate (y m d : Nat) : Prop :=
  y ≤ 9999 ∧ 1 ≤ m ∧ m ≤ 12 ∧ 1 ≤ d ∧ d ≤ daysInMonth y m

instance (y m d : Nat) : Decidable (validDate y m d) := by
  unfold validDate; infer_instance

/-- The value of `new Date("YYYY-MM-DD")`: ECMAScript reads a date-only ISO
string as midnight UTC of that day, and an illegal date as Invalid Date. -/
def parseDateOnly (y m d : Nat) : JSDate :=
  if validDate y m d then some (daysFromCivil y m d * msPerDay) else none

/-- Local calendar date of a time value: ECMAScript `LocalTime(t) = t + LocalTZA`. -/
def localCivil (tza : Int → Int) (t : Int) : Int × Int × Int :=
  civilFromDays ((t + tza t) / msPerDay)

/-- The value of `Date.prototype.getFullYear`: the year of the local date, `none` being `NaN`. -/
def getFullYear (tza : Int → Int) (date : JSDate) : Option Int :=
  date.map fun t => (localCivil tza t).1

/-- The value of `Date.prototype.getMonth`: the month index 0..11 of the local date,
`none` being `NaN`. -/
def getMonth (tza : Int → Int) (date : JSDate) : Option Nat :=
  date.map fun t => ((localCivil tza t).2.1 - 1).toNat

/-! ## Data model -/

/-- An income or an expense as the client receives it from `/incomes` or
`/expenses`; `date` is the value of `new Date(t.date)`. The amount is an exact
rational in this model; `Binary64.Transaction` holds the Number itself. -/
structure Transaction where
  amount : ℚ
  category : String
  date : JSDate
deriving DecidableEq

/-- Own properties of a plain JS object, in creation order. -/
abbrev Props (κ : Type) (ν : Type) := List (κ × ν)

/-- Own property lookup, `none` when the object has no such own property. -/
def Props.get {κ ν : Type} [DecidableEq κ] : Props κ ν → κ → Option ν
  | [], _ => none
  | (k1, v1) :: ps, k => if k1 = k then some v1 else Props.get ps k

/-- Own property write: an existing property keeps its place, a new one is
created after all the others. -/
def Props.set {κ ν : Type} [DecidableEq κ] : Props κ ν → κ → ν → Props κ ν
  | [], k, v => [(k, v)]
  | (k1, v1) :: ps, k, v =>
    if k1 = k then (k, v) :: ps else (k1, v1) :: Props.set ps k v

/-- The JS expression `x || 0` on a number: `0` is falsy. -/
def orZero (x : ℚ) : ℚ := if x ≠ 0 then x else 0

/-! ## Monthly buckets (Statistics.js lines 62-90) -/

/-- One bucket of `yearlyData`. -/
structure MonthData where
  income : ℚ
  expenses : ℚ
deriving DecidableEq

/-- The object `yearlyData`, keyed by the value of `getMonth()` (`none` is the key `NaN`). -/
abbrev YearlyData := Props (Option Nat) MonthData

/-- The statement `if (!yearlyData[month]) yearlyData[month] = { income: 0, expenses: 0 }`. -/
def ensureMonth (yearlyData : YearlyData) (month : Option Nat) : YearlyData :=
  match yearlyData.get month with
  | none => yearlyData.set month { income := 0, expenses := 0 }
  | some _ => yearlyData

/-- Body of `incomes.forEach` (lines 66-75). -/
def addIncome (tza : Int → Int) (currentYear : Int) (yearlyData : YearlyData)
    (income : Transaction) : YearlyData :=
  let year := getFullYear tza income.date
  if year = some currentYear then
    let month := getMonth tza income.date
    let yearlyData := ensureMonth yearlyData month
    match yearlyData.get month with
    | some b => yearlyData.set month { b with income := b.income + income.amount }
    | none => yearlyData
  else yearlyData

/-- Body of `expenses.forEach` (lines 77-86). -/
def addExpense (tza : Int → Int) (currentYear : Int) (yearlyData : YearlyData)
    (expense : Transaction) : YearlyData :=
  let year := getFullYear tza expense.date
  if year = some currentYear then
    let month := getMonth tza expense.date
    let yearlyData := ensureMonth yearlyData month
    match yearlyData.get month with
    | some b => yearlyData.set month { b with expenses := b.expenses + expense.amount }
    | none => yearlyData
  else yearlyData

/-- The object `yearlyData` after both loops. -/
def yearlyData (tza : Int → Int) (incomes expenses : List Transaction)
    (currentYear : Int) : YearlyData :=
  expenses.foldl (addExpense tza currentYear)
    (incomes.foldl (addIncome tza currentYear) [])

/-- The month labels of line 88. -/
def months : List String :=
  ["Jan", "Fév", "Mar", "Avr", "Mai", "Jun", "Jul", "Aoû", "Sep", "Oct", "Nov", "Déc"]

/-- The series `months.map((_, i) => yearlyData[i]?.income || 0)`. -/
def monthlyIncome (yearlyData : YearlyData) : List ℚ :=
  (List.range months.length).map fun i =>
    match yearlyData.get (some i) with
    | some b => orZero b.income
    | none => 0

/-- The series `months.map((_, i) => yearlyData[i]?.expenses || 0)`. -/
def monthlyExpenses (yearlyData : YearlyData) : List ℚ :=
  (List.range months.length).map fun i =>
    match yearlyData.get (some i) with
    | some b => orZero b.expenses
    | none => 0

/-! ## Category breakdown (Statistics.js lines 112-149) -/

/-- What a property of `categoryExpenses` can hold: a number, or the string
that `+` produces once an inherited function has been read: the source text
of the function `inherited` followed by the decimal text of each appended amount. -/
inductive JSVal where
  | num (q : ℚ)
  | str (inherited : String) (appended : List ℚ)
deriving DecidableEq

/-- Names of the function-valued properties every plain object inherits from
`Object.prototype`. -/
def objectPrototypeMethods : List String :=
  ["constructor", "__defineGetter__", "__defineSetter__", "hasOwnProperty",
   "__lookupGetter__", "__lookupSetter__", "isPrototypeOf", "propertyIsEnumerable",
   "toString", "valueOf", "toLocaleString"]

/-- Every property name a plain object inherits: the methods and the accessor `__proto__`. -/
def inheritedNames : List String := "__proto__" :: objectPrototypeMethods

/-- The statement `obj[key] = (obj[key] || 0) + amount` on a plain object `obj = {}`:
an own number is added to; an own string is concatenated to; with no own
property, reading `__proto__` gives the prototype object and the write of a
string through its setter is ignored, reading an inherited method gives a
function, which `+` turns into a string, and any other name gives
`undefined`, replaced by `0`. -/
def accumulate (obj : Props String JSVal) (key : String) (amount : ℚ) : Props String JSVal :=
  match obj.get key with
  | some (JSVal.num v) => obj.set key (JSVal.num (orZero v + amount))
  | some (JSVal.str f l) => obj.set key (JSVal.str f (l ++ [amount]))
  | none =>
    if key = "__proto__" then obj
    else if key ∈ objectPrototypeMethods then obj.set key (JSVal.str key [amount])
    else obj.set key (JSVal.num (0 + amount))

/-- Body of the `forEach` of lines 114-119 and of lines 134-139. -/
def addCategory (tza : Int → Int) (currentYear : Int) (obj : Props String JSVal)
    (t : Transaction) : Props String JSVal :=
  let year := getFullYear tza t.date
  if year = some currentYear then accumulate obj t.category t.amount else obj

/-- The object `categoryExpenses`. -/
def categoryExpenses (tza : Int → Int) (expenses : List Transaction)
    (currentYear : Int) : Props String JSVal :=
  expenses.foldl (addCategory tza currentYear) []

/-- The object `categoryIncomes`. -/
def categoryIncomes (tza : Int → Int) (incomes : List Transaction)
    (currentYear : Int) : Props String JSVal :=
  incomes.foldl (addCategory tza currentYear) []

/-- Value of a string of decimal digits. -/
def digitsValue (cs : List Char) : Nat :=
  cs.foldl (fun n c => 10 * n + (c.toNat - 48)) 0

/-- ECMAScript array index: the canonical decimal string of an integer in `0 .. 2^32 - 2`. -/
def isArrayIndex (s : String) : Bool :=
  !s.data.isEmpty && s.data.all Char.isDigit
    && (s.data.length == 1 || s.data.head? != some '0')
    && decide (digitsValue s.data ≤ 4294967294)

/-- Own properties in the order of `OrdinaryOwnPropertyKeys`: array indices in
ascending numeric order, then the other strings in creation order. -/
def ownEntries {ν : Type} (obj : Props String ν) : Props String ν :=
  (obj.filter fun p => isArrayIndex p.1).insertionSort
      (fun a b => digitsValue a.1.data ≤ digitsValue b.1.data)
    ++ obj.filter fun p => !isArrayIndex p.1

/-- The value of `Object.keys(obj)`. -/
def objectKeys {ν : Type} (obj : Props String ν) : List String :=
  (ownEntries obj).map Prod.fst

/-- The value of `Object.values(obj)`. -/
def objectValues {ν : Type} (obj : Props String ν) : List ν :=
  (ownEntries obj).map Prod.snd

/-! ## Totals, savings rate and its colour (lines 151-154 and 188) -/

/-- The expression `xs.reduce((a, b) => a + b, 0)`. -/
def reduceSum (xs : List ℚ) : ℚ := xs.foldl (fun a b => a + b) 0

/-- The expression `totalIncome > 0 ? (savings / totalIncome * 100) : 0` in exact
arithmetic; `Binary64.savingsRate` is the expression on Numbers, with its
rounding, its infinities and `NaN`. -/
def savingsRate (totalIncome savings : ℚ) : ℚ :=
  if totalIncome > 0 then savings / totalIncome * 100 else 0

/-- The colour of the savings rate, line 188. -/
def savingsRateColor (savingsRate : ℚ) : String :=
  if savingsRate ≥ 20 then "#27ae60" else if savingsRate ≥ 10 then "#3498db" else "#f39c12"

/-- Dashboard.js, `getHealthStatusColor`. -/
def getHealthStatusColor (status : String) : String :=
  if status = "excellent" then "#27ae60"
  else if status = "bon" then "#3498db"
  else if status = "moyen" then "#f39c12"
  else if status = "critique" then "#e74c3c"
  else "#95a5a6"

/-- What the Statistics component computes before rendering. -/
structure StatisticsView where
  monthlyIncome : List ℚ
  monthlyExpenses : List ℚ
  categoryLabels : List String
  categoryValues : List JSVal
  incomeCategoryLabels : List String
  incomeCategoryValues : List JSVal
  totalIncome : ℚ
  totalExpenses : ℚ
  savings : ℚ
  savingsRate : ℚ
  savingsRateColor : String

/-- The aggregation block of the Statistics component. -/
def Statistics (tza : Int → Int) (incomes expenses : List Transaction)
    (selectedYear : Int) : StatisticsView :=
  let currentYear := selectedYear
  let yd := yearlyData tza incomes expenses currentYear
  let monthlyIncome := monthlyIncome yd
  let monthlyExpenses := monthlyExpenses yd
  let categoryExpenses := categoryExpenses tza expenses currentYear
  let categoryIncomes := categoryIncomes tza incomes currentYear
  let totalIncome := reduceSum monthlyIncome
  let totalExpenses := reduceSum monthlyExpenses
  let savings := totalIncome - totalExpenses
  let savingsRate := savingsRate totalIncome savings
  { monthlyIncome := monthlyIncome
    monthlyExpenses := monthlyExpenses
    categoryLabels := objectKeys categoryExpenses
    categoryValues := objectValues categoryExpenses
    incomeCategoryLabels := objectKeys categoryIncomes
    incomeCategoryValues := objectValues categoryIncomes
    totalIncome := totalIncome
    totalExpenses := totalExpenses
    savings := savings
    savingsRate := savingsRate
    savingsRateColor := savingsRateColor savingsRate }

/-! ## Specification-side notions -/

/-- The transaction is dated in `year`: the test `year === currentYear` of the source. -/
def inYear (tza : Int → Int) (year : Int) (t : Transaction) : Bool :=
  decide (getFullYear tza t.date = some year)

/-- Sum of the amounts of a list of transactions. -/
def sumAmounts (ts : List Transaction) : ℚ := (ts.map fun t => t.amount).sum

/-- The transaction is dated in month index `i` of `year`. -/
def inMonth (tza : Int → Int) (year : Int) (i : Nat) (t : Transaction) : Bool :=
  inYear tza year t && decide (getMonth tza t.date = some i)

/-- Income held by bucket `k` of `yearlyData`, `0` when the bucket is absent. -/
def incomeAt (yd : YearlyData) (k : Option Nat) : ℚ :=
  match yd.get k with
  | some b => b.income
  | none => 0

/-- Expenses held by bucket `k` of `yearlyData`, `0` when the bucket is absent. -/
def expensesAt (yd : YearlyData) (k : Option Nat) : ℚ :=
  match yd.get k with
  | some b => b.expenses
  | none => 0

/-- The distinct elements of a list, each at the place of its first occurrence. -/
def firstOccurrences : List String → List String
  | [] => []
  | c :: cs => c :: (firstOccurrences cs).filter fun x => decide (x ≠ c)

/-- The categories of the transactions dated in `year`, in the order of the list. -/
def yearCategories (tza : Int → Int) (year : Int) (ts : List Transaction) : List String :=
  (ts.filter (inYear tza year)).map fun t => t.category

/-- The transaction is dated in `year` and has category `c`. -/
def inYearCategory (tza : Int → Int) (year : Int) (c : String) (t : Transaction) : Bool :=
  inYear tza year t && decide (t.category = c)

/-- The labels list each distinct element of `cats` exactly once, in the order
of first occurrence in `cats`, and nothing else. -/
def FirstOccurrenceOrder (labels cats : List String) : Prop :=
  labels.Nodup ∧ (∀ c ∈ cats, c ∈ labels) ∧ (∀ c ∈ labels, c ∈ cats)
    ∧ labels.Pairwise fun a b => cats.indexOf a < cats.indexOf b

instance (labels cats : List String) : Decidable (FirstOccurrenceOrder labels cats) := by
  unfold FirstOccurrenceOrder; infer_instance

/-- The colour the Statistics page gives the savings rate of total income `I`
and total expenses `E`. -/
def rateColor (I E : ℚ) : String := savingsRateColor (savingsRate I (I - E))

/-- Rank of the three colours of the savings rate: `#f39c12` lowest, then `#3498db`,
then `#27ae60`. -/
def colorTier (c : String) : Nat :=
  if c = "#27ae60" then 2 else if c = "#3498db" then 1 else 0

/-- A time zone at UTC. -/
def utc : Int → Int := fun _ => 0

/-- A time zone one hour ahead of UTC, all year. -/
def utcPlus1 : Int → Int := fun _ => 3600000

/-- A time zone five hours behind UTC, all year. -/
def utcMinus5 : Int → Int := fun _ => -18000000

/-- Example expenses: rent and food in March 2024. -/
def marchExpenses : List Transaction :=
  [⟨1200, "Logement", parseDateOnly 2024 3 5⟩, ⟨300, "Nourriture", parseDateOnly 2024 3 10⟩]

/-- Example incomes: one salary in March 2024. -/
def marchIncomes : List Transaction :=
  [⟨3000, "Salaire", parseDateOnly 2024 3 1⟩]

/-- One expense whose category is the name `__proto__`. -/
def protoExpenses : List Transaction :=
  [⟨100, "__proto__", parseDateOnly 2024 3 5⟩]

/-- One expense whose category is the name `constructor`. -/
def constructorExpenses : List Transaction :=
  [⟨100, "constructor", parseDateOnly 2024 3 5⟩]

/-- Two expenses whose categories are the strings `2` and `1`, in this order. -/
def numberedExpenses : List Transaction :=
  [⟨20, "2", parseDateOnly 2024 3 5⟩, ⟨10, "1", parseDateOnly 2024 3 6⟩]

/-- One small income of 2024. -/
def smallIncomes : List Transaction :=
  [⟨100, "Salaire", parseDateOnly 2024 3 1⟩]

/-- One expense of 2024 larger than `smallIncomes`. -/
def largeExpenses : List Transaction :=
  [⟨200, "Logement", parseDateOnly 2024 3 5⟩]

/-- One expense dated on the first of January 2024. -/
def newYearExpenses : List Transaction :=
  [⟨50, "Loisirs", parseDateOnly 2024 1 1⟩]

/-! ## Incomes and Expenses pages -/

/-- Incomes.js line 85: `incomes.reduce((sum, income) => sum + income.amount, 0)`. -/
def Incomes.total (incomes : List Transaction) : ℚ :=
  incomes.foldl (fun sum income => sum + income.amount) 0

/-- Expenses.js line 91: `expenses.reduce((sum, expense) => sum + expense.amount, 0)`. -/
def Expenses.total (expenses : List Transaction) : ℚ :=
  expenses.foldl (fun sum expense => sum + expense.amount) 0

/-! ## Savings goals (SavingsGoals.js lines 163-184) -/

/-- A savings goal as the client receives it from `/savings-goals`. -/
structure SavingsGoal where
  name : String
  target_amount : ℚ
  current_amount : ℚ
deriving DecidableEq

/-- What is rendered for the bar of one goal: the width of `progress-fill` in
percent. The numbers written in `progress-text` depend on the rounding of the
division and are modelled in `Binary64.GoalCard`. -/
structure GoalCard where
  progressFillWidth : ℚ
deriving DecidableEq

/-- The constant `progress` of line 164 as an exact ratio (for a positive target;
a division by zero is not modelled); `Binary64.progress` is the double. -/
def progress (goal : SavingsGoal) : ℚ :=
  goal.current_amount / goal.target_amount * 100

/-- The callback of `goals.map` (lines 163-192): the card it renders, and the
goal object as the callback leaves it. -/
def renderGoal (goal : SavingsGoal) : GoalCard × SavingsGoal :=
  let progress := progress goal
  ({ progressFillWidth := min progress 100 }, goal)

/-! ## Dashboard statistics charted by the client -/

/-- Dashboard.js, `getHealthStatusText`. -/
def getHealthStatusText (status : String) : String :=
  if status = "excellent" then "Excellent"
  else if status = "bon" then "Bon"
  else if status = "moyen" then "Moyen"
  else if status = "critique" then "Critique"
  else "Inconnu"

/-- One entry of `stats.monthly_evolution`. -/
structure EvolutionEntry where
  month : String
  income : ℚ
  expenses : ℚ
deriving DecidableEq

/-- The part of the response of `/dashboard` the evolution charts read:
`monthly_evolution` is an array, or `none` when the field is absent. -/
structure DashboardStats where
  monthly_evolution : Option (List EvolutionEntry)
deriving DecidableEq

/-- One dataset of a line chart. -/
structure Dataset where
  label : String
  data : List ℚ
deriving DecidableEq

/-- The `data` of a line chart. -/
structure LineData where
  labels : List String
  datasets : List Dataset
deriving DecidableEq

/-- Statistics.js lines 218-236: the data of the chart `Évolution sur 6 mois`. -/
def Statistics.evolutionData (stats : DashboardStats) : LineData :=
  match stats.monthly_evolution with
  | some evolution =>
    { labels := evolution.map fun e => e.month
      datasets := [{ label := "Revenus", data := evolution.map fun e => e.income },
                   { label := "Dépenses", data := evolution.map fun e => e.expenses }] }
  | none => { labels := [], datasets := [] }

/-- Dashboard.js lines 94-112: `evolutionData`; `none` when `monthly_evolution`
is absent and `.map` throws. -/
def Dashboard.evolutionData (stats : DashboardStats) : Option LineData :=
  match stats.monthly_evolution with
  | some evolution =>
    some { labels := evolution.map fun e => e.month
           datasets := [{ label := "Revenus", data := evolution.map fun e => e.income },
                        { label := "Dépenses", data := evolution.map fun e => e.expenses }] }
  | none => none

/-! ## More examples -/

/-- Expenses of March 2024 with a negative amount among them. -/
def refundExpenses : List Transaction :=
  [⟨100, "Logement", parseDateOnly 2024 3 5⟩, ⟨-50, "Loisirs", parseDateOnly 2024 3 6⟩]

/-- Two expenses in category `constructor`, of 1 then 2. -/
def constructorPair : List Transaction :=
  [⟨1, "constructor", parseDateOnly 2024 3 5⟩, ⟨2, "constructor", parseDateOnly 2024 3 6⟩]

/-- The expenses of `constructorPair` in the other order. -/
def constructorPairSwapped : List Transaction :=
  [⟨2, "constructor", parseDateOnly 2024 3 6⟩, ⟨1, "constructor", parseDateOnly 2024 3 5⟩]

/-- One expense of June 2023. -/
def lastYearExpense : Transaction := ⟨75, "Transport", parseDateOnly 2023 6 15⟩

/-- A goal that is half reached. -/
def halfGoal : SavingsGoal := ⟨"Vacances", 1000, 500⟩

/-- Six months of evolution. -/
def sixMonths : List EvolutionEntry :=
  [⟨"Oct", 0, 0⟩, ⟨"Nov", 0, 0⟩, ⟨"Déc", 0, 0⟩, ⟨"Jan", 0, 0⟩, ⟨"Fév", 0, 0⟩,
   ⟨"Mar", 3000, 1500⟩]

/-! ## Authentication (AuthContext.js) -/

/-- The user object `/users/me` returns. -/
structure User where
  email : String
  full_name : String
deriving DecidableEq

/-- An access token as `/token` returns it: a string that is not empty (the
test `if (token)` of the mount effect takes the empty string for no token). -/
structure Token where
  value : String
  nonempty : value ≠ ""
deriving DecidableEq

/-- What AuthProvider holds and shares: the state `user` and `loading`, the item
`token` of localStorage and the default `Authorization` header of the API client. -/
structure AuthState where
  user : Option User
  loading : Bool
  token : Option Token
  authorization : Option String
deriving DecidableEq

/-- The header value of a token. -/
def bearer (token : Token) : String := "Bearer " ++ token.value

/-- The state before the mount effect runs: `user` is null, `loading` is true,
localStorage holds `stored` and the API client has no default header. -/
def AuthState.initial (stored : Option Token) : AuthState :=
  { user := none, loading := true, token := stored, authorization := none }

/-- The function `fetchUser` (lines 24-34), `me` being the response of
`/users/me`, `none` when the request fails. -/
def fetchUser (me : Option User) (s : AuthState) : AuthState :=
  match me with
  | some data => { s with user := some data, loading := false }
  | none => { s with token := none, authorization := none, loading := false }

/-- The mount effect (lines 14-22). -/
def mount (me : Option User) (s : AuthState) : AuthState :=
  match s.token with
  | some token => fetchUser me { s with authorization := some (bearer token) }
  | none => { s with loading := false }

/-- The function `login` (lines 36-49), `tokenResponse` being the `access_token`
of the response of `/token`, `none` when the request fails and `login` throws
before any assignment. -/
def login (tokenResponse : Option Token) (me : Option User) (s : AuthState) : AuthState :=
  match tokenResponse with
  | some access_token =>
    fetchUser me
      { s with token := some access_token, authorization := some (bearer access_token) }
  | none => s

/-- The effect of `register` (lines 51-75) on the state: `login` once `/register` succeeded. -/
def register (registered : Bool) (tokenResponse : Option Token) (me : Option User)
    (s : AuthState) : AuthState :=
  if registered then login tokenResponse me s else s

/-- The function `logout` (lines 77-81). -/
def logout (s : AuthState) : AuthState :=
  { s with token := none, authorization := none, user := none }

/-- A completed call on AuthProvider, with the responses of the server. -/
inductive AuthEvent where
  | login (tokenResponse : Option Token) (me : Option User)
  | register (registered : Bool) (tokenResponse : Option Token) (me : Option User)
  | fetchUser (me : Option User)
  | logout
deriving DecidableEq

/-- One completed call. -/
def AuthState.step (s : AuthState) : AuthEvent → AuthState
  | AuthEvent.login tokenResponse me => login tokenResponse me s
  | AuthEvent.register registered tokenResponse me => register registered tokenResponse me s
  | AuthEvent.fetchUser me => fetchUser me s
  | AuthEvent.logout => logout s

/-- The state after the mount effect and a sequence of completed calls. -/
def AuthState.run (stored : Option Token) (me : Option User) (events : List AuthEvent) :
    AuthState :=
  events.foldl AuthState.step (mount me (AuthState.initial stored))

/-- The default header is the one of the stored token. -/
def headerMatchesToken (s : AuthState) : Prop := s.authorization = s.token.map bearer

instance (s : AuthState) : Decidable (headerMatchesToken s) := by
  unfold headerMatchesToken; infer_instance

/-- The call is `logout`, or `login` or `register` made while `user` is null. -/
def loggedOutCall (s : AuthState) : AuthEvent → Prop
  | AuthEvent.logout => True
  | AuthEvent.fetchUser _ => False
  | AuthEvent.login _ _ => s.user = none
  | AuthEvent.register _ _ _ => s.user = none

/-- The sequence holds only calls of `logout`, and of `login` and `register`
made while `user` is null. -/
def calledLoggedOut : AuthState → List AuthEvent → Prop
  | _, [] => True
  | s, e :: es => loggedOutCall s e ∧ calledLoggedOut (s.step e) es

/-- A user is there only with a stored token. -/
def userHasToken (s : AuthState) : Prop := s.user ≠ none → s.token ≠ none

/-! ## Routing (App.js) -/

/-- What PrivateRoute returns. -/
inductive PrivateRouteResult where
  | loadingPlaceholder
  | children
  | navigate (target : String)
deriving DecidableEq

/-- The component `PrivateRoute` (lines 16-24) as a function of `user` and `loading`. -/
def PrivateRoute (user : Option User) (loading : Bool) : PrivateRouteResult :=
  if loading then PrivateRouteResult.loadingPlaceholder
  else match user with
    | some _ => PrivateRouteResult.children
    | none => PrivateRouteResult.navigate "/login"

/-- The pages of the application. -/
inductive Page where
  | Login | Register | Dashboard | Incomes | Expenses | Budgets | SavingsGoals
  | Statistics | Settings
deriving DecidableEq

/-- What a route renders. -/
inductive Rendered where
  | page (p : Page)
  | layout (p : Page)
  | loadingPlaceholder
  | navigate (target : String)
  | noMatch
deriving DecidableEq

/-- A route element `<PrivateRoute><Layout><P /></Layout></PrivateRoute>`. -/
def privateElement (p : Page) (user : Option User) (loading : Bool) : Rendered :=
  match PrivateRoute user loading with
  | PrivateRouteResult.children => Rendered.layout p
  | PrivateRouteResult.loadingPlaceholder => Rendered.loadingPlaceholder
  | PrivateRouteResult.navigate target => Rendered.navigate target

/-- The routes of `App` (lines 30-103): what is rendered at a path. -/
def App (path : String) (user : Option User) (loading : Bool) : Rendered :=
  if path = "/login" then Rendered.page Page.Login
  else if path = "/register" then Rendered.page Page.Register
  else if path = "/" then privateElement Page.Dashboard user loading
  else if path = "/incomes" then privateElement Page.Incomes user loading
  else if path = "/expenses" then privateElement Page.Expenses user loading
  else if path = "/budgets" then privateElement Page.Budgets user loading
  else if path = "/savings-goals" then privateElement Page.SavingsGoals user loading
  else if path = "/statistics" then privateElement Page.Statistics user loading
  else if path = "/settings" then privateElement Page.Settings user loading
  else Rendered.noMatch

/-- The paths of the protected pages. -/
def protectedPaths : List String :=
  ["/", "/incomes", "/expenses", "/budgets", "/savings-goals", "/statistics", "/settings"]

/-! ## Budgets of the current month (Budgets.js lines 91-95) -/

/-- A budget as the client receives it from `/budgets`. -/
structure Budget where
  id : Nat
  category : String
  amount : ℚ
  month : Int
  year : Int
deriving DecidableEq

/-- The constant `currentMonth`: `new Date().getMonth() + 1`, `now` being the
time value of `new Date()`. -/
def currentMonth (tza : Int → Int) (now : Int) : Int :=
  ((localCivil tza now).2.1 - 1).toNat + 1

/-- The constant `currentYear`: `new Date().getFullYear()`. -/
def currentYear (tza : Int → Int) (now : Int) : Int :=
  (localCivil tza now).1

/-- The constant `currentBudgets`. -/
def currentBudgets (tza : Int → Int) (now : Int) (budgets : List Budget) : List Budget :=
  budgets.filter fun b =>
    decide (b.month = currentMonth tza now) && decide (b.year = currentYear tza now)

/-! ## Errors of the registration (Register.js lines 23-38, AuthContext.js lines 62-74) -/

/-- The body of an error response. -/
structure ResponseData where
  detail : Option String
  message : Option String
deriving DecidableEq

/-- The field `response` of an error. -/
structure ErrorResponse where
  data : Option ResponseData
deriving DecidableEq

/-- An error as `catch` receives it: `response` when the server answered,
`request` true when a request was sent, `message` its own message. -/
structure JSError where
  response : Option ErrorResponse
  request : Bool
  message : Option String
deriving DecidableEq

/-- The JS expression `a || b` on strings: the empty string and `undefined` are falsy. -/
def orString (a : Option String) (b : String) : String :=
  match a with
  | some v => if v = "" then b else v
  | none => b

/-- The default message of Register.js line 25. -/
def defaultMessage : String := "Erreur lors de l'inscription"

/-- The message of Register.js line 35 and of AuthContext.js line 69. -/
def connectionMessage : String :=
  "Impossible de se connecter au serveur. Vérifiez que le backend est lancé sur http://localhost:8000"

/-- The message of AuthContext.js line 72. -/
def configurationMessage : String := "Erreur lors de la configuration de la requête"

/-- The object `new Error(message)`. -/
def newError (message : String) : JSError :=
  { response := none, request := false, message := some message }

/-- What the `catch` of `register` throws (AuthContext.js lines 62-74). -/
def registerThrows (error : JSError) : JSError :=
  match error.response with
  | some _ => error
  | none =>
    if error.request then newError connectionMessage
    else newError configurationMessage

/-- The value `errorMessage` that the `catch` of `handleSubmit` passes to
`setError` (Register.js lines 25-38). -/
def errorMessage (err : JSError) : String :=
  match err.response with
  | some response =>
    orString (response.data.bind fun d => d.detail)
      (orString (response.data.bind fun d => d.message) defaultMessage)
  | none =>
    match err.message with
    | some m => if m = "" then (if err.request then connectionMessage else defaultMessage) else m
    | none => if err.request then connectionMessage else defaultMessage

/-! ## Examples of sessions -/

/-- A first token. -/
def tokenA : Token := ⟨"tokenA", by decide⟩

/-- A second token. -/
def tokenB : Token := ⟨"tokenB", by decide⟩

/-- A user. -/
def alice : User := ⟨"alice@example.org", "Alice"⟩

/-- Budgets of several months, two of them of March 2024. -/
def someBudgets : List Budget :=
  [⟨1, "Logement", 800, 3, 2024⟩, ⟨2, "Loisirs", 100, 2, 2024⟩,
   ⟨3, "Nourriture", 300, 3, 2024⟩, ⟨4, "Logement", 750, 3, 2023⟩]

/-- A first login that succeeds, then a second one whose `/users/me` fails. -/
def secondLoginFails : List AuthEvent :=
  [AuthEvent.login (some tokenA) (some alice), AuthEvent.login (some tokenB) none]

/-! ## IEEE 754 binary64 numbers -/

/-- The least `k`, counted from the given one, with `n < 2 ^ 2 ^ k`; `fuel` bounds
the number of steps. -/
def searchWidth (n : Nat) : Nat → Nat → Nat
  | 0, k => k
  | fuel + 1, k => if n < 2 ^ 2 ^ k then k else searchWidth n fuel (k + 1)

/-- Binary search for the leading binary digit: for `2 ^ lo ≤ n < 2 ^ (lo + 2 ^ k)`,
the exponent `e` with `2 ^ e ≤ n < 2 ^ (e + 1)`. -/
def leadingBit (n : Nat) : Nat → Nat → Nat
  | 0, lo => lo
  | k + 1, lo =>
    if 2 ^ (lo + 2 ^ k) ≤ n then leadingBit n k (lo + 2 ^ k) else leadingBit n k lo

/-- Number of binary digits of `n`: the least `k` with `n < 2 ^ k`. -/
def bitLength (n : Nat) : Nat :=
  if n = 0 then 0 else leadingBit n (searchWidth n n 0) 0 + 1

/-- Rounding to nearest, ties to even, with 53 significant binary digits and no
bound on the exponent: the multiple of `2 ^ s` nearest to the fraction `A / q`,
where `s` is the number of binary digits of the integer part of `A / q` beyond 53. -/
def roundUnits (A q : Nat) : Nat :=
  let s := bitLength (A / q) - 53
  let g := q * 2 ^ s
  let n := A / g
  let r := A % g
  if 2 * r < g then n * 2 ^ s
  else if g < 2 * r then (n + 1) * 2 ^ s
  else if n % 2 = 0 then n * 2 ^ s else (n + 1) * 2 ^ s

/-- The number one counted in units of `2 ^ (-1074)`, the smallest positive double. -/
@[irreducible] def unitsPerOne : Nat := 2 ^ 1074

/-- The magnitude `2 ^ 1024`, counted in units of `2 ^ (-1074)`, from which a
rounded result overflows. -/
@[irreducible] def overflowUnits : Nat := 2 ^ 2098

/-- A JS Number, that is an IEEE 754 binary64 value. A finite value is counted in
units of `2 ^ (-1074)`, the smallest positive double, of which every finite
double is an integer multiple; the counts that are doubles are those of
`Binary64.valid`, and every arithmetic operation below returns one. Negative zero is
identified with zero. -/
inductive Double where
  | finite (units : Int)
  | infinity (negative : Bool)
  | nan
deriving DecidableEq

/-- The double nearest to `p / q` units, ties to even; a magnitude that rounds to
`2 ^ 1024` or more overflows to an infinity. -/
def roundRat (p : Int) (q : Nat) : Double :=
  let m := roundUnits p.natAbs q
  if overflowUnits ≤ m then Double.infinity (decide (p < 0))
  else if p < 0 then Double.finite (-(m : Int)) else Double.finite m

/-- The Number a decimal text denotes: the double nearest to the fraction `p / q`. -/
def Double.ofRatio (p : Int) (q : Nat) : Double := roundRat (p * unitsPerOne) q

/-- The Number of an integer literal. -/
def Double.ofNat (n : Nat) : Double := roundRat (n * unitsPerOne) 1

instance (n : Nat) : OfNat Double n := ⟨Double.ofNat n⟩

/-- Unary minus. -/
def Double.neg : Double → Double
  | Double.finite a => Double.finite (-a)
  | Double.infinity s => Double.infinity (!s)
  | Double.nan => Double.nan

/-- The operator `+` on two Numbers. -/
def Double.add : Double → Double → Double
  | Double.finite a, Double.finite b => roundRat (a + b) 1
  | Double.finite _, Double.infinity s => Double.infinity s
  | Double.infinity s, Double.finite _ => Double.infinity s
  | Double.infinity s, Double.infinity t => if s = t then Double.infinity s else Double.nan
  | _, _ => Double.nan

/-- The operator `-` on two Numbers. -/
def Double.sub (a b : Double) : Double := Double.add a (Double.neg b)

/-- The operator `*` on two Numbers. -/
def Double.mul : Double → Double → Double
  | Double.finite a, Double.finite b => roundRat (a * b) (unitsPerOne)
  | Double.finite a, Double.infinity s =>
    if a = 0 then Double.nan else Double.infinity (xor (decide (a < 0)) s)
  | Double.infinity s, Double.finite b =>
    if b = 0 then Double.nan else Double.infinity (xor s (decide (b < 0)))
  | Double.infinity s, Double.infinity t => Double.infinity (xor s t)
  | _, _ => Double.nan

/-- The operator `/` on two Numbers; a zero divisor is taken as positive zero. -/
def Double.div : Double → Double → Double
  | Double.finite a, Double.finite b =>
    if b = 0 then (if a = 0 then Double.nan else Double.infinity (decide (a < 0)))
    else roundRat (a * unitsPerOne * b.sign) b.natAbs
  | Double.finite _, Double.infinity _ => Double.finite 0
  | Double.infinity s, Double.finite b => Double.infinity (xor s (decide (b < 0)))
  | _, _ => Double.nan

instance : Neg Double := ⟨Double.neg⟩
instance : Add Double := ⟨Double.add⟩
instance : Sub Double := ⟨Double.sub⟩
instance : Mul Double := ⟨Double.mul⟩
instance : Div Double := ⟨Double.div⟩

/-- The operator `<` on two Numbers: false when one of them is `NaN`. -/
def Double.lt : Double → Double → Bool
  | Double.finite a, Double.finite b => decide (a < b)
  | Double.finite _, Double.infinity s => !s
  | Double.infinity s, Double.finite _ => s
  | Double.infinity s, Double.infinity t => s && !t
  | _, _ => false

/-- The operator `<=` on two Numbers: false when one of them is `NaN`. -/
def Double.le : Double → Double → Bool
  | Double.finite a, Double.finite b => decide (a ≤ b)
  | Double.finite _, Double.infinity s => !s
  | Double.infinity s, Double.finite _ => s
  | Double.infinity s, Double.infinity t => s || !t
  | _, _ => false

/-- The expression `x || 0` on a Number: `0` and `NaN` are falsy. -/
def Double.orZero : Double → Double
  | Double.finite a => Double.finite a
  | Double.infinity s => Double.infinity s
  | Double.nan => 0

/-- The value of `Math.min(a, b)`: `NaN` when one of them is `NaN`. -/
def Double.min : Double → Double → Double
  | Double.nan, _ => Double.nan
  | _, Double.nan => Double.nan
  | a, b => if Double.le a b then a else b

/-- The Number is neither an infinity nor `NaN`. -/
def Double.isFinite : Double → Bool
  | Double.finite _ => true
  | _ => false

/-- What `x.toFixed(f)` writes: for a finite `x` below `10 ^ 21` in magnitude the
decimal `n / 10 ^ f` with `f` digits after the point, `n` being the integer for
which `n / 10 ^ f` is nearest to the magnitude of `x` (the larger one when two
are as near) taken with the sign of `x` (the sign of a result that is zero is
not kept); otherwise the text of `String(x)`. -/
inductive Shown where
  | decimal (n : Int) (digits : Nat)
  | asString (x : Double)
deriving DecidableEq

/-- The text of `x.toFixed(f)`. -/
def Double.toFixed (x : Double) (f : Nat) : Shown :=
  match x with
  | Double.finite u =>
    if u.natAbs < 10 ^ 21 * unitsPerOne then
      Shown.decimal (u.sign * ((2 * u.natAbs * 10 ^ f + unitsPerOne) / (2 * unitsPerOne) : Nat)) f
    else Shown.asString x
  | _ => Shown.asString x

/-- The magnitude `c`, in units, has at most 53 significant binary digits. -/
def isRepresentable (c : Nat) : Prop := 2 ^ (bitLength c - 53) ∣ c

instance (c : Nat) : Decidable (isRepresentable c) := by
  unfold isRepresentable; infer_instance

/-! ## The Statistics page in double precision

The same aggregation block as above, with every amount a JS Number and every
`+`, `-`, `/`, `*` the rounding operation of the language. -/

namespace Binary64

/-- An income or an expense as the client receives it: `amount` is the Number
that `JSON.parse` made of the decimal text of the response. -/
structure Transaction where
  amount : Double
  category : String
  date : JSDate
deriving DecidableEq

/-- One bucket of `yearlyData`. -/
structure MonthData where
  income : Double
  expenses : Double
deriving DecidableEq

/-- The object `yearlyData`, keyed by the value of `getMonth()` (`none` is the key `NaN`). -/
abbrev YearlyData := Props (Option Nat) MonthData

/-- The statement `if (!yearlyData[month]) yearlyData[month] = { income: 0, expenses: 0 }`. -/
def ensureMonth (yearlyData : YearlyData) (month : Option Nat) : YearlyData :=
  match yearlyData.get month with
  | none => yearlyData.set month { income := 0, expenses := 0 }
  | some _ => yearlyData

/-- Body of `incomes.forEach` (lines 66-75). -/
def addIncome (tza : Int → Int) (currentYear : Int) (yearlyData : YearlyData)
    (income : Transaction) : YearlyData :=
  let year := getFullYear tza income.date
  if year = some currentYear then
    let month := getMonth tza income.date
    let yearlyData := ensureMonth yearlyData month
    match yearlyData.get month with
    | some b => yearlyData.set month { b with income := b.income + income.amount }
    | none => yearlyData
  else yearlyData

/-- Body of `expenses.forEach` (lines 77-86). -/
def addExpense (tza : Int → Int) (currentYear : Int) (yearlyData : YearlyData)
    (expense : Transaction) : YearlyData :=
  let year := getFullYear tza expense.date
  if year = some currentYear then
    let month := getMonth tza expense.date
    let yearlyData := ensureMonth yearlyData month
    match yearlyData.get month with
    | some b => yearlyData.set month { b with expenses := b.expenses + expense.amount }
    | none => yearlyData
  else yearlyData

/-- The object `yearlyData` after both loops. -/
def yearlyData (tza : Int → Int) (incomes expenses : List Transaction)
    (currentYear : Int) : YearlyData :=
  expenses.foldl (addExpense tza currentYear)
    (incomes.foldl (addIncome tza currentYear) [])

/-- The series `months.map((_, i) => yearlyData[i]?.income || 0)`. -/
def monthlyIncome (yearlyData : YearlyData) : List Double :=
  (List.range months.length).map fun i =>
    match yearlyData.get (some i) with
    | some b => Double.orZero b.income
    | none => 0

/-- The series `months.map((_, i) => yearlyData[i]?.expenses || 0)`. -/
def monthlyExpenses (yearlyData : YearlyData) : List Double :=
  (List.range months.length).map fun i =>
    match yearlyData.get (some i) with
    | some b => Double.orZero b.expenses
    | none => 0

/-- What a property of `categoryExpenses` can hold: a Number, or the string that
`+` produces once an inherited function has been read: the source text of the
function `inherited` followed by the text of each appended amount. -/
inductive JSVal where
  | num (x : Double)
  | str (inherited : String) (appended : List Double)
deriving DecidableEq

/-- The statement `obj[key] = (obj[key] || 0) + amount` on a plain object `obj = {}`:
an own Number is added to (a `NaN` counting for `0`); an own string is
concatenated to; with no own property, reading `__proto__` gives the prototype
object and the write of a string through its setter is ignored, reading an
inherited method gives a function, which `+` turns into a string, and any other
name gives `undefined`, replaced by `0`. -/
def accumulate (obj : Props String JSVal) (key : String) (amount : Double) :
    Props String JSVal :=
  match obj.get key with
  | some (JSVal.num v) => obj.set key (JSVal.num (Double.orZero v + amount))
  | some (JSVal.str f l) => obj.set key (JSVal.str f (l ++ [amount]))
  | none =>
    if key = "__proto__" then obj
    else if key ∈ objectPrototypeMethods then obj.set key (JSVal.str key [amount])
    else obj.set key (JSVal.num (0 + amount))

/-- Body of the `forEach` of lines 114-119 and of lines 134-139. -/
def addCategory (tza : Int → Int) (currentYear : Int) (obj : Props String JSVal)
    (t : Transaction) : Props String JSVal :=
  let year := getFullYear tza t.date
  if year = some currentYear then accumulate obj t.category t.amount else obj

/-- The object `categoryExpenses`. -/
def categoryExpenses (tza : Int → Int) (expenses : List Transaction)
    (currentYear : Int) : Props String JSVal :=
  expenses.foldl (addCategory tza currentYear) []

/-- The object `categoryIncomes`. -/
def categoryIncomes (tza : Int → Int) (incomes : List Transaction)
    (currentYear : Int) : Props String JSVal :=
  incomes.foldl (addCategory tza currentYear) []

/-- The expression `xs.reduce((a, b) => a + b, 0)`. -/
def reduceSum (xs : List Double) : Double := xs.foldl (fun a b => a + b) 0

/-- The expression `totalIncome > 0 ? (savings / totalIncome * 100) : 0`. -/
def savingsRate (totalIncome savings : Double) : Double :=
  if Double.lt 0 totalIncome then savings / totalIncome * 100 else 0

/-- The colour of the savings rate, line 188. -/
def savingsRateColor (savingsRate : Double) : String :=
  if Double.le 20 savingsRate then "#27ae60"
  else if Double.le 10 savingsRate then "#3498db" else "#f39c12"

/-- What the Statistics component computes before rendering. -/
structure StatisticsView where
  monthlyIncome : List Double
  monthlyExpenses : List Double
  categoryLabels : List String
  categoryValues : List JSVal
  incomeCategoryLabels : List String
  incomeCategoryValues : List JSVal
  totalIncome : Double
  totalExpenses : Double
  savings : Double
  savingsRate : Double
  savingsRateColor : String

/-- The aggregation block of the Statistics component. -/
def Statistics (tza : Int → Int) (incomes expenses : List Transaction)
    (selectedYear : Int) : StatisticsView :=
  let currentYear := selectedYear
  let yd := yearlyData tza incomes expenses currentYear
  let monthlyIncome := monthlyIncome yd
  let monthlyExpenses := monthlyExpenses yd
  let categoryExpenses := categoryExpenses tza expenses currentYear
  let categoryIncomes := categoryIncomes tza incomes currentYear
  let totalIncome := reduceSum monthlyIncome
  let totalExpenses := reduceSum monthlyExpenses
  let savings := totalIncome - totalExpenses
  let savingsRate := savingsRate totalIncome savings
  { monthlyIncome := monthlyIncome
    monthlyExpenses := monthlyExpenses
    categoryLabels := objectKeys categoryExpenses
    categoryValues := objectValues categoryExpenses
    incomeCategoryLabels := objectKeys categoryIncomes
    incomeCategoryValues := objectValues categoryIncomes
    totalIncome := totalIncome
    totalExpenses := totalExpenses
    savings := savings
    savingsRate := savingsRate
    savingsRateColor := savingsRateColor savingsRate }

/-! ### Savings goals (SavingsGoals.js lines 163-184) -/

/-- A savings goal as the client receives it from `/savings-goals`. -/
structure SavingsGoal where
  name : String
  target_amount : Double
  current_amount : Double
deriving DecidableEq

/-- What is rendered for one goal: the width of `progress-fill` in percent, and
the three numbers written in `progress-text`. -/
structure GoalCard where
  progressFillWidth : Double
  progressText : Shown
  currentText : Shown
  targetText : Shown
deriving DecidableEq

/-- The constant `progress` of line 164. -/
def progress (goal : SavingsGoal) : Double :=
  goal.current_amount / goal.target_amount * 100

/-- The callback of `goals.map` (lines 163-192): the card it renders, and the
goal object as the callback leaves it. -/
def renderGoal (goal : SavingsGoal) : GoalCard × SavingsGoal :=
  let progress := progress goal
  ({ progressFillWidth := Double.min progress 100
     progressText := progress.toFixed 1
     currentText := goal.current_amount.toFixed 2
     targetText := goal.target_amount.toFixed 2 }, goal)

/-! ### Specification-side notions -/

/-- The transaction is dated in `year`: the test `year === currentYear` of the source. -/
def inYear (tza : Int → Int) (year : Int) (t : Transaction) : Bool :=
  decide (getFullYear tza t.date = some year)

/-- The transaction is dated in month index `i` of `year`. -/
def inMonth (tza : Int → Int) (year : Int) (i : Nat) (t : Transaction) : Bool :=
  inYear tza year t && decide (getMonth tza t.date = some i)

/-- The transaction is dated in `year` and has category `c`. -/
def inYearCategory (tza : Int → Int) (year : Int) (c : String) (t : Transaction) : Bool :=
  inYear tza year t && decide (t.category = c)

/-- The categories of the transactions dated in `year`, in the order of the list. -/
def yearCategories (tza : Int → Int) (year : Int) (ts : List Transaction) : List String :=
  (ts.filter (inYear tza year)).map fun t => t.category

/-- Income held by bucket `k` of `yearlyData`, `0` when the bucket is absent. -/
def incomeAt (yd : YearlyData) (k : Option Nat) : Double :=
  match yd.get k with
  | some b => b.income
  | none => 0

/-- Expenses held by bucket `k` of `yearlyData`, `0` when the bucket is absent. -/
def expensesAt (yd : YearlyData) (k : Option Nat) : Double :=
  match yd.get k with
  | some b => b.expenses
  | none => 0

/-- The sum of the amounts of a list of transactions as the code computes it:
from left to right starting from `x`, every addition rounding. -/
def sumFrom (x : Double) (ts : List Transaction) : Double :=
  ts.foldl (fun a t => a + t.amount) x

/-- The amount in units of `2 ^ (-1074)`, `0` for an infinity and for `NaN`. -/
def units : Double → Int
  | Double.finite u => u
  | _ => 0

/-- Exact sum of the amounts of a list of transactions, in units of `2 ^ (-1074)`. -/
def exactSum (ts : List Transaction) : Int := (ts.map fun t => units t.amount).sum

/-- Exact sum of the magnitudes of the amounts, in units of `2 ^ (-1074)`. -/
def magnitudeSum (ts : List Transaction) : Int := (ts.map fun t => |units t.amount|).sum

/-- The amount is finite and an integer multiple of `2 ^ j` units, that is of
`2 ^ (j - 1074)`: with `j = 1074` the amount is a whole number. -/
def onGrid (j : Nat) : Double → Prop
  | Double.finite u => (2 : Int) ^ j ∣ u
  | _ => False

instance (j : Nat) (x : Double) : Decidable (onGrid j x) := by
  cases x <;> unfold onGrid <;> infer_instance

/-- Every amount of the list is on the grid of step `2 ^ j` units. -/
def allOnGrid (j : Nat) (ts : List Transaction) : Prop := ∀ t ∈ ts, onGrid j t.amount

instance (j : Nat) (ts : List Transaction) : Decidable (allOnGrid j ts) := by
  unfold allOnGrid; infer_instance

/-- The Number is not positive: a finite value at most zero, or minus infinity. -/
def notPositive : Double → Prop
  | Double.finite u => u ≤ 0
  | Double.infinity s => s = true
  | Double.nan => False

/-- The Number is a double: its magnitude has at most 53 significant binary
digits and is below `2 ^ 1024`. -/
def valid : Double → Prop
  | Double.finite u => isRepresentable u.natAbs ∧ u.natAbs < overflowUnits
  | _ => True

/-- The text shows a number that is at least `k`. -/
def showsAtLeast (k : Nat) : Shown → Prop
  | Shown.decimal n f => (k : Int) * 10 ^ f ≤ n
  | Shown.asString x => Double.le (Double.ofNat k) x = true

/-- The text shows a number that is at most `k`. -/
def showsAtMost (k : Nat) : Shown → Prop
  | Shown.decimal n f => n ≤ (k : Int) * 10 ^ f
  | Shown.asString x => Double.le x (Double.ofNat k) = true

/-! ### Examples -/

/-- Three expenses of 0.1, 0.2 and 0.3, the first in January 2024 and the other
two in February 2024. -/
def tenthsExpenses : List Transaction :=
  [⟨Double.ofRatio 1 10, "Logement", parseDateOnly 2024 1 15⟩,
   ⟨Double.ofRatio 2 10, "Logement", parseDateOnly 2024 2 10⟩,
   ⟨Double.ofRatio 3 10, "Nourriture", parseDateOnly 2024 2 20⟩]

/-- One income of 3 in March 2024. -/
def threeIncome : List Transaction := [⟨3, "Salaire", parseDateOnly 2024 3 1⟩]

/-- Four expenses of March 2024: 0.38, 0.37, 0.65 and 1.3. -/
def fourExpenses : List Transaction :=
  [⟨Double.ofRatio 38 100, "Nourriture", parseDateOnly 2024 3 2⟩,
   ⟨Double.ofRatio 37 100, "Nourriture", parseDateOnly 2024 3 3⟩,
   ⟨Double.ofRatio 65 100, "Transport", parseDateOnly 2024 3 4⟩,
   ⟨Double.ofRatio 13 10, "Loisirs", parseDateOnly 2024 3 5⟩]

/-- The expenses of `fourExpenses` with the last two exchanged. -/
def fourExpensesSwapped : List Transaction :=
  [⟨Double.ofRatio 38 100, "Nourriture", parseDateOnly 2024 3 2⟩,
   ⟨Double.ofRatio 37 100, "Nourriture", parseDateOnly 2024 3 3⟩,
   ⟨Double.ofRatio 13 10, "Loisirs", parseDateOnly 2024 3 5⟩,
   ⟨Double.ofRatio 65 100, "Transport", parseDateOnly 2024 3 4⟩]

/-- One income of `1e16` in March 2024. -/
def largeIncome : List Transaction :=
  [⟨Double.ofRatio (10 ^ 16) 1, "Salaire", parseDateOnly 2024 3 1⟩]

/-- One expense of 0.1 in March 2024. -/
def dimeExpense : List Transaction :=
  [⟨Double.ofRatio 1 10, "Nourriture", parseDateOnly 2024 3 2⟩]

/-- Two incomes of `1e308` in March 2024. -/
def hugeIncomes : List Transaction :=
  [⟨Double.ofRatio (10 ^ 308) 1, "Salaire", parseDateOnly 2024 3 1⟩,
   ⟨Double.ofRatio (10 ^ 308) 1, "Prime", parseDateOnly 2024 3 2⟩]

/-- Example expenses: rent and food in March 2024. -/
def marchExpenses : List Transaction :=
  [⟨1200, "Logement", parseDateOnly 2024 3 5⟩, ⟨300, "Nourriture", parseDateOnly 2024 3 10⟩]

/-- Example incomes: one salary in March 2024. -/
def marchIncomes : List Transaction :=
  [⟨3000, "Salaire", parseDateOnly 2024 3 1⟩]

/-- A goal that is half reached. -/
def halfGoal : SavingsGoal := ⟨"Vacances", 1000, 500⟩

/-- A goal that is exceeded by half. -/
def exceededGoal : SavingsGoal := ⟨"Vacances", 1000, 1500⟩

/-- A goal of 80 of which 23 are saved. -/
def smallGoal : SavingsGoal := ⟨"Livres", 80, 23⟩

end Binary64

/-! ## Lemmas on own properties -/

theorem Props.get_set_self {κ ν : Type} [DecidableEq κ] (ps : Props κ ν) (k : κ) (v : ν) :
    (ps.set k v).get k = some v := by
  induction ps with
  | nil => simp [Props.set, Props.get]
  | cons p ps ih =>
    obtain ⟨k1, v1⟩ := p
    by_cases h : k1 = k
    · simp [Props.set, Props.get, h]
    · simp [Props.set, Props.get, h, ih]

theorem Props.get_set_ne {κ ν : Type} [DecidableEq κ] (ps : Props κ ν) (k k2 : κ) (v : ν)
    (hne : k2 ≠ k) : (ps.set k v).get k2 = ps.get k2 := by
  induction ps with
  | nil => simp [Props.set, Props.get, Ne.symm hne]
  | cons p ps ih =>
    obtain ⟨k1, v1⟩ := p
    by_cases h : k1 = k
    · subst h
      simp [Props.set, Props.get, Ne.symm hne]
    · by_cases h2 : k1 = k2
      · subst h2
        simp [Props.set, Props.get, h]
      · simp [Props.set, Props.get, h, h2, ih]

theorem orZero_eq (x : ℚ) : orZero x = x := by
  unfold orZero
  split_ifs with h
  · rfl
  · push_neg at h
    exact h.symm

/-! ## The monthly buckets -/

theorem getMonth_lt_of_year {tza : Int → Int} {date : JSDate} {y : Int}
    (h : getFullYear tza date = some y) : ∃ m, m < 12 ∧ getMonth tza date = some m := by
  cases date with
  | none => simp [getFullYear] at h
  | some t =>
    refine ⟨((localCivil tza t).2.1 - 1).toNat, ?_, rfl⟩
    have hb : (localCivil tza t).2.1 ≤ 12 := by
      simp only [localCivil, civilFromDays]
      split_ifs <;> omega
    omega

theorem incomeAt_addIncome (tza : Int → Int) (y : Int) (yd : YearlyData) (t : Transaction)
    (k : Option Nat) :
    incomeAt (addIncome tza y yd t) k
      = incomeAt yd k +
        (if getFullYear tza t.date = some y ∧ getMonth tza t.date = k then t.amount else 0) := by
  unfold addIncome
  by_cases hy : getFullYear tza t.date = some y
  · simp only [hy, if_true, true_and]
    unfold ensureMonth
    cases hg : Props.get yd (getMonth tza t.date) with
    | none =>
      simp only [Props.get_set_self]
      by_cases hk : getMonth tza t.date = k
      · subst hk
        simp [incomeAt, Props.get_set_self, hg]
      · simp [incomeAt, Props.get_set_ne _ _ _ _ (Ne.symm hk), hk]
    | some b =>
      simp only [hg]
      by_cases hk : getMonth tza t.date = k
      · subst hk
        simp [incomeAt, Props.get_set_self, hg]
      · simp [incomeAt, Props.get_set_ne _ _ _ _ (Ne.symm hk), hk]
  · simp [hy]

theorem expensesAt_addIncome (tza : Int → Int) (y : Int) (yd : YearlyData) (t : Transaction)
    (k : Option Nat) :
    expensesAt (addIncome tza y yd t) k = expensesAt yd k := by
  unfold addIncome
  by_cases hy : getFullYear tza t.date = some y
  · simp only [hy, if_true]
    unfold ensureMonth
    cases hg : Props.get yd (getMonth tza t.date) with
    | none =>
      simp only [Props.get_set_self]
      by_cases hk : getMonth tza t.date = k
      · subst hk
        simp [expensesAt, Props.get_set_self, hg]
      · simp [expensesAt, Props.get_set_ne _ _ _ _ (Ne.symm hk)]
    | some b =>
      simp only [hg]
      by_cases hk : getMonth tza t.date = k
      · subst hk
        simp [expensesAt, Props.get_set_self, hg]
      · simp [expensesAt, Props.get_set_ne _ _ _ _ (Ne.symm hk)]
  · simp [hy]

theorem expensesAt_addExpense (tza : Int → Int) (y : Int) (yd : YearlyData) (t : Transaction)
    (k : Option Nat) :
    expensesAt (addExpense tza y yd t) k
      = expensesAt yd k +
        (if getFullYear tza t.date = some y ∧ getMonth tza t.date = k then t.amount else 0) := by
  unfold addExpense
  by_cases hy : getFullYear tza t.date = some y
  · simp only [hy, if_true, true_and]
    unfold ensureMonth
    cases hg : Props.get yd (getMonth tza t.date) with
    | none =>
      simp only [Props.get_set_self]
      by_cases hk : getMonth tza t.date = k
      · subst hk
        simp [expensesAt, Props.get_set_self, hg]
      · simp [expensesAt, Props.get_set_ne _ _ _ _ (Ne.symm hk), hk]
    | some b =>
      simp only [hg]
      by_cases hk : getMonth tza t.date = k
      · subst hk
        simp [expensesAt, Props.get_set_self, hg]
      · simp [expensesAt, Props.get_set_ne _ _ _ _ (Ne.symm hk), hk]
  · simp [hy]

theorem incomeAt_addExpense (tza : Int → Int) (y : Int) (yd : YearlyData) (t : Transaction)
    (k : Option Nat) :
    incomeAt (addExpense tza y yd t) k = incomeAt yd k := by
  unfold addExpense
  by_cases hy : getFullYear tza t.date = some y
  · simp only [hy, if_true]
    unfold ensureMonth
    cases hg : Props.get yd (getMonth tza t.date) with
    | none =>
      simp only [Props.get_set_self]
      by_cases hk : getMonth tza t.date = k
      · subst hk
        simp [incomeAt, Props.get_set_self, hg]
      · simp [incomeAt, Props.get_set_ne _ _ _ _ (Ne.symm hk)]
    | some b =>
      simp only [hg]
      by_cases hk : getMonth tza t.date = k
      · subst hk
        simp [incomeAt, Props.get_set_self, hg]
      · simp [incomeAt, Props.get_set_ne _ _ _ _ (Ne.symm hk)]
  · simp [hy]

theorem sumAmounts_cons (t : Transaction) (ts : List Transaction) :
    sumAmounts (t :: ts) = t.amount + sumAmounts ts := by
  simp [sumAmounts]

theorem sumAmounts_filter_cons (p : Transaction → Bool) (t : Transaction)
    (ts : List Transaction) :
    sumAmounts ((t :: ts).filter p)
      = (if p t = true then t.amount else 0) + sumAmounts (ts.filter p) := by
  by_cases h : p t = true
  · simp [List.filter_cons, h, sumAmounts]
  · simp [List.filter_cons, h, sumAmounts]

theorem inMonth_iff (tza : Int → Int) (y : Int) (i : Nat) (t : Transaction) :
    inMonth tza y i t = true
      ↔ getFullYear tza t.date = some y ∧ getMonth tza t.date = some i := by
  simp [inMonth, inYear]

theorem incomeAt_foldl_addIncome (tza : Int → Int) (y : Int) (i : Nat)
    (ts : List Transaction) (yd : YearlyData) :
    incomeAt (ts.foldl (addIncome tza y) yd) (some i)
      = incomeAt yd (some i) + sumAmounts (ts.filter (inMonth tza y i)) := by
  induction ts generalizing yd with
  | nil => simp [sumAmounts]
  | cons t ts ih =>
    rw [List.foldl_cons, ih, incomeAt_addIncome, sumAmounts_filter_cons]
    simp only [inMonth_iff]
    ring

theorem expensesAt_foldl_addIncome (tza : Int → Int) (y : Int) (k : Option Nat)
    (ts : List Transaction) (yd : YearlyData) :
    expensesAt (ts.foldl (addIncome tza y) yd) k = expensesAt yd k := by
  induction ts generalizing yd with
  | nil => rfl
  | cons t ts ih => rw [List.foldl_cons, ih, expensesAt_addIncome]

theorem expensesAt_foldl_addExpense (tza : Int → Int) (y : Int) (i : Nat)
    (ts : List Transaction) (yd : YearlyData) :
    expensesAt (ts.foldl (addExpense tza y) yd) (some i)
      = expensesAt yd (some i) + sumAmounts (ts.filter (inMonth tza y i)) := by
  induction ts generalizing yd with
  | nil => simp [sumAmounts]
  | cons t ts ih =>
    rw [List.foldl_cons, ih, expensesAt_addExpense, sumAmounts_filter_cons]
    simp only [inMonth_iff]
    ring

theorem incomeAt_foldl_addExpense (tza : Int → Int) (y : Int) (k : Option Nat)
    (ts : List Transaction) (yd : YearlyData) :
    incomeAt (ts.foldl (addExpense tza y) yd) k = incomeAt yd k := by
  induction ts generalizing yd with
  | nil => rfl
  | cons t ts ih => rw [List.foldl_cons, ih, incomeAt_addExpense]

theorem incomeAt_yearlyData (tza : Int → Int) (incomes expenses : List Transaction)
    (y : Int) (i : Nat) :
    incomeAt (yearlyData tza incomes expenses y) (some i)
      = sumAmounts (incomes.filter (inMonth tza y i)) := by
  unfold yearlyData
  rw [incomeAt_foldl_addExpense, incomeAt_foldl_addIncome]
  simp [incomeAt, Props.get]

theorem expensesAt_yearlyData (tza : Int → Int) (incomes expenses : List Transaction)
    (y : Int) (i : Nat) :
    expensesAt (yearlyData tza incomes expenses y) (some i)
      = sumAmounts (expenses.filter (inMonth tza y i)) := by
  unfold yearlyData
  rw [expensesAt_foldl_addExpense, expensesAt_foldl_addIncome]
  simp [expensesAt, Props.get]

theorem monthlyIncome_eq (yd : YearlyData) :
    monthlyIncome yd = (List.range 12).map fun i => incomeAt yd (some i) := by
  unfold monthlyIncome incomeAt
  have h12 : months.length = 12 := by decide
  rw [h12]
  apply List.map_congr_left
  intro i _
  cases Props.get yd (some i) <;> simp [orZero_eq]

theorem monthlyExpenses_eq (yd : YearlyData) :
    monthlyExpenses yd = (List.range 12).map fun i => expensesAt yd (some i) := by
  unfold monthlyExpenses expensesAt
  have h12 : months.length = 12 := by decide
  rw [h12]
  apply List.map_congr_left
  intro i _
  cases Props.get yd (some i) <;> simp [orZero_eq]

theorem reduceSum_eq_sum (xs : List ℚ) : reduceSum xs = xs.sum := by
  unfold reduceSum
  exact List.sum_eq_foldl.symm

/-- Summing the twelve buckets of a list of transactions counts every
transaction of the year once. -/
theorem sum_buckets (tza : Int → Int) (y : Int) (ts : List Transaction) :
    ((List.range 12).map fun i => sumAmounts (ts.filter (inMonth tza y i))).sum
      = sumAmounts (ts.filter (inYear tza y)) := by
  induction ts with
  | nil => simp [sumAmounts]
  | cons t ts ih =>
    simp only [sumAmounts_filter_cons, List.sum_map_add, ih]
    congr 1
    by_cases hy : inYear tza y t = true
    · obtain ⟨m, hm, hmo⟩ := getMonth_lt_of_year (by simpa [inYear] using hy :
        getFullYear tza t.date = some y)
      simp only [inMonth, hy, hmo, Bool.true_and, decide_eq_true_eq, Option.some.injEq, if_true]
      interval_cases m <;> simp [List.range_succ]
    · simp [inMonth, hy]

theorem totalIncome_eq (tza : Int → Int) (incomes expenses : List Transaction) (y : Int) :
    (Statistics tza incomes expenses y).totalIncome
      = sumAmounts (incomes.filter (inYear tza y)) := by
  show reduceSum (monthlyIncome (yearlyData tza incomes expenses y)) = _
  rw [reduceSum_eq_sum, monthlyIncome_eq]
  simp only [incomeAt_yearlyData]
  exact sum_buckets tza y incomes

theorem totalExpenses_eq (tza : Int → Int) (incomes expenses : List Transaction) (y : Int) :
    (Statistics tza incomes expenses y).totalExpenses
      = sumAmounts (expenses.filter (inYear tza y)) := by
  show reduceSum (monthlyExpenses (yearlyData tza incomes expenses y)) = _
  rw [reduceSum_eq_sum, monthlyExpenses_eq]
  simp only [expensesAt_yearlyData]
  exact sum_buckets tza y expenses

/-! ## The category objects -/

theorem Props.get_eq_none_iff {κ ν : Type} [DecidableEq κ] (ps : Props κ ν) (k : κ) :
    ps.get k = none ↔ k ∉ ps.map Prod.fst := by
  induction ps with
  | nil => simp [Props.get]
  | cons p ps ih =>
    obtain ⟨k1, v1⟩ := p
    by_cases h : k1 = k
    · simp [Props.get, h]
    · simp only [Props.get, h, if_false, ih, List.map_cons, List.mem_cons, not_or]
      constructor
      · intro hk
        exact ⟨fun e => h e.symm, hk⟩
      · intro hk
        exact hk.2

theorem Props.keys_set {κ ν : Type} [DecidableEq κ] (ps : Props κ ν) (k : κ) (v : ν) :
    (ps.set k v).map Prod.fst
      = if k ∈ ps.map Prod.fst then ps.map Prod.fst else ps.map Prod.fst ++ [k] := by
  induction ps with
  | nil => simp [Props.set]
  | cons p ps ih =>
    obtain ⟨k1, v1⟩ := p
    by_cases h : k1 = k
    · simp [Props.set, h]
    · have h2 : ¬ k = k1 := fun e => h e.symm
      simp only [Props.set, h, if_false, List.map_cons, ih, List.mem_cons, h2, false_or]
      split_ifs <;> simp

theorem Props.mem_set {κ ν : Type} [DecidableEq κ] (ps : Props κ ν) (k : κ) (v : ν)
    (p : κ × ν) (hp : p ∈ ps.set k v) : p ∈ ps ∨ p = (k, v) := by
  induction ps with
  | nil =>
    simp only [Props.set, List.mem_singleton] at hp
    exact Or.inr hp
  | cons q ps ih =>
    obtain ⟨k1, v1⟩ := q
    by_cases h : k1 = k
    · simp only [Props.set, h, if_true, List.mem_cons] at hp
      rcases hp with hp | hp
      · exact Or.inr hp
      · exact Or.inl (List.mem_cons_of_mem _ hp)
    · simp only [Props.set, h, if_false, List.mem_cons] at hp
      rcases hp with hp | hp
      · exact Or.inl (hp ▸ List.mem_cons_self _ _)
      · rcases ih hp with h1 | h1
        · exact Or.inl (List.mem_cons_of_mem _ h1)
        · exact Or.inr h1

theorem Props.mem_of_get {κ ν : Type} [DecidableEq κ] (ps : Props κ ν) (k : κ) (v : ν)
    (h : ps.get k = some v) : (k, v) ∈ ps := by
  induction ps with
  | nil => simp [Props.get] at h
  | cons p ps ih =>
    obtain ⟨k1, v1⟩ := p
    by_cases hk : k1 = k
    · simp only [Props.get, hk, if_true, Option.some.injEq] at h
      subst h; subst hk
      exact List.mem_cons_self _ _
    · simp only [Props.get, hk, if_false] at h
      exact List.mem_cons_of_mem _ (ih h)

/-- Insertion keys after one accumulation. -/
theorem keys_accumulate (obj : Props String JSVal) (k : String) (a : ℚ)
    (hk : k ≠ "__proto__") :
    (accumulate obj k a).map Prod.fst
      = if k ∈ obj.map Prod.fst then obj.map Prod.fst else obj.map Prod.fst ++ [k] := by
  unfold accumulate
  cases hg : Props.get obj k with
  | none =>
    have hn := (Props.get_eq_none_iff obj k).1 hg
    simp only [hk, if_false]
    split_ifs <;> simp [Props.keys_set, hn]
  | some v =>
    have hin : k ∈ obj.map Prod.fst := by
      by_contra hc
      rw [(Props.get_eq_none_iff obj k).2 hc] at hg
      cases hg
    cases v <;> simp [Props.keys_set, hin]

theorem keys_accumulate_proto (obj : Props String JSVal) (a : ℚ)
    (h : "__proto__" ∉ obj.map Prod.fst) : accumulate obj "__proto__" a = obj := by
  unfold accumulate
  rw [(Props.get_eq_none_iff obj _).2 h]
  simp

/-! ## First occurrences -/

theorem mem_firstOccurrences (l : List String) (x : String) :
    x ∈ firstOccurrences l ↔ x ∈ l := by
  induction l with
  | nil => simp [firstOccurrences]
  | cons c cs ih =>
    simp only [firstOccurrences, List.mem_cons, List.mem_filter, ih, decide_eq_true_eq]
    constructor
    · rintro (h | ⟨h, _⟩)
      · exact Or.inl h
      · exact Or.inr h
    · rintro (h | h)
      · exact Or.inl h
      · by_cases e : x = c
        · exact Or.inl e
        · exact Or.inr ⟨h, e⟩

theorem nodup_firstOccurrences (l : List String) : (firstOccurrences l).Nodup := by
  induction l with
  | nil => simp [firstOccurrences]
  | cons c cs ih =>
    simp only [firstOccurrences, List.nodup_cons]
    refine ⟨?_, ih.filter _⟩
    simp [List.mem_filter]

theorem pairwise_firstOccurrences (l : List String) :
    (firstOccurrences l).Pairwise fun a b => l.indexOf a < l.indexOf b := by
  induction l with
  | nil => simp [firstOccurrences]
  | cons c cs ih =>
    simp only [firstOccurrences, List.pairwise_cons]
    refine ⟨?_, ?_⟩
    · intro b hb
      have hbc : b ≠ c := by
        simpa using (List.mem_filter.1 hb).2
      rw [List.indexOf_cons_self, List.indexOf_cons_ne _ (Ne.symm hbc)]
      exact Nat.succ_pos _
    · refine List.Pairwise.imp_of_mem ?_ (ih.filter _)
      intro a b ha hb hab
      have hac : a ≠ c := by
        simpa using (List.mem_filter.1 ha).2
      have hbc : b ≠ c := by
        simpa using (List.mem_filter.1 hb).2
      rw [List.indexOf_cons_ne _ (Ne.symm hac), List.indexOf_cons_ne _ (Ne.symm hbc)]
      exact Nat.succ_lt_succ hab

theorem addCategory_of_inYear (tza : Int → Int) (y : Int) (obj : Props String JSVal)
    (t : Transaction) (h : inYear tza y t = true) :
    addCategory tza y obj t = accumulate obj t.category t.amount := by
  have : getFullYear tza t.date = some y := by simpa [inYear] using h
  simp [addCategory, this]

theorem addCategory_of_not_inYear (tza : Int → Int) (y : Int) (obj : Props String JSVal)
    (t : Transaction) (h : ¬ inYear tza y t = true) :
    addCategory tza y obj t = obj := by
  have : ¬ getFullYear tza t.date = some y := by simpa [inYear] using h
  simp [addCategory, this]

/-- Creation order of the keys after the loop, for categories other than `__proto__`. -/
theorem keys_foldl_addCategory (tza : Int → Int) (y : Int) (ts : List Transaction)
    (obj : Props String JSVal)
    (hp : ∀ t ∈ ts, inYear tza y t = true → t.category ≠ "__proto__") :
    (ts.foldl (addCategory tza y) obj).map Prod.fst
      = obj.map Prod.fst
        ++ (firstOccurrences (yearCategories tza y ts)).filter
            fun x => decide (x ∉ obj.map Prod.fst) := by
  induction ts generalizing obj with
  | nil => simp [yearCategories, firstOccurrences]
  | cons t ts ih =>
    have hp2 : ∀ t1 ∈ ts, inYear tza y t1 = true → t1.category ≠ "__proto__" :=
      fun t1 h1 => hp t1 (List.mem_cons_of_mem _ h1)
    rw [List.foldl_cons, ih _ hp2]
    by_cases hy : inYear tza y t = true
    · rw [addCategory_of_inYear _ _ _ _ hy,
        keys_accumulate _ _ _ (hp t (List.mem_cons_self _ _) hy)]
      have hc : yearCategories tza y (t :: ts) = t.category :: yearCategories tza y ts := by
        simp [yearCategories, List.filter_cons, hy]
      rw [hc]
      by_cases hin : t.category ∈ obj.map Prod.fst
      · simp only [hin, if_true, firstOccurrences, List.filter_cons, not_true_eq_false,
          decide_False, Bool.false_eq_true, if_false, List.filter_filter]
        congr 1
        apply List.filter_congr
        intro x _
        by_cases hx : x ∈ obj.map Prod.fst
        · simp [hx]
        · have : x ≠ t.category := fun e => hx (e ▸ hin)
          simp [hx, this]
      · simp only [hin, if_false, firstOccurrences, List.filter_cons, not_false_eq_true,
          decide_True, if_true, List.filter_filter, List.append_assoc, List.singleton_append]
        congr 2
        apply List.filter_congr
        intro x _
        by_cases hx : x ∈ obj.map Prod.fst
        · simp [hx]
        · by_cases hxc : x = t.category
          · simp [hx, hxc]
          · simp [hx, hxc]
    · rw [addCategory_of_not_inYear _ _ _ _ hy]
      have hc : yearCategories tza y (t :: ts) = yearCategories tza y ts := by
        simp [yearCategories, List.filter_cons, hy]
      rw [hc]

/-! ## Reading one category -/

theorem get_accumulate_ne (obj : Props String JSVal) (k c : String) (a : ℚ) (h : c ≠ k) :
    (accumulate obj k a).get c = obj.get c := by
  unfold accumulate
  cases Props.get obj k with
  | none =>
    simp only
    split_ifs
    · rfl
    · exact Props.get_set_ne _ _ _ _ h
    · exact Props.get_set_ne _ _ _ _ h
  | some v =>
    cases v <;> exact Props.get_set_ne _ _ _ _ h

theorem get_foldl_addCategory_num (tza : Int → Int) (y : Int) (c : String)
    (ts : List Transaction) (obj : Props String JSVal) (v : ℚ)
    (h : obj.get c = some (JSVal.num v)) :
    (ts.foldl (addCategory tza y) obj).get c
      = some (JSVal.num (v + sumAmounts (ts.filter (inYearCategory tza y c)))) := by
  induction ts generalizing obj v with
  | nil => simp [sumAmounts, h]
  | cons t ts ih =>
    rw [List.foldl_cons, sumAmounts_filter_cons]
    by_cases hy : inYear tza y t = true
    · rw [addCategory_of_inYear _ _ _ _ hy]
      by_cases hc : t.category = c
      · have hstep : (accumulate obj t.category t.amount).get c
            = some (JSVal.num (v + t.amount)) := by
          subst hc
          simp [accumulate, h, Props.get_set_self, orZero_eq]
        rw [ih _ _ hstep]
        simp [inYearCategory, hy, hc, add_assoc]
      · have hstep : (accumulate obj t.category t.amount).get c = some (JSVal.num v) := by
          rw [get_accumulate_ne _ _ _ _ (Ne.symm hc), h]
        rw [ih _ _ hstep]
        simp [inYearCategory, hy, hc]
    · rw [addCategory_of_not_inYear _ _ _ _ hy, ih _ _ h]
      simp [inYearCategory, hy]

theorem get_foldl_addCategory_none (tza : Int → Int) (y : Int) (c : String)
    (hc : c ∉ inheritedNames) (ts : List Transaction) (obj : Props String JSVal)
    (h : obj.get c = none) :
    (ts.foldl (addCategory tza y) obj).get c
      = if ts.any (inYearCategory tza y c) = true
        then some (JSVal.num (sumAmounts (ts.filter (inYearCategory tza y c))))
        else none := by
  have hc1 : c ≠ "__proto__" := by
    intro e; apply hc; simp [inheritedNames, e]
  have hc2 : c ∉ objectPrototypeMethods := by
    intro e; apply hc; simp [inheritedNames, e]
  induction ts generalizing obj with
  | nil => simp [h]
  | cons t ts ih =>
    rw [List.foldl_cons]
    by_cases hy : inYear tza y t = true
    · rw [addCategory_of_inYear _ _ _ _ hy]
      by_cases hk : t.category = c
      · have hstep : (accumulate obj t.category t.amount).get c
            = some (JSVal.num t.amount) := by
          subst hk
          simp [accumulate, h, Props.get_set_self, hc1, hc2]
        rw [get_foldl_addCategory_num _ _ _ _ _ _ hstep, sumAmounts_filter_cons]
        simp [inYearCategory, hy, hk]
      · have hstep : (accumulate obj t.category t.amount).get c = none := by
          rw [get_accumulate_ne _ _ _ _ (Ne.symm hk), h]
        rw [ih _ hstep, sumAmounts_filter_cons]
        simp [inYearCategory, hy, hk]
    · rw [addCategory_of_not_inYear _ _ _ _ hy, ih _ h, sumAmounts_filter_cons]
      simp [inYearCategory, hy]

/-! ## Enumeration order -/

theorem ownEntries_perm {ν : Type} (obj : Props String ν) : (ownEntries obj).Perm obj := by
  unfold ownEntries
  exact ((List.perm_insertionSort _ _).append_right _).trans
    (List.filter_append_perm (fun p => isArrayIndex p.1) obj)

theorem ownEntries_of_no_index {ν : Type} (obj : Props String ν)
    (h : ∀ k ∈ obj.map Prod.fst, isArrayIndex k = false) : ownEntries obj = obj := by
  have h1 : obj.filter (fun p => isArrayIndex p.1) = [] := by
    rw [List.filter_eq_nil_iff]
    intro p hp
    simp [h p.1 (List.mem_map_of_mem _ hp)]
  have h2 : obj.filter (fun p => !isArrayIndex p.1) = obj := by
    rw [List.filter_eq_self]
    intro p hp
    simp [h p.1 (List.mem_map_of_mem _ hp)]
  unfold ownEntries
  rw [h1, h2]
  simp

/-- Labels of a category object built from a list whose categories of the year
are neither array indices nor `__proto__`. -/
theorem labels_firstOccurrenceOrder (tza : Int → Int) (y : Int) (ts : List Transaction)
    (h : ∀ c ∈ yearCategories tza y ts, isArrayIndex c = false ∧ c ≠ "__proto__") :
    FirstOccurrenceOrder (objectKeys (ts.foldl (addCategory tza y) []))
      (yearCategories tza y ts) := by
  have hp : ∀ t ∈ ts, inYear tza y t = true → t.category ≠ "__proto__" := by
    intro t ht hy
    refine (h t.category ?_).2
    exact List.mem_map_of_mem _ (List.mem_filter.2 ⟨ht, hy⟩)
  have hk := keys_foldl_addCategory tza y ts [] hp
  simp only [List.map_nil, List.nil_append, List.not_mem_nil, not_false_eq_true,
    decide_True, List.filter_true] at hk
  have hno : ∀ k ∈ (ts.foldl (addCategory tza y) []).map Prod.fst, isArrayIndex k = false := by
    intro k hkm
    rw [hk, mem_firstOccurrences] at hkm
    exact (h k hkm).1
  unfold objectKeys
  rw [ownEntries_of_no_index _ hno, hk]
  exact ⟨nodup_firstOccurrences _, fun c hc => (mem_firstOccurrences _ c).2 hc,
    fun c hc => (mem_firstOccurrences _ c).1 hc, pairwise_firstOccurrences _⟩

/-! ## Totals and monthly series -/

/-- C5: both monthly series have exactly twelve entries, entry `i` being the
sum of the amounts of the transactions of that kind dated in month `i`
(January = 0 .. December = 11) of the selected year, whatever the order of the
input lists; a month without transaction holds the empty sum `0`. -/
theorem statistics_monthly_series (tza : Int → Int) (incomes expenses : List Transaction)
    (selectedYear : Int) :
    (Statistics tza incomes expenses selectedYear).monthlyIncome.length = 12
    ∧ (Statistics tza incomes expenses selectedYear).monthlyExpenses.length = 12
    ∧ (Statistics tza incomes expenses selectedYear).monthlyIncome
        = (List.range 12).map
            (fun i => sumAmounts (incomes.filter (inMonth tza selectedYear i)))
    ∧ (Statistics tza incomes expenses selectedYear).monthlyExpenses
        = (List.range 12).map
            (fun i => sumAmounts (expenses.filter (inMonth tza selectedYear i))) := by
  have hI : (Statistics tza incomes expenses selectedYear).monthlyIncome
      = (List.range 12).map fun i =>
          sumAmounts (incomes.filter (inMonth tza selectedYear i)) := by
    show monthlyIncome (yearlyData tza incomes expenses selectedYear) = _
    rw [monthlyIncome_eq]
    simp only [incomeAt_yearlyData]
  have hE : (Statistics tza incomes expenses selectedYear).monthlyExpenses
      = (List.range 12).map fun i =>
          sumAmounts (expenses.filter (inMonth tza selectedYear i)) := by
    show monthlyExpenses (yearlyData tza incomes expenses selectedYear) = _
    rw [monthlyExpenses_eq]
    simp only [expensesAt_yearlyData]
  refine ⟨?_, ?_, hI, hE⟩
  · rw [hI]; simp
  · rw [hE]; simp

/-! ## Category breakdown: the claims -/

/-- C2 fails on the code: one expense of 100 in category `__proto__` leaves the
category breakdown empty, while `totalExpenses` is 100. -/
theorem category_values_sum_fails_on_proto :
    (Statistics utc [] protoExpenses 2024).categoryLabels = []
    ∧ (Statistics utc [] protoExpenses 2024).categoryValues = []
    ∧ (Statistics utc [] protoExpenses 2024).totalExpenses = 100
    ∧ ¬ ∃ qs : List ℚ,
        (Statistics utc [] protoExpenses 2024).categoryValues = qs.map JSVal.num
        ∧ qs.sum = (Statistics utc [] protoExpenses 2024).totalExpenses := by
  have hv : (Statistics utc [] protoExpenses 2024).categoryValues = [] := by decide
  have ht : (Statistics utc [] protoExpenses 2024).totalExpenses = 100 := by
    rw [totalExpenses_eq]
    have : protoExpenses.filter (inYear utc 2024) = protoExpenses := by decide
    rw [this]
    simp [sumAmounts, protoExpenses]
  refine ⟨by decide, hv, ht, ?_⟩
  rintro ⟨qs, h1, h2⟩
  rw [hv] at h1
  rw [ht] at h2
  have : qs = [] := by
    cases qs with
    | nil => rfl
    | cons q qs => simp at h1
  rw [this] at h2
  norm_num at h2

/-- C3, amended: when no category of the selected year is an array index (the
canonical decimal string of an integer below 2^32 - 1) or the name `__proto__`,
the labels of the expense breakdown list each distinct category of the expenses
of the selected year exactly once, in the order of first occurrence, and nothing
else; the same holds for the income breakdown. -/
theorem category_labels_first_occurrence (tza : Int → Int)
    (incomes expenses : List Transaction) (selectedYear : Int)
    (hE : ∀ c ∈ yearCategories tza selectedYear expenses,
      isArrayIndex c = false ∧ c ≠ "__proto__")
    (hI : ∀ c ∈ yearCategories tza selectedYear incomes,
      isArrayIndex c = false ∧ c ≠ "__proto__") :
    FirstOccurrenceOrder (Statistics tza incomes expenses selectedYear).categoryLabels
        (yearCategories tza selectedYear expenses)
    ∧ FirstOccurrenceOrder (Statistics tza incomes expenses selectedYear).incomeCategoryLabels
        (yearCategories tza selectedYear incomes) :=
  ⟨labels_firstOccurrenceOrder tza selectedYear expenses hE,
   labels_firstOccurrenceOrder tza selectedYear incomes hI⟩

/-- The amended C3 at the March 2024 example. -/
theorem category_labels_first_occurrence_witness :
    (∀ c ∈ yearCategories utc 2024 marchExpenses, isArrayIndex c = false ∧ c ≠ "__proto__")
    ∧ (∀ c ∈ yearCategories utc 2024 marchIncomes, isArrayIndex c = false ∧ c ≠ "__proto__")
    ∧ FirstOccurrenceOrder (Statistics utc marchIncomes marchExpenses 2024).categoryLabels
        (yearCategories utc 2024 marchExpenses)
    ∧ FirstOccurrenceOrder (Statistics utc marchIncomes marchExpenses 2024).incomeCategoryLabels
        (yearCategories utc 2024 marchIncomes) :=
  ⟨by decide, by decide,
   category_labels_first_occurrence utc marchIncomes marchExpenses 2024 (by decide) (by decide)⟩

/-- C3 as stated fails: with the categories `2` then `1` the labels come out
as `1`, `2`, not in the order of first occurrence; and a category `__proto__`
of the selected year is missing from the labels. -/
theorem category_labels_order_fails :
    (yearCategories utc 2024 numberedExpenses = ["2", "1"]
      ∧ (Statistics utc [] numberedExpenses 2024).categoryLabels = ["1", "2"]
      ∧ ¬ FirstOccurrenceOrder (Statistics utc [] numberedExpenses 2024).categoryLabels
          (yearCategories utc 2024 numberedExpenses))
    ∧ (yearCategories utc 2024 protoExpenses = ["__proto__"]
      ∧ (Statistics utc [] protoExpenses 2024).categoryLabels = []
      ∧ ¬ FirstOccurrenceOrder (Statistics utc [] protoExpenses 2024).categoryLabels
          (yearCategories utc 2024 protoExpenses)) := by
  have h1 : yearCategories utc 2024 numberedExpenses = ["2", "1"] := by decide
  have h2 : (Statistics utc [] numberedExpenses 2024).categoryLabels = ["1", "2"] := by decide
  have h3 : yearCategories utc 2024 protoExpenses = ["__proto__"] := by decide
  have h4 : (Statistics utc [] protoExpenses 2024).categoryLabels = [] := by decide
  refine ⟨⟨h1, h2, ?_⟩, ⟨h3, h4, ?_⟩⟩
  · rw [h1, h2]
    decide
  · rw [h3, h4]
    decide

/-- Where the grouping is right: for every category `c` that is not a property
name inherited from `Object.prototype`, the category breakdown holds under `c`
the sum of the amounts of exactly the expenses dated in the selected year with
category `c`, and holds nothing under `c` when there is no such expense. -/
theorem category_amount_eq_sum (tza : Int → Int) (expenses : List Transaction)
    (selectedYear : Int) (c : String) (hc : c ∉ inheritedNames) :
    (categoryExpenses tza expenses selectedYear).get c
      = if expenses.any (inYearCategory tza selectedYear c) = true
        then some (JSVal.num
          (sumAmounts (expenses.filter (inYearCategory tza selectedYear c))))
        else none :=
  get_foldl_addCategory_none tza selectedYear c hc expenses [] rfl

/-- The category `Logement` of the March 2024 example. -/
theorem category_amount_eq_sum_witness :
    "Logement" ∉ inheritedNames
    ∧ (categoryExpenses utc marchExpenses 2024).get "Logement"
      = if marchExpenses.any (inYearCategory utc 2024 "Logement") = true
        then some (JSVal.num
          (sumAmounts (marchExpenses.filter (inYearCategory utc 2024 "Logement"))))
        else none :=
  ⟨by decide, category_amount_eq_sum utc marchExpenses 2024 "Logement" (by decide)⟩

/-- C4 fails on the code: an expense of 100 in category `constructor` leaves
under that category a string built on the inherited function, not the amount 100. -/
theorem category_amount_fails_on_constructor :
    (categoryExpenses utc constructorExpenses 2024).get "constructor"
        = some (JSVal.str "constructor" [100])
    ∧ sumAmounts (constructorExpenses.filter (inYearCategory utc 2024 "constructor")) = 100
    ∧ (categoryExpenses utc constructorExpenses 2024).get "constructor"
        ≠ some (JSVal.num
          (sumAmounts (constructorExpenses.filter (inYearCategory utc 2024 "constructor")))) := by
  have h1 : (categoryExpenses utc constructorExpenses 2024).get "constructor"
      = some (JSVal.str "constructor" [100]) := by decide
  have h2 : sumAmounts (constructorExpenses.filter (inYearCategory utc 2024 "constructor"))
      = 100 := by
    have : constructorExpenses.filter (inYearCategory utc 2024 "constructor")
        = constructorExpenses := by decide
    rw [this]
    simp [sumAmounts, constructorExpenses]
  refine ⟨h1, h2, ?_⟩
  rw [h1]
  simp

/-! ## The calendar -/

theorem yoe_recover_aux (b r c doy : Int) (hr0 : 0 ≤ r) (hr3 : r ≤ 3)
    (hc0 : 0 ≤ c) (hc3 : c ≤ 3)
    (hc1 : 100 * c ≤ 4 * b + r) (hc2 : 4 * b + r ≤ 100 * c + 99) (hd0 : 0 ≤ doy)
    (hl : doy ≤ 364 ∨ (doy = 365 ∧ r = 3 ∧ (4 * b + r ≠ 100 * c + 99 ∨ 4 * b + r = 399))) :
    (((4 * b + r) * 365 + b - c + doy) - ((4 * b + r) * 365 + b - c + doy) / 1460
      + ((4 * b + r) * 365 + b - c + doy) / 36524
      - ((4 * b + r) * 365 + b - c + doy) / 146096) / 365 = 4 * b + r := by
  generalize hX : (4 * b + r) * 365 + b - c + doy = X
  have hb : 25 * c ≤ b ∧ b ≤ 25 * c + 24 := by omega
  have hX2 : X = 1461 * b + 365 * r - c + doy := by omega
  have hg : X / 146096 = 0 ∨ (X / 146096 = 1 ∧ X = 146096) := by omega
  have hf : X / 36524 = c ∨ (X / 36524 = 4 ∧ X = 146096) := by omega
  have he : X / 1460 = b ∨ (X / 1460 = b + 1 ∧ r = 3 ∧ b - c + doy ≥ 365) := by omega
  rcases hg with hg | ⟨hg, hg2⟩
  · rcases hf with hf | ⟨hf, hf2⟩
    · rcases he with he | ⟨he, he2, he3⟩
      · rw [hg, hf, he]; omega
      · rw [hg, hf, he]; omega
    · omega
  · rcases hf with hf | ⟨hf, hf2⟩
    · omega
    · rcases he with he | ⟨he, he2, he3⟩
      · rw [hg, hf, he]; omega
      · rw [hg, hf, he]; omega

/-- The year of the era is recovered from the day of the era. -/
theorem yoe_recover (yoe doy : Int) (h0 : 0 ≤ yoe) (h1 : yoe ≤ 399) (hd0 : 0 ≤ doy)
    (hd1 : doy ≤ 365)
    (hleap : doy = 365 → (yoe + 1) % 4 = 0 ∧ ((yoe + 1) % 100 ≠ 0 ∨ (yoe + 1) % 400 = 0)) :
    ((yoe * 365 + yoe / 4 - yoe / 100 + doy) - (yoe * 365 + yoe / 4 - yoe / 100 + doy) / 1460
      + (yoe * 365 + yoe / 4 - yoe / 100 + doy) / 36524
      - (yoe * 365 + yoe / 4 - yoe / 100 + doy) / 146096) / 365 = yoe := by
  have hl : doy ≤ 364
      ∨ (doy = 365 ∧ yoe % 4 = 3 ∧ (yoe ≠ 100 * (yoe / 100) + 99 ∨ yoe = 399)) := by
    by_cases h365 : doy = 365
    · obtain ⟨l1, l2⟩ := hleap h365
      right
      refine ⟨h365, by omega, ?_⟩
      rcases l2 with l2 | l2
      · left; omega
      · right; omega
    · left; omega
  have key := yoe_recover_aux (yoe / 4) (yoe % 4) (yoe / 100) doy (by omega) (by omega)
    (by omega) (by omega) (by omega) (by omega) hd0 (by
      rcases hl with hl | ⟨a1, a2, a3⟩
      · exact Or.inl hl
      · refine Or.inr ⟨a1, a2, ?_⟩
        rcases a3 with a3 | a3
        · left; omega
        · right; omega)
  have e : 4 * (yoe / 4) + yoe % 4 = yoe := by omega
  rw [e] at key
  exact key

/-- Calendar date of the day number built from an era, a year of the era and a
day of the year counted from the first of March. -/
theorem civilFromDays_of_parts (era yoe doy : Int) (h0 : 0 ≤ yoe) (h1 : yoe ≤ 399)
    (hd0 : 0 ≤ doy) (hd1 : doy ≤ 365)
    (hleap : doy = 365 → (yoe + 1) % 4 = 0 ∧ ((yoe + 1) % 100 ≠ 0 ∨ (yoe + 1) % 400 = 0)) :
    civilFromDays (era * 146097 + (yoe * 365 + yoe / 4 - yoe / 100 + doy) - 719468)
      = (if (if (5 * doy + 2) / 153 < 10 then (5 * doy + 2) / 153 + 3
              else (5 * doy + 2) / 153 - 9) ≤ 2
          then yoe + era * 400 + 1 else yoe + era * 400,
         if (5 * doy + 2) / 153 < 10 then (5 * doy + 2) / 153 + 3
           else (5 * doy + 2) / 153 - 9,
         doy - (153 * ((5 * doy + 2) / 153) + 2) / 5 + 1) := by
  have hy := yoe_recover yoe doy h0 h1 hd0 hd1 hleap
  generalize hdoe : yoe * 365 + yoe / 4 - yoe / 100 + doy = doe at hy ⊢
  have hb : 0 ≤ doe ∧ doe ≤ 146096 := by omega
  have e1 : (era * 146097 + doe - 719468 + 719468) / 146097 = era := by omega
  have e2 : (era * 146097 + doe - 719468 + 719468) % 146097 = doe := by omega
  simp only [civilFromDays, e1, e2, hy]
  have e3 : doe - (365 * yoe + yoe / 4 - yoe / 100) = doy := by omega
  simp only [e3]

/-- The two calendar conversions are inverse of each other on calendar dates. -/
theorem civilFromDays_daysFromCivil (y m d : Nat) (h : validDate y m d) :
    civilFromDays (daysFromCivil y m d) = ((y : Int), (m : Int), (d : Int)) := by
  obtain ⟨_, hm1, hm2, hd1, hd2⟩ := h
  have hdm : d ≤ if m = 2 then (if (y % 4 = 0 ∧ y % 100 ≠ 0) ∨ y % 400 = 0 then 29 else 28)
      else if m = 4 ∨ m = 6 ∨ m = 9 ∨ m = 11 then 30 else 31 := by
    simpa [daysInMonth, isLeapYear] using hd2
  clear hd2
  have hy0 : (0 : Int) ≤ (y : Int) := Int.ofNat_nonneg y
  have hdi : (1 : Int) ≤ (d : Int) := by exact_mod_cast hd1
  interval_cases m
  case «2» =>
    have hd : (d : Int) ≤ 28 ∨ ((d : Int) = 29
        ∧ (((y : Int) % 4 = 0 ∧ (y : Int) % 100 ≠ 0) ∨ (y : Int) % 400 = 0)) := by
      simp only [if_true] at hdm
      split_ifs at hdm with hl
      · omega
      · omega
    clear hdm
    norm_num [daysFromCivil]
    rw [civilFromDays_of_parts _ _ _ (by omega) (by omega) (by omega) (by omega)
      (by intro h; omega)]
    simp only [Prod.mk.injEq]
    refine ⟨?_, ?_, ?_⟩ <;> (try split_ifs) <;> omega
  all_goals (
    norm_num at hdm
    norm_num [daysFromCivil]
    rw [civilFromDays_of_parts _ _ _ (by omega) (by omega) (by omega) (by omega)
      (by intro h; omega)]
    simp only [Prod.mk.injEq]
    refine ⟨?_, ?_, ?_⟩ <;> (try split_ifs) <;> omega)

/-- In an environment whose local time is at or ahead of UTC, by less than a
day, a date-only string `Y-M-D` is bucketed in year `Y` and month index `M - 1`. -/
theorem date_only_bucket_east_of_utc (tza : Int → Int) (y m d : Nat)
    (hv : validDate y m d) (htz : ∀ t, 0 ≤ tza t ∧ tza t < msPerDay) :
    getFullYear tza (parseDateOnly y m d) = some (y : Int)
    ∧ getMonth tza (parseDateOnly y m d) = some (m - 1) := by
  have hday : (daysFromCivil y m d * msPerDay + tza (daysFromCivil y m d * msPerDay))
      / msPerDay = daysFromCivil y m d := by
    have h := htz (daysFromCivil y m d * msPerDay)
    unfold msPerDay at h ⊢
    omega
  have hm1 : 1 ≤ m := hv.2.1
  simp only [parseDateOnly, hv, if_true, getFullYear, getMonth, Option.map_some', localCivil,
    hday, civilFromDays_daysFromCivil y m d hv, Option.some.injEq, true_and]
  omega

/-! ## Calendar dates and time zones -/

/-- C6 fails on the code: in an environment five hours behind UTC the expense
dated 2024-01-01 is read as local 2023-12-31, so `getFullYear` is 2023 and
`getMonth` is 11 (December), and the Statistics of 2024 leave it out; one hour
ahead of UTC the same date is read as January 2024. -/
theorem date_only_bucket_shifts_west_of_utc :
    validDate 2024 1 1
    ∧ getFullYear utcPlus1 (parseDateOnly 2024 1 1) = some 2024
    ∧ getMonth utcPlus1 (parseDateOnly 2024 1 1) = some 0
    ∧ getFullYear utcMinus5 (parseDateOnly 2024 1 1) = some 2023
    ∧ getMonth utcMinus5 (parseDateOnly 2024 1 1) = some 11
    ∧ (Statistics utcMinus5 [] newYearExpenses 2024).totalExpenses = 0
    ∧ (Statistics utcMinus5 [] newYearExpenses 2023).monthlyExpenses
        = [0, 0, 0, 0, 0, 0, 0, 0, 0, 0, 0, 50] := by
  refine ⟨by decide, by decide, by decide, by decide, by decide, ?_, ?_⟩
  · rw [totalExpenses_eq]
    have : newYearExpenses.filter (inYear utcMinus5 2024) = [] := by decide
    rw [this]
    simp [sumAmounts]
  · show monthlyExpenses (yearlyData utcMinus5 [] newYearExpenses 2023) = _
    rw [monthlyExpenses_eq]
    simp only [expensesAt_yearlyData]
    have h : ∀ i, newYearExpenses.filter (inMonth utcMinus5 2023 i)
        = if i = 11 then newYearExpenses else [] := by
      intro i
      have hy : inYear utcMinus5 2023 ⟨50, "Loisirs", parseDateOnly 2024 1 1⟩ = true := by
        decide
      have hm : getMonth utcMinus5 (parseDateOnly 2024 1 1) = some 11 := by decide
      by_cases hi : i = 11
      · simp [newYearExpenses, inMonth, hy, hm, hi]
      · have hi2 : ¬ 11 = i := fun e => hi e.symm
        simp [newYearExpenses, inMonth, hy, hm, hi, hi2]
    have h2 : ∀ i, sumAmounts (newYearExpenses.filter (inMonth utcMinus5 2023 i))
        = if i = 11 then 50 else 0 := by
      intro i
      rw [h i]
      by_cases hi : i = 11
      · simp [hi, sumAmounts, newYearExpenses]
      · simp [hi, sumAmounts]
    simp only [h2]
    simp [List.range_succ]

/-! ## Savings rate and its colour -/

theorem statistics_savingsRateColor (tza : Int → Int) (incomes expenses : List Transaction)
    (y : Int) :
    (Statistics tza incomes expenses y).savingsRateColor
      = rateColor (Statistics tza incomes expenses y).totalIncome
          (Statistics tza incomes expenses y).totalExpenses := rfl

theorem statistics_savingsRate (tza : Int → Int) (incomes expenses : List Transaction)
    (y : Int) :
    (Statistics tza incomes expenses y).savingsRate
      = savingsRate (Statistics tza incomes expenses y).totalIncome
          ((Statistics tza incomes expenses y).totalIncome
            - (Statistics tza incomes expenses y).totalExpenses) := rfl

/-- C7: a savings rate `r ≥ 0` is shown in the colour of `excellent` when
`r ≥ 20`, of `bon` when `10 ≤ r < 20` and of `moyen` when `r < 10`, the band
boundaries being inclusive below: 10 is good and 20 is excellent. -/
theorem savings_rate_bands (r : ℚ) (_h0 : 0 ≤ r) :
    (20 ≤ r → savingsRateColor r = "#27ae60"
        ∧ savingsRateColor r = getHealthStatusColor "excellent")
    ∧ (10 ≤ r → r < 20 → savingsRateColor r = "#3498db"
        ∧ savingsRateColor r = getHealthStatusColor "bon")
    ∧ (r < 10 → savingsRateColor r = "#f39c12"
        ∧ savingsRateColor r = getHealthStatusColor "moyen")
    ∧ savingsRateColor 10 = getHealthStatusColor "bon"
    ∧ savingsRateColor 20 = getHealthStatusColor "excellent" := by
  have e1 : getHealthStatusColor "excellent" = "#27ae60" := by decide
  have e2 : getHealthStatusColor "bon" = "#3498db" := by decide
  have e3 : getHealthStatusColor "moyen" = "#f39c12" := by decide
  rw [e1, e2, e3]
  refine ⟨?_, ?_, ?_, ?_, ?_⟩
  · intro h
    simp [savingsRateColor, h]
  · intro h1 h2
    simp [savingsRateColor, h1, not_le.2 h2]
  · intro h2
    have h3 : ¬ (20 : ℚ) ≤ r := by linarith
    simp [savingsRateColor, not_le.2 h2, h3]
  · norm_num [savingsRateColor]
  · norm_num [savingsRateColor]

/-- The bands of C7 at the rate 15, which is in the band of `bon`. -/
theorem savings_rate_bands_witness :
    (0 : ℚ) ≤ 15
    ∧ ((20 ≤ (15 : ℚ) → savingsRateColor 15 = "#27ae60"
        ∧ savingsRateColor 15 = getHealthStatusColor "excellent")
    ∧ (10 ≤ (15 : ℚ) → (15 : ℚ) < 20 → savingsRateColor 15 = "#3498db"
        ∧ savingsRateColor 15 = getHealthStatusColor "bon")
    ∧ ((15 : ℚ) < 10 → savingsRateColor 15 = "#f39c12"
        ∧ savingsRateColor 15 = getHealthStatusColor "moyen")
    ∧ savingsRateColor 10 = getHealthStatusColor "bon"
    ∧ savingsRateColor 20 = getHealthStatusColor "excellent") :=
  ⟨by norm_num, savings_rate_bands 15 (by norm_num)⟩

theorem rateColor_of_negative (I E : ℚ) (hI : 0 < I) (hE : I < E) :
    savingsRate I (I - E) < 0 ∧ rateColor I E = "#f39c12" := by
  have hr : savingsRate I (I - E) < 0 := by
    have hneg : (I - E) / I < 0 := div_neg_of_neg_of_pos (by linarith) hI
    simp only [savingsRate, gt_iff_lt, hI, if_true]
    linarith
  refine ⟨hr, ?_⟩
  have h1 : ¬ savingsRate I (I - E) ≥ 20 := by
    intro h; linarith
  have h2 : ¬ savingsRate I (I - E) ≥ 10 := by
    intro h; linarith
  simp only [rateColor, savingsRateColor, h1, h2, if_false]

theorem totals_small_large :
    (Statistics utc smallIncomes largeExpenses 2024).totalIncome = 100
    ∧ (Statistics utc smallIncomes largeExpenses 2024).totalExpenses = 200 := by
  rw [totalIncome_eq, totalExpenses_eq]
  have h1 : smallIncomes.filter (inYear utc 2024) = smallIncomes := by decide
  have h2 : largeExpenses.filter (inYear utc 2024) = largeExpenses := by decide
  rw [h1, h2]
  simp [sumAmounts, smallIncomes, largeExpenses]

/-- C8, amended: when the expenses of the selected year exceed its incomes and the
income is positive, the savings rate is negative and the Statistics page shows
it in `#f39c12`, the colour of `moyen`; the page has no critical colour for the rate. -/
theorem negative_rate_shown_moderate (tza : Int → Int) (incomes expenses : List Transaction)
    (selectedYear : Int)
    (hI : 0 < (Statistics tza incomes expenses selectedYear).totalIncome)
    (hE : (Statistics tza incomes expenses selectedYear).totalIncome
      < (Statistics tza incomes expenses selectedYear).totalExpenses) :
    (Statistics tza incomes expenses selectedYear).savingsRate < 0
    ∧ (Statistics tza incomes expenses selectedYear).savingsRateColor = "#f39c12"
    ∧ (Statistics tza incomes expenses selectedYear).savingsRateColor
        = getHealthStatusColor "moyen" := by
  obtain ⟨h1, h2⟩ := rateColor_of_negative _ _ hI hE
  have e3 : getHealthStatusColor "moyen" = "#f39c12" := by decide
  rw [e3, statistics_savingsRateColor, statistics_savingsRate]
  exact ⟨h1, h2, h2⟩

/-- The amended C8 at an income of 100 and expenses of 200. -/
theorem negative_rate_shown_moderate_witness :
    0 < (Statistics utc smallIncomes largeExpenses 2024).totalIncome
    ∧ (Statistics utc smallIncomes largeExpenses 2024).totalIncome
      < (Statistics utc smallIncomes largeExpenses 2024).totalExpenses
    ∧ (Statistics utc smallIncomes largeExpenses 2024).savingsRate < 0
    ∧ (Statistics utc smallIncomes largeExpenses 2024).savingsRateColor = "#f39c12"
    ∧ (Statistics utc smallIncomes largeExpenses 2024).savingsRateColor
        = getHealthStatusColor "moyen" :=
  ⟨by rw [totals_small_large.1]; norm_num,
   by rw [totals_small_large.1, totals_small_large.2]; norm_num,
   negative_rate_shown_moderate utc smallIncomes largeExpenses 2024
     (by rw [totals_small_large.1]; norm_num)
     (by rw [totals_small_large.1, totals_small_large.2]; norm_num)⟩

/-- C8 as stated fails: with an income of 100 and expenses of 200 in 2024 the
savings rate is -100 and its colour is `#f39c12`, not the colour `#e74c3c`
of `critique`. -/
theorem negative_rate_not_critical :
    (Statistics utc smallIncomes largeExpenses 2024).totalIncome = 100
    ∧ (Statistics utc smallIncomes largeExpenses 2024).totalExpenses = 200
    ∧ (Statistics utc smallIncomes largeExpenses 2024).savingsRate = -100
    ∧ (Statistics utc smallIncomes largeExpenses 2024).savingsRateColor = "#f39c12"
    ∧ getHealthStatusColor "critique" = "#e74c3c"
    ∧ (Statistics utc smallIncomes largeExpenses 2024).savingsRateColor
        ≠ getHealthStatusColor "critique" := by
  have hc : (Statistics utc smallIncomes largeExpenses 2024).savingsRateColor = "#f39c12" := by
    rw [statistics_savingsRateColor, totals_small_large.1, totals_small_large.2]
    exact (rateColor_of_negative 100 200 (by norm_num) (by norm_num)).2
  have hk : getHealthStatusColor "critique" = "#e74c3c" := by decide
  refine ⟨totals_small_large.1, totals_small_large.2, ?_, hc, hk, ?_⟩
  · rw [statistics_savingsRate, totals_small_large.1, totals_small_large.2]
    norm_num [savingsRate]
  · rw [hc, hk]
    decide

theorem rateColor_of_zero_income (E : ℚ) :
    savingsRate 0 (0 - E) = 0 ∧ rateColor 0 E = "#f39c12" := by
  have hr : savingsRate 0 (0 - E) = 0 := by simp [savingsRate]
  refine ⟨hr, ?_⟩
  simp only [rateColor, hr, savingsRateColor]
  norm_num

theorem totals_none_large :
    (Statistics utc [] largeExpenses 2024).totalIncome = 0
    ∧ (Statistics utc [] largeExpenses 2024).totalExpenses = 200 := by
  rw [totalIncome_eq, totalExpenses_eq]
  have h2 : largeExpenses.filter (inYear utc 2024) = largeExpenses := by decide
  rw [h2]
  simp [sumAmounts, largeExpenses]

/-- C9, amended: when the total income of the selected year is zero the savings rate
is 0 and the Statistics page shows it in `#f39c12`, the colour of `moyen`,
whatever the total expenses; it is never the colour of `bon` or `excellent`. -/
theorem zero_income_shown_moderate (tza : Int → Int) (incomes expenses : List Transaction)
    (selectedYear : Int)
    (hI : (Statistics tza incomes expenses selectedYear).totalIncome = 0) :
    (Statistics tza incomes expenses selectedYear).savingsRate = 0
    ∧ (Statistics tza incomes expenses selectedYear).savingsRateColor = "#f39c12"
    ∧ (Statistics tza incomes expenses selectedYear).savingsRateColor
        = getHealthStatusColor "moyen"
    ∧ (Statistics tza incomes expenses selectedYear).savingsRateColor
        ≠ getHealthStatusColor "bon"
    ∧ (Statistics tza incomes expenses selectedYear).savingsRateColor
        ≠ getHealthStatusColor "excellent" := by
  obtain ⟨h1, h2⟩ := rateColor_of_zero_income
    (Statistics tza incomes expenses selectedYear).totalExpenses
  have hc : (Statistics tza incomes expenses selectedYear).savingsRateColor = "#f39c12" := by
    rw [statistics_savingsRateColor, hI]
    exact h2
  refine ⟨?_, hc, ?_, ?_, ?_⟩
  · rw [statistics_savingsRate, hI]
    exact h1
  · rw [hc]; decide
  · rw [hc]; decide
  · rw [hc]; decide

/-- The amended C9 at no income and expenses of 200. -/
theorem zero_income_shown_moderate_witness :
    (Statistics utc [] largeExpenses 2024).totalIncome = 0
    ∧ (Statistics utc [] largeExpenses 2024).savingsRate = 0
    ∧ (Statistics utc [] largeExpenses 2024).savingsRateColor = "#f39c12"
    ∧ (Statistics utc [] largeExpenses 2024).savingsRateColor
        = getHealthStatusColor "moyen"
    ∧ (Statistics utc [] largeExpenses 2024).savingsRateColor
        ≠ getHealthStatusColor "bon"
    ∧ (Statistics utc [] largeExpenses 2024).savingsRateColor
        ≠ getHealthStatusColor "excellent" :=
  ⟨totals_none_large.1,
   zero_income_shown_moderate utc [] largeExpenses 2024 totals_none_large.1⟩

/-- C9 as stated fails: with no income and expenses of 200 in 2024 the colour
of the savings rate is `#f39c12`, not the colour `#e74c3c` of `critique`. -/
theorem zero_income_not_critical :
    (Statistics utc [] largeExpenses 2024).totalIncome = 0
    ∧ 0 < (Statistics utc [] largeExpenses 2024).totalExpenses
    ∧ (Statistics utc [] largeExpenses 2024).savingsRateColor = "#f39c12"
    ∧ getHealthStatusColor "critique" = "#e74c3c"
    ∧ (Statistics utc [] largeExpenses 2024).savingsRateColor
        ≠ getHealthStatusColor "critique" := by
  have hc : (Statistics utc [] largeExpenses 2024).savingsRateColor = "#f39c12" := by
    rw [statistics_savingsRateColor, totals_none_large.1]
    exact (rateColor_of_zero_income _).2
  have hk : getHealthStatusColor "critique" = "#e74c3c" := by decide
  refine ⟨totals_none_large.1, ?_, hc, hk, ?_⟩
  · rw [totals_none_large.2]; norm_num
  · rw [hc, hk]
    decide

theorem colorTier_mono (r1 r2 : ℚ) (h : r1 ≤ r2) :
    colorTier (savingsRateColor r1) ≤ colorTier (savingsRateColor r2) := by
  have t2 : colorTier "#27ae60" = 2 := by decide
  have t1 : colorTier "#3498db" = 1 := by decide
  have t0 : colorTier "#f39c12" = 0 := by decide
  unfold savingsRateColor
  split_ifs with a1 a2 b1 b2 b3 b4 <;> simp only [t0, t1, t2] <;> first | omega | linarith

/-- C10: with total expenses `E ≥ 0` fixed, raising the total income from
`I1 ≥ 0` to `I2 ≥ I1` never lowers the tier of the colour the Statistics page
gives the savings rate (`#f39c12` < `#3498db` < `#27ae60`), the step from a zero
income, whose rate is 0, included. -/
theorem health_tier_monotone_in_income (E I1 I2 : ℚ) (hE : 0 ≤ E) (h1 : 0 ≤ I1)
    (h12 : I1 ≤ I2) :
    colorTier (rateColor I1 E) ≤ colorTier (rateColor I2 E) := by
  unfold rateColor
  rcases h1.lt_or_eq with hpos | hzero
  · have hpos2 : 0 < I2 := lt_of_lt_of_le hpos h12
    apply colorTier_mono
    simp only [savingsRate, gt_iff_lt, hpos, hpos2, if_true]
    have hd : (I1 - E) / I1 ≤ (I2 - E) / I2 := by
      rw [div_le_div_iff₀ hpos hpos2]
      nlinarith [mul_le_mul_of_nonneg_left h12 hE]
    linarith
  · subst hzero
    have hc := (rateColor_of_zero_income E).2
    unfold rateColor at hc
    rw [hc]
    have t0 : colorTier "#f39c12" = 0 := by decide
    rw [t0]
    exact Nat.zero_le _

/-- The monotonicity of C10 from no income to an income of 100, expenses being 50. -/
theorem health_tier_monotone_in_income_witness :
    (0 : ℚ) ≤ 50 ∧ (0 : ℚ) ≤ 0 ∧ (0 : ℚ) ≤ 100
    ∧ colorTier (rateColor 0 50) ≤ colorTier (rateColor 100 50) :=
  ⟨by norm_num, by norm_num, by norm_num,
   health_tier_monotone_in_income 50 0 100 (by norm_num) (by norm_num) (by norm_num)⟩

/-! ## Savings rate: definition and bound -/

/-! ## Empty input and page totals -/

theorem incomes_total_eq (incomes : List Transaction) :
    Incomes.total incomes = sumAmounts incomes := by
  have key : ∀ (l : List Transaction) (a : ℚ),
      l.foldl (fun sum income => sum + income.amount) a = a + sumAmounts l := by
    intro l
    induction l with
    | nil => intro a; simp [sumAmounts]
    | cons t l ih =>
      intro a
      rw [List.foldl_cons, ih, sumAmounts_cons]
      ring
  unfold Incomes.total
  rw [key, zero_add]

theorem expenses_total_eq (expenses : List Transaction) :
    Expenses.total expenses = sumAmounts expenses :=
  incomes_total_eq expenses

theorem sumAmounts_append (l1 l2 : List Transaction) :
    sumAmounts (l1 ++ l2) = sumAmounts l1 + sumAmounts l2 := by
  simp [sumAmounts]

/-- C12: with no income and no expense, whatever the selected year, every sum
is zero and every breakdown is empty: the Statistics totals, savings and rate
are 0, both monthly series are twelve zeros, both category label lists are
empty, and the totals of the Incomes and Expenses pages are 0. -/
theorem empty_input_all_zero (tza : Int → Int) (selectedYear : Int) :
    (Statistics tza [] [] selectedYear).totalIncome = 0
    ∧ (Statistics tza [] [] selectedYear).totalExpenses = 0
    ∧ (Statistics tza [] [] selectedYear).savings = 0
    ∧ (Statistics tza [] [] selectedYear).savingsRate = 0
    ∧ (Statistics tza [] [] selectedYear).monthlyIncome = List.replicate 12 0
    ∧ (Statistics tza [] [] selectedYear).monthlyExpenses = List.replicate 12 0
    ∧ (Statistics tza [] [] selectedYear).categoryLabels = []
    ∧ (Statistics tza [] [] selectedYear).categoryValues = []
    ∧ (Statistics tza [] [] selectedYear).incomeCategoryLabels = []
    ∧ (Statistics tza [] [] selectedYear).incomeCategoryValues = []
    ∧ Incomes.total [] = 0
    ∧ Expenses.total [] = 0 := by
  have hI : (Statistics tza [] [] selectedYear).totalIncome = 0 := by
    rw [totalIncome_eq]; simp [sumAmounts]
  have hE : (Statistics tza [] [] selectedYear).totalExpenses = 0 := by
    rw [totalExpenses_eq]; simp [sumAmounts]
  have hS : (Statistics tza [] [] selectedYear).savings = 0 := by
    show (Statistics tza [] [] selectedYear).totalIncome
      - (Statistics tza [] [] selectedYear).totalExpenses = 0
    rw [hI, hE]; norm_num
  have hR : (Statistics tza [] [] selectedYear).savingsRate = 0 := by
    rw [statistics_savingsRate, hI]
    simp [savingsRate]
  have hMI : (Statistics tza [] [] selectedYear).monthlyIncome = List.replicate 12 0 := by
    show monthlyIncome (yearlyData tza [] [] selectedYear) = _
    rw [monthlyIncome_eq]
    simp only [incomeAt_yearlyData]
    simp [sumAmounts, List.range_succ, List.replicate]
  have hME : (Statistics tza [] [] selectedYear).monthlyExpenses = List.replicate 12 0 := by
    show monthlyExpenses (yearlyData tza [] [] selectedYear) = _
    rw [monthlyExpenses_eq]
    simp only [expensesAt_yearlyData]
    simp [sumAmounts, List.range_succ, List.replicate]
  exact ⟨hI, hE, hS, hR, hMI, hME, rfl, rfl, rfl, rfl, rfl, rfl⟩

/-! ## Amounts that are not positive -/

/-- C13, amended: the client validates no amount and its aggregation never
fails: a transaction of any amount, negative or zero included, enters the sums
as it is. The totals of the Incomes and Expenses pages are the sums of all the
amounts, so a transaction `t` anywhere in the list adds `t.amount`, and the
Statistics totals are the sums of all the amounts of the selected year. -/
theorem amounts_summed_without_validation (tza : Int → Int)
    (incomes expenses l1 l2 : List Transaction) (t : Transaction) (selectedYear : Int) :
    Incomes.total incomes = sumAmounts incomes
    ∧ Expenses.total expenses = sumAmounts expenses
    ∧ Incomes.total (l1 ++ t :: l2) = Incomes.total (l1 ++ l2) + t.amount
    ∧ Expenses.total (l1 ++ t :: l2) = Expenses.total (l1 ++ l2) + t.amount
    ∧ (Statistics tza incomes expenses selectedYear).totalIncome
        = sumAmounts (incomes.filter (inYear tza selectedYear))
    ∧ (Statistics tza incomes expenses selectedYear).totalExpenses
        = sumAmounts (expenses.filter (inYear tza selectedYear)) := by
  refine ⟨incomes_total_eq _, expenses_total_eq _, ?_, ?_, totalIncome_eq _ _ _ _,
    totalExpenses_eq _ _ _ _⟩
  · rw [incomes_total_eq, incomes_total_eq, sumAmounts_append, sumAmounts_append,
      sumAmounts_cons]
    ring
  · rw [expenses_total_eq, expenses_total_eq, sumAmounts_append, sumAmounts_append,
      sumAmounts_cons]
    ring

/-- C13 as stated fails: with an expense of 100 and one of -50 in March 2024
nothing fails, and the amount -50 is in every sum: the total of the Expenses
page and the Statistics total are 50, March holds 50, and the category
`Loisirs` holds -50. -/
theorem negative_amount_is_summed :
    (∃ t ∈ refundExpenses, t.amount ≤ 0)
    ∧ Expenses.total refundExpenses = 50
    ∧ (Statistics utc [] refundExpenses 2024).totalExpenses = 50
    ∧ (Statistics utc [] refundExpenses 2024).monthlyExpenses
        = [0, 0, 50, 0, 0, 0, 0, 0, 0, 0, 0, 0]
    ∧ (categoryExpenses utc refundExpenses 2024).get "Loisirs" = some (JSVal.num (-50)) := by
  refine ⟨⟨⟨-50, "Loisirs", parseDateOnly 2024 3 6⟩, by simp [refundExpenses], by norm_num⟩,
    ?_, ?_, ?_, ?_⟩
  · rw [expenses_total_eq]
    norm_num [sumAmounts, refundExpenses]
  · rw [totalExpenses_eq]
    have : refundExpenses.filter (inYear utc 2024) = refundExpenses := by decide
    rw [this]
    norm_num [sumAmounts, refundExpenses]
  · show monthlyExpenses (yearlyData utc [] refundExpenses 2024) = _
    rw [monthlyExpenses_eq]
    simp only [expensesAt_yearlyData]
    have h : ∀ i, refundExpenses.filter (inMonth utc 2024 i)
        = if i = 2 then refundExpenses else [] := by
      intro i
      have hy1 : inYear utc 2024 ⟨100, "Logement", parseDateOnly 2024 3 5⟩ = true := by
        decide
      have hy2 : inYear utc 2024 ⟨-50, "Loisirs", parseDateOnly 2024 3 6⟩ = true := by
        decide
      have hm1 : getMonth utc (parseDateOnly 2024 3 5) = some 2 := by decide
      have hm2 : getMonth utc (parseDateOnly 2024 3 6) = some 2 := by decide
      by_cases hi : i = 2
      · simp [refundExpenses, inMonth, hy1, hy2, hm1, hm2, hi]
      · have hi2 : ¬ 2 = i := fun e => hi e.symm
        simp [refundExpenses, inMonth, hy1, hy2, hm1, hm2, hi, hi2]
    have h2 : ∀ i, sumAmounts (refundExpenses.filter (inMonth utc 2024 i))
        = if i = 2 then 50 else 0 := by
      intro i
      rw [h i]
      by_cases hi : i = 2
      · simp only [hi, if_true]
        norm_num [sumAmounts, refundExpenses]
      · simp [hi, sumAmounts]
    simp only [h2]
    simp [List.range_succ]
  · have hc : "Loisirs" ∉ inheritedNames := by decide
    rw [categoryExpenses, get_foldl_addCategory_none utc 2024 "Loisirs" hc refundExpenses [] rfl]
    have ha : refundExpenses.any (inYearCategory utc 2024 "Loisirs") = true := by decide
    have hf : refundExpenses.filter (inYearCategory utc 2024 "Loisirs")
        = [⟨-50, "Loisirs", parseDateOnly 2024 3 6⟩] := by decide
    rw [hf]
    simp [ha, sumAmounts]

/-! ## Savings goals -/

theorem progress_nonneg (goal : SavingsGoal) (ht : 0 < goal.target_amount)
    (hc : 0 ≤ goal.current_amount) : 0 ≤ progress goal := by
  unfold progress
  have : 0 ≤ goal.current_amount / goal.target_amount := div_nonneg hc ht.le
  linarith

theorem progress_ge_iff (goal : SavingsGoal) (ht : 0 < goal.target_amount) :
    100 ≤ progress goal ↔ goal.target_amount ≤ goal.current_amount := by
  unfold progress
  rw [← one_le_div ht]
  constructor <;> intro h <;> linarith

/-- C14: for a goal with a positive target and a current amount that is not
negative, the width of the progress bar is `min (current / target * 100) 100`,
lies between 0 and 100, and is 100 exactly when the current amount has reached
the target; rendering leaves the goal object as it was. -/
theorem progress_bar_width_clamped (goal : SavingsGoal) (ht : 0 < goal.target_amount)
    (hc : 0 ≤ goal.current_amount) :
    (renderGoal goal).1.progressFillWidth
        = min (goal.current_amount / goal.target_amount * 100) 100
    ∧ 0 ≤ (renderGoal goal).1.progressFillWidth
    ∧ (renderGoal goal).1.progressFillWidth ≤ 100
    ∧ ((renderGoal goal).1.progressFillWidth = 100
        ↔ goal.target_amount ≤ goal.current_amount)
    ∧ (renderGoal goal).2 = goal
    ∧ (renderGoal goal).2.current_amount = goal.current_amount
    ∧ (renderGoal goal).2.target_amount = goal.target_amount := by
  have hw : (renderGoal goal).1.progressFillWidth = min (progress goal) 100 := rfl
  refine ⟨rfl, ?_, ?_, ?_, rfl, rfl, rfl⟩
  · rw [hw]
    exact le_min (progress_nonneg goal ht hc) (by norm_num)
  · rw [hw]
    exact min_le_right _ _
  · rw [hw, min_eq_right_iff]
    exact progress_ge_iff goal ht

/-- C14 at a goal of 1000 of which 500 are saved. -/
theorem progress_bar_width_clamped_witness :
    0 < halfGoal.target_amount ∧ 0 ≤ halfGoal.current_amount
    ∧ (renderGoal halfGoal).1.progressFillWidth
        = min (halfGoal.current_amount / halfGoal.target_amount * 100) 100
    ∧ 0 ≤ (renderGoal halfGoal).1.progressFillWidth
    ∧ (renderGoal halfGoal).1.progressFillWidth ≤ 100
    ∧ ((renderGoal halfGoal).1.progressFillWidth = 100
        ↔ halfGoal.target_amount ≤ halfGoal.current_amount)
    ∧ (renderGoal halfGoal).2 = halfGoal
    ∧ (renderGoal halfGoal).2.current_amount = halfGoal.current_amount
    ∧ (renderGoal halfGoal).2.target_amount = halfGoal.target_amount :=
  ⟨by norm_num [halfGoal], by norm_num [halfGoal],
   progress_bar_width_clamped halfGoal (by norm_num [halfGoal]) (by norm_num [halfGoal])⟩

/-! ## The worked example -/

theorem inYear_dateOnly_east (tza : Int → Int) (htz : ∀ t, 0 ≤ tza t ∧ tza t < msPerDay)
    (a : ℚ) (c : String) (y m d : Nat) (hv : validDate y m d) :
    inYear tza y ⟨a, c, parseDateOnly y m d⟩ = true := by
  simp [inYear, (date_only_bucket_east_of_utc tza y m d hv htz).1]

theorem inMonth_dateOnly_east (tza : Int → Int) (htz : ∀ t, 0 ≤ tza t ∧ tza t < msPerDay)
    (a : ℚ) (c : String) (y m d i : Nat) (hv : validDate y m d) :
    inMonth tza y i ⟨a, c, parseDateOnly y m d⟩ = decide (m - 1 = i) := by
  simp [inMonth, inYear, (date_only_bucket_east_of_utc tza y m d hv htz).1,
    (date_only_bucket_east_of_utc tza y m d hv htz).2]

theorem march_totals (tza : Int → Int) (htz : ∀ t, 0 ≤ tza t ∧ tza t < msPerDay) :
    (Statistics tza marchIncomes marchExpenses 2024).totalIncome = 3000
    ∧ (Statistics tza marchIncomes marchExpenses 2024).totalExpenses = 1500 := by
  rw [totalIncome_eq, totalExpenses_eq]
  have h1 := inYear_dateOnly_east tza htz 3000 "Salaire" 2024 3 1 (by decide)
  have h2 := inYear_dateOnly_east tza htz 1200 "Logement" 2024 3 5 (by decide)
  have h3 := inYear_dateOnly_east tza htz 300 "Nourriture" 2024 3 10 (by decide)
  simp only [Nat.cast_ofNat] at h1 h2 h3
  constructor
  · simp only [marchIncomes, List.filter_cons, h1, if_true, List.filter_nil]
    norm_num [sumAmounts]
  · simp only [marchExpenses, List.filter_cons, h2, h3, if_true, List.filter_nil]
    norm_num [sumAmounts]

theorem march_categories (tza : Int → Int) (htz : ∀ t, 0 ≤ tza t ∧ tza t < msPerDay) :
    categoryExpenses tza marchExpenses 2024
      = [("Logement", JSVal.num 1200), ("Nourriture", JSVal.num 300)] := by
  have h2 := inYear_dateOnly_east tza htz 1200 "Logement" 2024 3 5 (by decide)
  have h3 := inYear_dateOnly_east tza htz 300 "Nourriture" 2024 3 10 (by decide)
  simp only [Nat.cast_ofNat] at h2 h3
  have p1 : ¬ "Logement" ∈ objectPrototypeMethods := by decide
  have p2 : ¬ "Nourriture" ∈ objectPrototypeMethods := by decide
  have q1 : ¬ "Logement" = "__proto__" := by decide
  have q2 : ¬ "Nourriture" = "__proto__" := by decide
  have q3 : ¬ "Logement" = "Nourriture" := by decide
  simp only [categoryExpenses, marchExpenses, List.foldl_cons, List.foldl_nil,
    addCategory_of_inYear _ _ _ _ h2, addCategory_of_inYear _ _ _ _ h3]
  simp only [accumulate, Props.get, Props.set, p1, p2, q1, q2, q3, if_false, zero_add]

/-- In an environment whose local time is at or ahead of UTC, the example
of 2024 (income 3000 `Salaire` on 2024-03-01, expenses 1200 `Logement` on
2024-03-05 and 300 `Nourriture` on 2024-03-10) gives the totals 3000 and 1500,
the savings 1500, 3000 and 1500 in March and 0 in the other months, the
breakdown `Logement` 1200 then `Nourriture` 300, the savings rate 50 and the
colour `#27ae60` of `excellent`. -/
theorem march_example_east_of_utc (tza : Int → Int)
    (htz : ∀ t, 0 ≤ tza t ∧ tza t < msPerDay) :
    (Statistics tza marchIncomes marchExpenses 2024).totalIncome = 3000
    ∧ (Statistics tza marchIncomes marchExpenses 2024).totalExpenses = 1500
    ∧ (Statistics tza marchIncomes marchExpenses 2024).savings = 1500
    ∧ (Statistics tza marchIncomes marchExpenses 2024).monthlyIncome
        = [0, 0, 3000, 0, 0, 0, 0, 0, 0, 0, 0, 0]
    ∧ (Statistics tza marchIncomes marchExpenses 2024).monthlyExpenses
        = [0, 0, 1500, 0, 0, 0, 0, 0, 0, 0, 0, 0]
    ∧ (Statistics tza marchIncomes marchExpenses 2024).categoryLabels
        = ["Logement", "Nourriture"]
    ∧ (Statistics tza marchIncomes marchExpenses 2024).categoryValues
        = [JSVal.num 1200, JSVal.num 300]
    ∧ (Statistics tza marchIncomes marchExpenses 2024).savingsRate = 50
    ∧ (Statistics tza marchIncomes marchExpenses 2024).savingsRateColor = "#27ae60"
    ∧ (Statistics tza marchIncomes marchExpenses 2024).savingsRateColor
        = getHealthStatusColor "excellent" := by
  obtain ⟨hI, hE⟩ := march_totals tza htz
  have hS : (Statistics tza marchIncomes marchExpenses 2024).savings = 1500 := by
    show (Statistics tza marchIncomes marchExpenses 2024).totalIncome
      - (Statistics tza marchIncomes marchExpenses 2024).totalExpenses = 1500
    rw [hI, hE]; norm_num
  have hR : (Statistics tza marchIncomes marchExpenses 2024).savingsRate = 50 := by
    rw [statistics_savingsRate, hI, hE]
    norm_num [savingsRate]
  have hC : (Statistics tza marchIncomes marchExpenses 2024).savingsRateColor = "#27ae60" := by
    show savingsRateColor (Statistics tza marchIncomes marchExpenses 2024).savingsRate = _
    rw [hR]
    norm_num [savingsRateColor]
  have hMI : (Statistics tza marchIncomes marchExpenses 2024).monthlyIncome
      = [0, 0, 3000, 0, 0, 0, 0, 0, 0, 0, 0, 0] := by
    show monthlyIncome (yearlyData tza marchIncomes marchExpenses 2024) = _
    rw [monthlyIncome_eq]
    simp only [incomeAt_yearlyData]
    have h := fun i => inMonth_dateOnly_east tza htz 3000 "Salaire" 2024 3 1 i (by decide)
    simp only [Nat.cast_ofNat] at h
    simp [marchIncomes, List.filter_cons, h, List.range_succ, sumAmounts]
  have hME : (Statistics tza marchIncomes marchExpenses 2024).monthlyExpenses
      = [0, 0, 1500, 0, 0, 0, 0, 0, 0, 0, 0, 0] := by
    show monthlyExpenses (yearlyData tza marchIncomes marchExpenses 2024) = _
    rw [monthlyExpenses_eq]
    simp only [expensesAt_yearlyData]
    have h1 := fun i => inMonth_dateOnly_east tza htz 1200 "Logement" 2024 3 5 i (by decide)
    have h2 := fun i => inMonth_dateOnly_east tza htz 300 "Nourriture" 2024 3 10 i (by decide)
    simp only [Nat.cast_ofNat] at h1 h2
    simp [marchExpenses, List.filter_cons, h1, h2, List.range_succ, sumAmounts]
    norm_num
  have hL : (Statistics tza marchIncomes marchExpenses 2024).categoryLabels
      = ["Logement", "Nourriture"] := by
    show objectKeys (categoryExpenses tza marchExpenses 2024) = _
    rw [march_categories tza htz]
    decide
  have hV : (Statistics tza marchIncomes marchExpenses 2024).categoryValues
      = [JSVal.num 1200, JSVal.num 300] := by
    show objectValues (categoryExpenses tza marchExpenses 2024) = _
    rw [march_categories tza htz]
    decide
  exact ⟨hI, hE, hS, hMI, hME, hL, hV, hR, hC, by rw [hC]; decide⟩

/-- C16 fails on the code in an environment five hours behind UTC: the income
dated 2024-03-01 is read as local 2024-02-29, so the 3000 are in February
(`monthlyIncome[1]`) and March (`monthlyIncome[2]`) holds 0, while the total
income of 2024 stays 3000; the expenses of 2024-03-05 and 2024-03-10 stay in March. -/
theorem worked_example_shifts_west_of_utc :
    getFullYear utcMinus5 (parseDateOnly 2024 3 1) = some 2024
    ∧ getMonth utcMinus5 (parseDateOnly 2024 3 1) = some 1
    ∧ (Statistics utcMinus5 marchIncomes marchExpenses 2024).monthlyIncome
        = [0, 3000, 0, 0, 0, 0, 0, 0, 0, 0, 0, 0]
    ∧ (Statistics utcMinus5 marchIncomes marchExpenses 2024).monthlyIncome
        ≠ [0, 0, 3000, 0, 0, 0, 0, 0, 0, 0, 0, 0]
    ∧ (Statistics utcMinus5 marchIncomes marchExpenses 2024).totalIncome = 3000
    ∧ (Statistics utcMinus5 marchIncomes marchExpenses 2024).categoryLabels
        = ["Logement", "Nourriture"] := by
  have hMI : (Statistics utcMinus5 marchIncomes marchExpenses 2024).monthlyIncome
      = [0, 3000, 0, 0, 0, 0, 0, 0, 0, 0, 0, 0] := by
    show monthlyIncome (yearlyData utcMinus5 marchIncomes marchExpenses 2024) = _
    rw [monthlyIncome_eq]
    simp only [incomeAt_yearlyData]
    have hy : inYear utcMinus5 2024 ⟨3000, "Salaire", parseDateOnly 2024 3 1⟩ = true := by
      decide
    have hm : getMonth utcMinus5 (parseDateOnly 2024 3 1) = some 1 := by decide
    have h2 : ∀ i, sumAmounts (marchIncomes.filter (inMonth utcMinus5 2024 i))
        = if i = 1 then 3000 else 0 := by
      intro i
      by_cases hi : i = 1
      · simp [marchIncomes, inMonth, hy, hm, hi, sumAmounts]
      · have hi2 : ¬ 1 = i := fun e => hi e.symm
        simp [marchIncomes, inMonth, hy, hm, hi, hi2, sumAmounts]
    simp only [h2]
    simp [List.range_succ]
  refine ⟨by decide, by decide, hMI, ?_, ?_, by decide⟩
  · rw [hMI]
    intro h
    have h1 := (List.cons.inj (List.cons.inj h).2).1
    norm_num at h1
  · rw [totalIncome_eq]
    have : marchIncomes.filter (inYear utcMinus5 2024) = marchIncomes := by decide
    rw [this]
    norm_num [sumAmounts, marchIncomes]

/-! ## Order of the input lists -/

theorem monthlyIncome_statistics (tza : Int → Int) (incomes expenses : List Transaction)
    (y : Int) :
    (Statistics tza incomes expenses y).monthlyIncome
      = (List.range 12).map (fun i => sumAmounts (incomes.filter (inMonth tza y i))) := by
  show monthlyIncome (yearlyData tza incomes expenses y) = _
  rw [monthlyIncome_eq]
  simp only [incomeAt_yearlyData]

theorem monthlyExpenses_statistics (tza : Int → Int) (incomes expenses : List Transaction)
    (y : Int) :
    (Statistics tza incomes expenses y).monthlyExpenses
      = (List.range 12).map (fun i => sumAmounts (expenses.filter (inMonth tza y i))) := by
  show monthlyExpenses (yearlyData tza incomes expenses y) = _
  rw [monthlyExpenses_eq]
  simp only [expensesAt_yearlyData]

theorem sumAmounts_filter_perm (p : Transaction → Bool) {l1 l2 : List Transaction}
    (h : l1.Perm l2) : sumAmounts (l1.filter p) = sumAmounts (l2.filter p) := by
  unfold sumAmounts
  exact ((h.filter p).map fun t => t.amount).sum_eq

theorem any_perm (p : Transaction → Bool) {l1 l2 : List Transaction} (h : l1.Perm l2) :
    l1.any p = l2.any p := by
  rw [Bool.eq_iff_iff, List.any_eq_true, List.any_eq_true]
  constructor
  · rintro ⟨x, hx, hp⟩
    exact ⟨x, h.mem_iff.1 hx, hp⟩
  · rintro ⟨x, hx, hp⟩
    exact ⟨x, h.mem_iff.2 hx, hp⟩

theorem yearCategories_cons (tza : Int → Int) (y : Int) (t : Transaction)
    (ts : List Transaction) :
    yearCategories tza y (t :: ts)
      = if inYear tza y t = true then t.category :: yearCategories tza y ts
        else yearCategories tza y ts := by
  by_cases h : inYear tza y t = true <;> simp [yearCategories, List.filter_cons, h]

/-- Keys of a category object after the loop, as a set. -/
theorem keys_foldl_nodup_mem (tza : Int → Int) (y : Int) (ts : List Transaction)
    (obj : Props String JSVal) (hn : (obj.map Prod.fst).Nodup)
    (hp : "__proto__" ∉ obj.map Prod.fst) :
    ((ts.foldl (addCategory tza y) obj).map Prod.fst).Nodup
    ∧ "__proto__" ∉ (ts.foldl (addCategory tza y) obj).map Prod.fst
    ∧ ∀ k, k ∈ (ts.foldl (addCategory tza y) obj).map Prod.fst
        ↔ k ∈ obj.map Prod.fst ∨ (k ∈ yearCategories tza y ts ∧ k ≠ "__proto__") := by
  induction ts generalizing obj with
  | nil => exact ⟨hn, hp, fun k => by simp [yearCategories]⟩
  | cons t ts ih =>
    rw [List.foldl_cons, yearCategories_cons]
    by_cases hy : inYear tza y t = true
    · rw [addCategory_of_inYear _ _ _ _ hy]
      simp only [hy, if_true]
      by_cases hc : t.category = "__proto__"
      · rw [hc, keys_accumulate_proto _ _ hp]
        obtain ⟨a1, a2, a3⟩ := ih obj hn hp
        refine ⟨a1, a2, fun k => ?_⟩
        rw [a3 k]
        constructor
        · rintro (h | ⟨h1, h2⟩)
          · exact Or.inl h
          · exact Or.inr ⟨List.mem_cons_of_mem _ h1, h2⟩
        · rintro (h | ⟨h1, h2⟩)
          · exact Or.inl h
          · rcases List.mem_cons.1 h1 with h1 | h1
            · exact absurd h1 h2
            · exact Or.inr ⟨h1, h2⟩
      · have hk := keys_accumulate obj t.category t.amount hc
        have hn2 : ((accumulate obj t.category t.amount).map Prod.fst).Nodup := by
          rw [hk]
          split_ifs with hin
          · exact hn
          · exact List.Nodup.append hn (List.nodup_singleton _) (by simpa using hin)
        have hp2 : "__proto__" ∉ (accumulate obj t.category t.amount).map Prod.fst := by
          rw [hk]
          split_ifs with hin
          · exact hp
          · simp only [List.mem_append, List.mem_singleton, not_or]
            exact ⟨hp, fun e => hc e.symm⟩
        have hm : ∀ k, k ∈ (accumulate obj t.category t.amount).map Prod.fst
            ↔ k ∈ obj.map Prod.fst ∨ k = t.category := by
          intro k
          rw [hk]
          split_ifs with hin
          · constructor
            · exact fun h => Or.inl h
            · rintro (h | h)
              · exact h
              · exact h ▸ hin
          · simp
        obtain ⟨a1, a2, a3⟩ := ih _ hn2 hp2
        refine ⟨a1, a2, fun k => ?_⟩
        rw [a3 k, hm k]
        constructor
        · rintro ((h | h) | ⟨h1, h2⟩)
          · exact Or.inl h
          · exact Or.inr ⟨h ▸ List.mem_cons_self _ _, h ▸ hc⟩
          · exact Or.inr ⟨List.mem_cons_of_mem _ h1, h2⟩
        · rintro (h | ⟨h1, h2⟩)
          · exact Or.inl (Or.inl h)
          · rcases List.mem_cons.1 h1 with h1 | h1
            · exact Or.inl (Or.inr h1)
            · exact Or.inr ⟨h1, h2⟩
    · rw [addCategory_of_not_inYear _ _ _ _ hy]
      simp only [hy]
      exact ih obj hn hp

theorem objectKeys_perm_keys {ν : Type} (obj : Props String ν) :
    (objectKeys obj).Perm (obj.map Prod.fst) :=
  (ownEntries_perm obj).map Prod.fst

/-- Labels of the category objects of two lists that are permutations of each other. -/
theorem labels_perm (tza : Int → Int) (y : Int) {l1 l2 : List Transaction}
    (h : l1.Perm l2) :
    (objectKeys (l1.foldl (addCategory tza y) [])).Perm
      (objectKeys (l2.foldl (addCategory tza y) [])) := by
  obtain ⟨n1, _, m1⟩ := keys_foldl_nodup_mem tza y l1 [] (by simp) (by simp)
  obtain ⟨n2, _, m2⟩ := keys_foldl_nodup_mem tza y l2 [] (by simp) (by simp)
  refine ((objectKeys_perm_keys _).trans ?_).trans (objectKeys_perm_keys _).symm
  rw [List.perm_ext_iff_of_nodup n1 n2]
  intro k
  rw [m1 k, m2 k]
  have hyc : k ∈ yearCategories tza y l1 ↔ k ∈ yearCategories tza y l2 :=
    ((h.filter _).map _).mem_iff
  rw [hyc]

theorem get_category_perm (tza : Int → Int) (y : Int) (c : String) (hc : c ∉ inheritedNames)
    {l1 l2 : List Transaction} (h : l1.Perm l2) :
    (l1.foldl (addCategory tza y) []).get c = (l2.foldl (addCategory tza y) []).get c := by
  rw [get_foldl_addCategory_none tza y c hc l1 [] rfl,
    get_foldl_addCategory_none tza y c hc l2 [] rfl,
    any_perm _ h, sumAmounts_filter_perm _ h]

/-- Under an inherited property name the order of the list shows too: two
expenses of 1 and 2 in category `constructor` leave under that category the
inherited function followed by `1` then `2`, and in the other order followed by
`2` then `1`. -/
theorem category_value_depends_on_order :
    constructorPair.Perm constructorPairSwapped
    ∧ (categoryExpenses utc constructorPair 2024).get "constructor"
        = some (JSVal.str "constructor" [1, 2])
    ∧ (categoryExpenses utc constructorPairSwapped 2024).get "constructor"
        = some (JSVal.str "constructor" [2, 1])
    ∧ (categoryExpenses utc constructorPair 2024).get "constructor"
        ≠ (categoryExpenses utc constructorPairSwapped 2024).get "constructor"
    ∧ (Statistics utc [] constructorPair 2024).categoryValues
        ≠ (Statistics utc [] constructorPairSwapped 2024).categoryValues := by
  refine ⟨?_, by decide, by decide, by decide, by decide⟩
  unfold constructorPair constructorPairSwapped
  exact List.Perm.swap _ _ _

/-! ## The evolution charts -/

/-- C18, amended: the evolution charts have as many entries as the array
`stats.monthly_evolution` the client received, whatever its length: in
Statistics and in Dashboard the labels are the months of its entries and the two
datasets their incomes and their expenses, in the same order, so the labels and
both datasets have its length, hence 6 when it has 6 entries; when the field is
absent the chart of Statistics has no label and no dataset and Dashboard builds
no chart. -/
theorem evolution_chart_length (stats : DashboardStats) :
    (∀ evolution : List EvolutionEntry, stats.monthly_evolution = some evolution →
      Statistics.evolutionData stats
          = { labels := evolution.map fun e => e.month
              datasets := [{ label := "Revenus", data := evolution.map fun e => e.income },
                           { label := "Dépenses",
                             data := evolution.map fun e => e.expenses }] }
      ∧ Dashboard.evolutionData stats = some (Statistics.evolutionData stats)
      ∧ (Statistics.evolutionData stats).labels.length = evolution.length
      ∧ (Statistics.evolutionData stats).datasets.map (fun d => d.data.length)
          = [evolution.length, evolution.length]
      ∧ (evolution.length = 6 →
          (Statistics.evolutionData stats).labels.length = 6
          ∧ (Statistics.evolutionData stats).datasets.map (fun d => d.data.length) = [6, 6]))
    ∧ (stats.monthly_evolution = none →
        Statistics.evolutionData stats = { labels := [], datasets := [] }
        ∧ Dashboard.evolutionData stats = none) := by
  refine ⟨?_, ?_⟩
  · intro evolution h
    have hS : Statistics.evolutionData stats
        = { labels := evolution.map fun e => e.month
            datasets := [{ label := "Revenus", data := evolution.map fun e => e.income },
                         { label := "Dépenses",
                           data := evolution.map fun e => e.expenses }] } := by
      simp only [Statistics.evolutionData, h]
    have hD : Dashboard.evolutionData stats = some (Statistics.evolutionData stats) := by
      rw [hS]
      simp only [Dashboard.evolutionData, h]
    refine ⟨hS, hD, ?_, ?_, ?_⟩
    · rw [hS]; simp
    · rw [hS]; simp
    · intro h6
      rw [hS]
      simp [h6]
  · intro h
    simp only [Statistics.evolutionData, Dashboard.evolutionData, h, and_self]

/-- The amended C18 at six months of evolution: both charts have six entries. -/
theorem evolution_chart_length_witness :
    (Statistics.evolutionData ⟨some sixMonths⟩).labels.length = 6
    ∧ (Statistics.evolutionData ⟨some sixMonths⟩).datasets.map (fun d => d.data.length)
        = [6, 6]
    ∧ Dashboard.evolutionData ⟨some sixMonths⟩
        = some (Statistics.evolutionData ⟨some sixMonths⟩) :=
  have h := (evolution_chart_length ⟨some sixMonths⟩).1 sixMonths rfl
  ⟨(h.2.2.2.2 rfl).1, (h.2.2.2.2 rfl).2, h.2.1⟩

/-- C18 as stated fails: for a stats object whose `monthly_evolution` is the
empty array both charts have no entry, for one with a single entry they have
one, and when the field is absent the chart of Statistics has no label and no
dataset. -/
theorem evolution_chart_not_always_six :
    (Statistics.evolutionData ⟨some []⟩).labels.length = 0
    ∧ (Statistics.evolutionData ⟨some []⟩).datasets.map (fun d => d.data.length) = [0, 0]
    ∧ (Dashboard.evolutionData ⟨some []⟩).map (fun data => data.labels.length) = some 0
    ∧ (Statistics.evolutionData ⟨some [⟨"Mar", 3000, 1500⟩]⟩).labels.length = 1
    ∧ (Statistics.evolutionData ⟨none⟩).labels.length = 0
    ∧ (Statistics.evolutionData ⟨none⟩).datasets = [] := by
  refine ⟨rfl, rfl, rfl, rfl, rfl, rfl⟩

/-! ## Health status of the Dashboard -/

theorem healthStatus_cases (s : String) :
    (s = "excellent" ∧ getHealthStatusColor s = "#27ae60" ∧ getHealthStatusText s = "Excellent")
    ∨ (s = "bon" ∧ getHealthStatusColor s = "#3498db" ∧ getHealthStatusText s = "Bon")
    ∨ (s = "moyen" ∧ getHealthStatusColor s = "#f39c12" ∧ getHealthStatusText s = "Moyen")
    ∨ (s = "critique" ∧ getHealthStatusColor s = "#e74c3c"
        ∧ getHealthStatusText s = "Critique")
    ∨ ((s ≠ "excellent" ∧ s ≠ "bon" ∧ s ≠ "moyen" ∧ s ≠ "critique")
        ∧ getHealthStatusColor s = "#95a5a6" ∧ getHealthStatusText s = "Inconnu") := by
  by_cases h1 : s = "excellent"
  · left; subst h1; decide
  by_cases h2 : s = "bon"
  · right; left; subst h2; decide
  by_cases h3 : s = "moyen"
  · right; right; left; subst h3; decide
  by_cases h4 : s = "critique"
  · right; right; right; left; subst h4; decide
  · right; right; right; right
    exact ⟨⟨h1, h2, h3, h4⟩, by simp [getHealthStatusColor, h1, h2, h3, h4],
      by simp [getHealthStatusText, h1, h2, h3, h4]⟩

/-- C20: the colours and the labels of the four statuses `excellent`, `bon`,
`moyen`, `critique` are pairwise distinct, every other status gets the default
colour `#95a5a6` and the label `Inconnu`, and for every status the label is
`Inconnu` if and only if the colour is `#95a5a6`. -/
theorem health_status_rendering_consistent (s : String) :
    (["excellent", "bon", "moyen", "critique"].map getHealthStatusColor).Nodup
    ∧ (["excellent", "bon", "moyen", "critique"].map getHealthStatusText).Nodup
    ∧ (s ∉ ["excellent", "bon", "moyen", "critique"]
        → getHealthStatusColor s = "#95a5a6" ∧ getHealthStatusText s = "Inconnu")
    ∧ (getHealthStatusText s = "Inconnu" ↔ getHealthStatusColor s = "#95a5a6") := by
  refine ⟨by decide, by decide, ?_, ?_⟩
  · intro hs
    simp only [List.mem_cons, List.mem_singleton, List.not_mem_nil, or_false, not_or] at hs
    obtain ⟨h1, h2, h3, h4⟩ := hs
    exact ⟨by simp [getHealthStatusColor, h1, h2, h3, h4],
      by simp [getHealthStatusText, h1, h2, h3, h4]⟩
  · rcases healthStatus_cases s with ⟨_, hc, ht⟩ | ⟨_, hc, ht⟩ | ⟨_, hc, ht⟩ | ⟨_, hc, ht⟩
      | ⟨_, hc, ht⟩ <;> rw [hc, ht] <;> decide

/-! ## Transactions outside the selected year -/

theorem foldl_skip {σ α : Type} (f : σ → α → σ) (t : α) (h : ∀ s, f s t = s)
    (l1 l2 : List α) (s : σ) : (l1 ++ t :: l2).foldl f s = (l1 ++ l2).foldl f s := by
  rw [List.foldl_append, List.foldl_cons, h, List.foldl_append]

theorem addIncome_of_other_year (tza : Int → Int) (y : Int) (t : Transaction)
    (h : getFullYear tza t.date ≠ some y) (yd : YearlyData) : addIncome tza y yd t = yd := by
  simp [addIncome, h]

theorem addExpense_of_other_year (tza : Int → Int) (y : Int) (t : Transaction)
    (h : getFullYear tza t.date ≠ some y) (yd : YearlyData) : addExpense tza y yd t = yd := by
  simp [addExpense, h]

theorem addCategory_of_other_year (tza : Int → Int) (y : Int) (t : Transaction)
    (h : getFullYear tza t.date ≠ some y) (obj : Props String JSVal) :
    addCategory tza y obj t = obj := by
  simp [addCategory, h]

/-- C19: a transaction that the year test `getFullYear() === selectedYear`
rejects contributes nothing: with it or without it, wherever it stands in the
list of incomes or in the list of expenses, the Statistics page computes the
same monthly series, category labels and values, totals, savings and savings rate. -/
theorem out_of_year_transaction_ignored (tza : Int → Int) (l1 l2 others : List Transaction)
    (t : Transaction) (selectedYear : Int)
    (h : getFullYear tza t.date ≠ some selectedYear) :
    Statistics tza (l1 ++ t :: l2) others selectedYear
        = Statistics tza (l1 ++ l2) others selectedYear
    ∧ Statistics tza others (l1 ++ t :: l2) selectedYear
        = Statistics tza others (l1 ++ l2) selectedYear := by
  have h1 := foldl_skip (addIncome tza selectedYear) t (addIncome_of_other_year tza _ t h)
  have h2 := foldl_skip (addExpense tza selectedYear) t (addExpense_of_other_year tza _ t h)
  have h3 := foldl_skip (addCategory tza selectedYear) t (addCategory_of_other_year tza _ t h)
  constructor
  · simp only [Statistics, yearlyData, categoryIncomes, h1, h3]
  · simp only [Statistics, yearlyData, categoryExpenses, h2, h3]

/-- C19 at an expense of June 2023 added to the March 2024 example. -/
theorem out_of_year_transaction_ignored_witness :
    getFullYear utc lastYearExpense.date ≠ some 2024
    ∧ Statistics utc ([] ++ lastYearExpense :: marchIncomes) marchExpenses 2024
        = Statistics utc ([] ++ marchIncomes) marchExpenses 2024
    ∧ Statistics utc marchExpenses ([] ++ lastYearExpense :: marchIncomes) 2024
        = Statistics utc marchExpenses ([] ++ marchIncomes) 2024 :=
  ⟨by decide,
   out_of_year_transaction_ignored utc [] marchIncomes marchExpenses lastYearExpense 2024
     (by decide)⟩

/-! ## Authentication: token, header and user -/

theorem headerMatchesToken_fetchUser (me : Option User) (s : AuthState)
    (h : headerMatchesToken s) : headerMatchesToken (fetchUser me s) := by
  cases me with
  | none => simp [fetchUser, headerMatchesToken]
  | some data => simpa [fetchUser, headerMatchesToken] using h

theorem headerMatchesToken_login (tokenResponse : Option Token) (me : Option User)
    (s : AuthState) (h : headerMatchesToken s) :
    headerMatchesToken (login tokenResponse me s) := by
  cases tokenResponse with
  | none => exact h
  | some access_token =>
    exact headerMatchesToken_fetchUser me _ (by simp [headerMatchesToken])

theorem headerMatchesToken_step (s : AuthState) (e : AuthEvent)
    (h : headerMatchesToken s) : headerMatchesToken (s.step e) := by
  cases e with
  | login tokenResponse me => exact headerMatchesToken_login tokenResponse me s h
  | register registered tokenResponse me =>
    cases registered with
    | false => exact h
    | true => exact headerMatchesToken_login tokenResponse me s h
  | fetchUser me => exact headerMatchesToken_fetchUser me s h
  | logout => simp [AuthState.step, logout, headerMatchesToken]

theorem headerMatchesToken_mount (stored : Option Token) (me : Option User) :
    headerMatchesToken (mount me (AuthState.initial stored)) := by
  cases stored with
  | none => simp [mount, AuthState.initial, headerMatchesToken]
  | some token =>
    exact headerMatchesToken_fetchUser me _ (by simp [AuthState.initial, headerMatchesToken])

theorem headerMatchesToken_foldl (events : List AuthEvent) (s : AuthState)
    (h : headerMatchesToken s) : headerMatchesToken (events.foldl AuthState.step s) := by
  induction events generalizing s with
  | nil => exact h
  | cons e es ih => exact ih _ (headerMatchesToken_step s e h)

theorem userHasToken_step (s : AuthState) (e : AuthEvent)
    (hg : loggedOutCall s e) : userHasToken (s.step e) := by
  cases e with
  | login tokenResponse me =>
    have hu : s.user = none := hg
    cases tokenResponse <;> cases me <;>
      simp [AuthState.step, login, fetchUser, userHasToken, hu]
  | register registered tokenResponse me =>
    have hu : s.user = none := hg
    cases registered <;> cases tokenResponse <;> cases me <;>
      simp [AuthState.step, register, login, fetchUser, userHasToken, hu]
  | fetchUser me => exact absurd hg (by simp [loggedOutCall])
  | logout => simp [AuthState.step, logout, userHasToken]

/-- When `login` and `register` are called only while `user` is null, a user is
there only with a stored token, in every state reached from mount by calls of
`login`, `register` and `logout`. -/
theorem user_has_token_when_called_logged_out (stored : Option Token) (me : Option User)
    (events : List AuthEvent)
    (h : calledLoggedOut (mount me (AuthState.initial stored)) events) :
    userHasToken (AuthState.run stored me events) := by
  have h0 : userHasToken (mount me (AuthState.initial stored)) := by
    cases stored <;> cases me <;>
      simp [mount, fetchUser, AuthState.initial, userHasToken]
  unfold AuthState.run
  generalize mount me (AuthState.initial stored) = s at h h0
  induction events generalizing s with
  | nil => exact h0
  | cons e es ih =>
    obtain ⟨hg, hrest⟩ := h
    exact ih _ hrest (userHasToken_step s e hg)

/-- C21 fails on the code: after a login that succeeds and a second login whose
`/token` succeeds and whose `/users/me` fails, `fetchUser` has removed the token
and the header but has left `user` as it was, so the user is not null while no
token is stored, and PrivateRoute renders the protected page; `logout`, from
the same state, does set the user to null. -/
theorem user_kept_after_token_removed :
    (AuthState.run none none secondLoginFails).user = some alice
    ∧ (AuthState.run none none secondLoginFails).token = none
    ∧ (AuthState.run none none secondLoginFails).authorization = none
    ∧ PrivateRoute (AuthState.run none none secondLoginFails).user
        (AuthState.run none none secondLoginFails).loading = PrivateRouteResult.children
    ∧ App "/" (AuthState.run none none secondLoginFails).user
        (AuthState.run none none secondLoginFails).loading = Rendered.layout Page.Dashboard
    ∧ (logout (AuthState.run none none secondLoginFails)).user = none := by
  decide

/-- C22: in every state reached from mount, with no default header at the
start, by completed calls of `login`, `register`, `fetchUser` and `logout`, the
default `Authorization` header is set if and only if a token is stored, and is
then `Bearer ` followed by the stored token; after `logout` the token is
absent, the header is absent and the user is null. -/
theorem auth_header_matches_token (stored : Option Token) (me : Option User)
    (events : List AuthEvent) :
    ((AuthState.run stored me events).authorization ≠ none
        ↔ (AuthState.run stored me events).token ≠ none)
    ∧ (∀ t, (AuthState.run stored me events).token = some t →
        (AuthState.run stored me events).authorization = some ("Bearer " ++ t.value))
    ∧ (logout (AuthState.run stored me events)).token = none
    ∧ (logout (AuthState.run stored me events)).authorization = none
    ∧ (logout (AuthState.run stored me events)).user = none := by
  have h : headerMatchesToken (AuthState.run stored me events) :=
    headerMatchesToken_foldl events _ (headerMatchesToken_mount stored me)
  unfold headerMatchesToken at h
  refine ⟨?_, ?_, rfl, rfl, rfl⟩
  · rw [h]
    cases (AuthState.run stored me events).token <;> simp
  · intro t ht
    rw [h, ht]
    rfl

/-! ## Routing -/

/-- C23: PrivateRoute renders its children if and only if `loading` is false
and `user` is not null; while `loading` is true it renders the loading
placeholder whatever the user, and when `loading` is false and `user` is null
it redirects to `/login`. Hence at none of the seven protected paths a page is
rendered while `user` is null, and each renders its page in the layout once a
user is there and loading is over. -/
theorem private_route_guards_pages (user : Option User) (loading : Bool) :
    (PrivateRoute user loading = PrivateRouteResult.children
        ↔ loading = false ∧ user ≠ none)
    ∧ (loading = true → PrivateRoute user loading = PrivateRouteResult.loadingPlaceholder)
    ∧ (loading = false → user = none
        → PrivateRoute user loading = PrivateRouteResult.navigate "/login")
    ∧ (∀ path ∈ protectedPaths, ∀ p,
        App path none loading ≠ Rendered.layout p ∧ App path none loading ≠ Rendered.page p)
    ∧ (∀ u, protectedPaths.map (fun path => App path (some u) false)
        = [Rendered.layout Page.Dashboard, Rendered.layout Page.Incomes,
           Rendered.layout Page.Expenses, Rendered.layout Page.Budgets,
           Rendered.layout Page.SavingsGoals, Rendered.layout Page.Statistics,
           Rendered.layout Page.Settings]) := by
  refine ⟨?_, ?_, ?_, ?_, ?_⟩
  · cases loading <;> cases user <;> simp [PrivateRoute]
  · intro h
    simp [PrivateRoute, h]
  · intro h1 h2
    simp [PrivateRoute, h1, h2]
  · intro path hp p
    have hcases : App path none loading = Rendered.loadingPlaceholder
        ∨ App path none loading = Rendered.navigate "/login" := by
      simp only [protectedPaths, List.mem_cons, List.mem_singleton, List.not_mem_nil,
        or_false] at hp
      cases loading <;> rcases hp with h | h | h | h | h | h | h <;> subst h <;> decide
    rcases hcases with h | h <;> rw [h] <;> simp
  · intro u
    rfl

/-! ## Budgets of the current month -/

theorem currentMonth_bounds (tza : Int → Int) (now : Int) :
    1 ≤ currentMonth tza now ∧ currentMonth tza now ≤ 12 := by
  obtain ⟨m, hm, hg⟩ := @getMonth_lt_of_year tza (some now) (localCivil tza now).1 rfl
  have hm2 : ((localCivil tza now).2.1 - 1).toNat = m := by
    simpa [getMonth] using hg
  unfold currentMonth
  rw [hm2]
  omega

/-- C24: whatever the budgets and the current instant, `currentBudgets` is the
sub-list, in the original order, of the budgets whose month is the current
month numbered from 1 to 12 (`getMonth() + 1` of the current local date) and
whose year is the current year: a budget is shown if and only if it is in the
list with that month and that year, as many times as it is in the list. -/
theorem current_budgets_exact (tza : Int → Int) (now : Int) (budgets : List Budget) :
    (currentBudgets tza now budgets).Sublist budgets
    ∧ (∀ b, b ∈ currentBudgets tza now budgets
        ↔ b ∈ budgets ∧ b.month = currentMonth tza now ∧ b.year = currentYear tza now)
    ∧ (∀ b, b.month = currentMonth tza now → b.year = currentYear tza now →
        (currentBudgets tza now budgets).count b = budgets.count b)
    ∧ some (currentMonth tza now) = (getMonth tza (some now)).map (fun m => (m : Int) + 1)
    ∧ some (currentYear tza now) = getFullYear tza (some now)
    ∧ 1 ≤ currentMonth tza now ∧ currentMonth tza now ≤ 12 := by
  refine ⟨List.filter_sublist _, ?_, ?_, rfl, rfl, currentMonth_bounds tza now⟩
  · intro b
    simp [currentBudgets, List.mem_filter]
  · intro b h1 h2
    unfold currentBudgets
    rw [List.count_filter]
    simp [h1, h2]

/-! ## Error message of the registration -/

theorem orString_ne_empty (a : Option String) (b : String) (hb : b ≠ "") :
    orString a b ≠ "" := by
  unfold orString
  cases a with
  | none => exact hb
  | some v =>
    by_cases hv : v = ""
    · simp [hv, hb]
    · simp [hv]

/-- C25: the message `handleSubmit` sets for an error is never empty. With a
server response it is the detail of the response when it has one that is not
empty, else its message, else the default; without response it is the own
message of the error when that is not empty, else the connection message when
the error has a request, else the default. An error with a request and no
response, once through the `catch` of `register`, gives the connection message. -/
theorem registration_error_message (err : JSError) :
    errorMessage err ≠ ""
    ∧ (∀ response, err.response = some response →
        errorMessage err
          = orString (response.data.bind fun d => d.detail)
              (orString (response.data.bind fun d => d.message) defaultMessage))
    ∧ (∀ m, err.response = none → err.message = some m → m ≠ "" → errorMessage err = m)
    ∧ (err.response = none → (err.message = none ∨ err.message = some "") →
        err.request = true → errorMessage err = connectionMessage)
    ∧ (err.response = none → (err.message = none ∨ err.message = some "") →
        err.request = false → errorMessage err = defaultMessage)
    ∧ (err.response = none → err.request = true →
        errorMessage (registerThrows err) = connectionMessage) := by
  have hd : defaultMessage ≠ "" := by decide
  have hc : connectionMessage ≠ "" := by decide
  refine ⟨?_, ?_, ?_, ?_, ?_, ?_⟩
  · unfold errorMessage
    cases err.response with
    | some response =>
      exact orString_ne_empty _ _ (orString_ne_empty _ _ hd)
    | none =>
      cases err.message with
      | none =>
        simp only
        split_ifs
        · exact hc
        · exact hd
      | some m =>
        simp only
        split_ifs with h1 h2
        · exact hc
        · exact hd
        · exact h1
  · intro response h
    simp [errorMessage, h]
  · intro m h1 h2 h3
    simp [errorMessage, h1, h2, h3]
  · intro h1 h2 h3
    rcases h2 with h2 | h2 <;> simp [errorMessage, h1, h2, h3]
  · intro h1 h2 h3
    rcases h2 with h2 | h2 <;> simp [errorMessage, h1, h2, h3]
  · intro h1 h2
    have : registerThrows err = newError connectionMessage := by
      simp [registerThrows, h1, h2]
    rw [this]
    decide

/-! ## Rounding to a double -/

theorem searchWidth_spec (n : Nat) : ∀ fuel k : Nat, n < 2 ^ 2 ^ (k + fuel) →
    n < 2 ^ 2 ^ searchWidth n fuel k := by
  intro fuel
  induction fuel with
  | zero => intro k h; simpa [searchWidth] using h
  | succ f ih =>
    intro k h
    unfold searchWidth
    split_ifs with hk
    · exact hk
    · exact ih (k + 1) (by rw [Nat.add_assoc, Nat.add_comm 1 f]; exact h)

theorem leadingBit_spec (n : Nat) : ∀ k lo : Nat, 2 ^ lo ≤ n → n < 2 ^ (lo + 2 ^ k) →
    2 ^ leadingBit n k lo ≤ n ∧ n < 2 ^ (leadingBit n k lo + 1) := by
  intro k
  induction k with
  | zero =>
    intro lo h1 h2
    exact ⟨h1, by simpa [leadingBit] using h2⟩
  | succ k ih =>
    intro lo h1 h2
    unfold leadingBit
    split_ifs with hk
    · exact ih (lo + 2 ^ k) hk (by
        rw [Nat.add_assoc, ← Nat.two_mul, ← pow_succ']
        exact h2)
    · exact ih lo h1 (by omega)

theorem bitLength_le_iff (n k : Nat) : bitLength n ≤ k ↔ n < 2 ^ k := by
  unfold bitLength
  by_cases h0 : n = 0
  · subst h0
    simp
  · simp only [h0, if_false]
    have hw : n < 2 ^ 2 ^ searchWidth n n 0 := by
      apply searchWidth_spec
      rw [Nat.zero_add]
      exact lt_of_lt_of_le (Nat.lt_two_pow n)
        (Nat.pow_le_pow_right (by norm_num) (le_of_lt (Nat.lt_two_pow n)))
    obtain ⟨h1, h2⟩ := leadingBit_spec n (searchWidth n n 0) 0 (by simp; omega)
      (by rw [Nat.zero_add]; exact hw)
    constructor
    · intro h
      exact lt_of_lt_of_le h2 (Nat.pow_le_pow_right (by norm_num) h)
    · intro h
      have : 2 ^ leadingBit n (searchWidth n n 0) 0 < 2 ^ k := lt_of_le_of_lt h1 h
      have := (Nat.pow_lt_pow_iff_right (by norm_num : 1 < 2)).1 this
      omega

theorem lt_two_pow_bitLength (n : Nat) : n < 2 ^ bitLength n :=
  (bitLength_le_iff n (bitLength n)).1 (le_refl _)

theorem two_pow_le_of_lt_bitLength (n k : Nat) (h : k < bitLength n) : 2 ^ k ≤ n := by
  by_contra hc
  have := (bitLength_le_iff n k).2 (by omega)
  omega

theorem bitLength_two_pow (k : Nat) : bitLength (2 ^ k) = k + 1 := by
  have h1 : bitLength (2 ^ k) ≤ k + 1 :=
    (bitLength_le_iff _ _).2 (Nat.pow_lt_pow_right (by norm_num) (by omega))
  have h2 : ¬ bitLength (2 ^ k) ≤ k := by
    rw [bitLength_le_iff]
    omega
  omega

/-- A multiple of `2 ^ j` that is at most `2 ^ (j + 53)` has at most 53 significant digits. -/
theorem isRepresentable_of_dvd (j c : Nat) (hd : 2 ^ j ∣ c) (hc : c ≤ 2 ^ (j + 53)) :
    isRepresentable c := by
  unfold isRepresentable
  rcases Nat.lt_or_ge c (2 ^ (j + 53)) with h | h
  · have hb : bitLength c ≤ j + 53 := (bitLength_le_iff _ _).2 h
    exact Dvd.dvd.trans (pow_dvd_pow 2 (by omega)) hd
  · have he : c = 2 ^ (j + 53) := le_antisymm hc h
    rw [he, bitLength_two_pow]
    exact pow_dvd_pow 2 (by omega)

/-- No number with at most 53 significant digits lies strictly between two
neighbours of the grid of step `2 ^ s` at 53 digits. -/
theorem no_representable_between (c n s : Nat) (hc : isRepresentable c)
    (hs : s = 0 ∨ 2 ^ 52 ≤ n) (hn : n < 2 ^ 53) (h1 : n * 2 ^ s < c)
    (h2 : c < (n + 1) * 2 ^ s) : False := by
  rcases Nat.eq_zero_or_pos s with h0 | hpos
  · subst h0
    simp only [pow_zero, mul_one] at h1 h2
    omega
  · have h52 : 2 ^ 52 ≤ n := by
      rcases hs with h | h
      · omega
      · exact h
    have hlow : 2 ^ (52 + s) ≤ n * 2 ^ s := by
      rw [pow_add]
      exact Nat.mul_le_mul_right _ h52
    have hhigh : (n + 1) * 2 ^ s ≤ 2 ^ (53 + s) := by
      rw [pow_add]
      exact Nat.mul_le_mul_right _ hn
    have hb1 : bitLength c ≤ 53 + s := (bitLength_le_iff _ _).2 (by omega)
    have hb2 : ¬ bitLength c ≤ 52 + s := by
      rw [bitLength_le_iff]
      omega
    have hbs : bitLength c - 53 = s := by omega
    unfold isRepresentable at hc
    rw [hbs] at hc
    obtain ⟨k, hk⟩ := hc
    subst hk
    have hp : 0 < 2 ^ s := Nat.two_pow_pos _
    have e1 : n < k := by
      rw [Nat.mul_comm] at h1
      exact Nat.lt_of_mul_lt_mul_left h1
    have e2 : k < n + 1 := by
      rw [Nat.mul_comm (n + 1)] at h2
      exact Nat.lt_of_mul_lt_mul_left h2
    omega

/-- What `roundUnits` returns: one of the two neighbours of `A / q` on the grid
of step `2 ^ s`, the nearer one. -/
theorem roundUnits_spec (A q : Nat) (hq : 0 < q) :
    ∃ s n r : Nat, A = n * (q * 2 ^ s) + r ∧ r < q * 2 ^ s
      ∧ (s = 0 ∨ 2 ^ 52 ≤ n) ∧ n < 2 ^ 53
      ∧ ((roundUnits A q = n * 2 ^ s ∧ 2 * r ≤ q * 2 ^ s)
         ∨ (roundUnits A q = (n + 1) * 2 ^ s ∧ q * 2 ^ s ≤ 2 * r)) := by
  have hg : 0 < q * 2 ^ (bitLength (A / q) - 53) :=
    Nat.mul_pos hq (Nat.two_pow_pos _)
  refine ⟨bitLength (A / q) - 53, A / (q * 2 ^ (bitLength (A / q) - 53)),
    A % (q * 2 ^ (bitLength (A / q) - 53)), ?_, Nat.mod_lt _ hg, ?_, ?_, ?_⟩
  · rw [Nat.mul_comm]
    exact (Nat.div_add_mod _ _).symm
  · rcases Nat.eq_zero_or_pos (bitLength (A / q) - 53) with h0 | hpos
    · exact Or.inl h0
    · right
      rw [← Nat.div_div_eq_div_mul, Nat.le_div_iff_mul_le (Nat.two_pow_pos _), ← pow_add]
      apply two_pow_le_of_lt_bitLength
      omega
  · rw [← Nat.div_div_eq_div_mul, Nat.div_lt_iff_lt_mul (Nat.two_pow_pos _), ← pow_add]
    have h1 := lt_two_pow_bitLength (A / q)
    refine lt_of_lt_of_le h1 (Nat.pow_le_pow_right (by norm_num) ?_)
    omega
  · unfold roundUnits
    simp only
    split_ifs with h1 h2 h3
    · exact Or.inl ⟨rfl, by omega⟩
    · exact Or.inr ⟨rfl, by omega⟩
    · exact Or.inl ⟨rfl, by omega⟩
    · exact Or.inr ⟨rfl, by omega⟩

/-- Rounding does not cross a double from below. -/
theorem roundUnits_le (A q c : Nat) (hq : 0 < q) (hc : isRepresentable c)
    (h : A ≤ c * q) : roundUnits A q ≤ c := by
  obtain ⟨s, n, r, hA, hr, hs, hn, hres⟩ := roundUnits_spec A q hq
  have hp : 0 < 2 ^ s := Nat.two_pow_pos _
  have hlow : n * 2 ^ s * q ≤ A := by
    rw [hA, Nat.mul_assoc, Nat.mul_comm (2 ^ s) q]
    exact Nat.le_add_right _ _
  rcases hres with ⟨e, _⟩ | ⟨e, h2⟩
  · rw [e]
    exact Nat.le_of_mul_le_mul_right (le_trans hlow h) hq
  · rw [e]
    by_contra hcon
    have hrpos : 0 < r := by
      have := Nat.mul_pos hq hp
      omega
    have hlt : n * 2 ^ s * q < c * q := by
      have : n * 2 ^ s * q < A := by
        rw [hA, Nat.mul_assoc, Nat.mul_comm (2 ^ s) q]
        omega
      omega
    exact no_representable_between c n s hc hs hn (Nat.lt_of_mul_lt_mul_right hlt)
      (by omega)

/-- Rounding does not cross a double from above. -/
theorem roundUnits_ge (A q c : Nat) (hq : 0 < q) (hc : isRepresentable c)
    (h : c * q ≤ A) : c ≤ roundUnits A q := by
  obtain ⟨s, n, r, hA, hr, hs, hn, hres⟩ := roundUnits_spec A q hq
  have hp : 0 < 2 ^ s := Nat.two_pow_pos _
  have hhigh : c * q < (n + 1) * 2 ^ s * q := by
    have : A < (n + 1) * 2 ^ s * q := by
      rw [hA, Nat.mul_assoc, Nat.mul_comm (2 ^ s) q, Nat.add_mul, Nat.one_mul]
      omega
    omega
  have hc2 : c < (n + 1) * 2 ^ s := Nat.lt_of_mul_lt_mul_right hhigh
  rcases hres with ⟨e, _⟩ | ⟨e, _⟩
  · rw [e]
    by_contra hcon
    exact no_representable_between c n s hc hs hn (by omega) hc2
  · rw [e]
    omega

/-- The result of a rounding has at most 53 significant digits. -/
theorem isRepresentable_roundUnits (A q : Nat) (hq : 0 < q) :
    isRepresentable (roundUnits A q) := by
  obtain ⟨s, n, r, _, _, _, hn, hres⟩ := roundUnits_spec A q hq
  have key : ∀ m, m ≤ 2 ^ 53 → isRepresentable (m * 2 ^ s) := by
    intro m hm
    apply isRepresentable_of_dvd s
    · exact Dvd.intro_left _ rfl
    · rw [Nat.add_comm, pow_add]
      exact Nat.mul_le_mul_right _ hm
  rcases hres with ⟨e, _⟩ | ⟨e, _⟩
  · rw [e]; exact key n (by omega)
  · rw [e]; exact key (n + 1) (by omega)

/-- A double is its own rounding. -/
theorem roundUnits_eq_self (c : Nat) (hc : isRepresentable c) : roundUnits c 1 = c :=
  le_antisymm (roundUnits_le c 1 c (by norm_num) hc (by simp))
    (roundUnits_ge c 1 c (by norm_num) hc (by simp))

/-! ## Arithmetic of doubles -/

theorem Double.zero_eq : (0 : Double) = Double.finite 0 := by decide!

theorem Double.ofNat_hundred : (100 : Double) = Double.finite (100 * unitsPerOne) := by decide!

theorem Double.add_def (a b : Double) : a + b = Double.add a b := rfl

theorem Double.sub_def (a b : Double) : a - b = Double.add a (Double.neg b) := rfl

theorem Double.mul_def (a b : Double) : a * b = Double.mul a b := rfl

theorem Double.div_def (a b : Double) : a / b = Double.div a b := rfl

theorem isRepresentable_zero : isRepresentable 0 := by
  unfold isRepresentable
  exact dvd_zero _

theorem roundUnits_zero (q : Nat) (hq : 0 < q) : roundUnits 0 q = 0 :=
  Nat.le_zero.1 (roundUnits_le 0 q 0 hq isRepresentable_zero (by simp))

/-- A rounding that does not overflow, from a fraction that is not negative. -/
theorem roundRat_le (p : Int) (q c : Nat) (hq : 0 < q) (hp : 0 ≤ p) (hc : isRepresentable c)
    (hc2 : c < overflowUnits) (h : p ≤ c * q) :
    ∃ m : Nat, roundRat p q = Double.finite m ∧ m ≤ c := by
  have hA : p.natAbs ≤ c * q := by
    have : (p.natAbs : Int) ≤ ((c * q : Nat) : Int) := by
      rw [Int.natAbs_of_nonneg hp]
      exact_mod_cast h
    exact_mod_cast this
  have hm := roundUnits_le p.natAbs q c hq hc hA
  refine ⟨roundUnits p.natAbs q, ?_, hm⟩
  unfold roundRat
  have h1 : ¬ overflowUnits ≤ roundUnits p.natAbs q := by omega
  have h2 : ¬ p < 0 := by omega
  simp only [h1, h2, if_false]

/-- A rounding from a fraction at least as large as a double. -/
theorem roundRat_ge (p : Int) (q c : Nat) (hq : 0 < q) (hc : isRepresentable c)
    (h : (c * q : Int) ≤ p) :
    roundRat p q = Double.infinity false
      ∨ ∃ m : Nat, roundRat p q = Double.finite m ∧ c ≤ m := by
  have hp : 0 ≤ p := le_trans (by positivity) h
  have hA : c * q ≤ p.natAbs := by
    have : ((c * q : Nat) : Int) ≤ (p.natAbs : Int) := by
      rw [Int.natAbs_of_nonneg hp]
      exact_mod_cast h
    exact_mod_cast this
  have hm := roundUnits_ge p.natAbs q c hq hc hA
  have h2 : ¬ p < 0 := by omega
  unfold roundRat
  by_cases h1 : overflowUnits ≤ roundUnits p.natAbs q
  · left
    simp only [h1, if_true, h2, decide_False]
  · right
    exact ⟨roundUnits p.natAbs q, by simp only [h1, h2, if_false], hm⟩

/-- A rounding from a fraction that is not negative is not negative. -/
theorem roundRat_of_nonneg (p : Int) (q : Nat) (hp : 0 ≤ p) :
    roundRat p q = Double.infinity false ∨ ∃ m : Nat, roundRat p q = Double.finite m := by
  have h2 : ¬ p < 0 := by omega
  unfold roundRat
  by_cases h1 : overflowUnits ≤ roundUnits p.natAbs q
  · left
    simp only [h1, if_true, h2, decide_False]
  · right
    exact ⟨roundUnits p.natAbs q, by simp only [h1, h2, if_false]⟩

/-- A rounding from a fraction that is not positive is not positive. -/
theorem roundRat_of_nonpos (p : Int) (q : Nat) (hq : 0 < q) (hp : p ≤ 0) :
    Binary64.notPositive (roundRat p q) := by
  unfold roundRat
  by_cases h1 : overflowUnits ≤ roundUnits p.natAbs q
  · have hneg : p < 0 := by
      by_contra hc
      have h0 : p = 0 := by omega
      rw [h0, Int.natAbs_zero, roundUnits_zero q hq] at h1
      exact absurd h1 (by decide!)
    simp only [h1, if_true, hneg, decide_True, Binary64.notPositive]
  · simp only [h1, if_false]
    by_cases h2 : p < 0
    · simp only [h2, if_true, Binary64.notPositive]
      omega
    · have h0 : p = 0 := by omega
      simp only [h2, if_false, Binary64.notPositive]
      rw [h0, Int.natAbs_zero, roundUnits_zero q hq]
      simp

/-- The result of a rounding is a double. -/
theorem roundRat_valid (p : Int) (q : Nat) (hq : 0 < q) : Binary64.valid (roundRat p q) := by
  unfold roundRat
  by_cases h1 : overflowUnits ≤ roundUnits p.natAbs q
  · simp only [h1, if_true, Binary64.valid]
  · simp only [h1, if_false]
    have hr := isRepresentable_roundUnits p.natAbs q hq
    split_ifs
    · simp only [Binary64.valid, Int.natAbs_neg, Int.natAbs_ofNat]
      exact ⟨hr, by omega⟩
    · simp only [Binary64.valid, Int.natAbs_ofNat]
      exact ⟨hr, by omega⟩

/-- An addition whose exact result is a double does not round. -/
theorem Double.add_exact (a b : Int) (hr : isRepresentable (a + b).natAbs)
    (hb : (a + b).natAbs < overflowUnits) :
    Double.finite a + Double.finite b = Double.finite (a + b) := by
  show roundRat (a + b) 1 = _
  unfold roundRat
  rw [roundUnits_eq_self _ hr]
  have h1 : ¬ overflowUnits ≤ (a + b).natAbs := by omega
  simp only [h1, if_false]
  split_ifs with h2
  · congr 1
    omega
  · congr 1
    omega

/-- Every sum is a double. -/
theorem Double.add_valid (a b : Double) : Binary64.valid (a + b) := by
  cases a <;> cases b <;> try (simp only [Double.add_def, Double.add, Binary64.valid])
  · exact roundRat_valid _ 1 (by norm_num)
  · split_ifs <;> simp only [Binary64.valid]

theorem Double.zero_add_of_valid (x : Double) (h : Binary64.valid x) : 0 + x = x := by
  rw [Double.zero_eq]
  cases x with
  | finite u =>
    have := Double.add_exact 0 u (by simpa using h.1) (by simpa using h.2)
    simpa using this
  | infinity s => rfl
  | nan => rfl

/-! ## Monthly buckets in double precision -/

namespace Binary64

theorem orZero_finite (u : Int) : Double.orZero (Double.finite u) = Double.finite u := rfl

theorem orZero_zero : Double.orZero 0 = 0 := by decide!

theorem incomeAt_addIncome_b64 (tza : Int → Int) (y : Int) (yd : YearlyData) (t : Transaction)
    (k : Option Nat) :
    incomeAt (addIncome tza y yd t) k
      = if getFullYear tza t.date = some y ∧ getMonth tza t.date = k
        then incomeAt yd k + t.amount else incomeAt yd k := by
  unfold addIncome
  by_cases hy : getFullYear tza t.date = some y
  · simp only [hy, if_true, true_and]
    unfold ensureMonth
    cases hg : Props.get yd (getMonth tza t.date) with
    | none =>
      simp only [Props.get_set_self]
      by_cases hk : getMonth tza t.date = k
      · subst hk
        simp [incomeAt, Props.get_set_self, hg]
      · simp [incomeAt, Props.get_set_ne _ _ _ _ (Ne.symm hk), hk]
    | some b =>
      simp only [hg]
      by_cases hk : getMonth tza t.date = k
      · subst hk
        simp [incomeAt, Props.get_set_self, hg]
      · simp [incomeAt, Props.get_set_ne _ _ _ _ (Ne.symm hk), hk]
  · simp [hy]

theorem expensesAt_addIncome_b64 (tza : Int → Int) (y : Int) (yd : YearlyData)
    (t : Transaction) (k : Option Nat) :
    expensesAt (addIncome tza y yd t) k = expensesAt yd k := by
  unfold addIncome
  by_cases hy : getFullYear tza t.date = some y
  · simp only [hy, if_true]
    unfold ensureMonth
    cases hg : Props.get yd (getMonth tza t.date) with
    | none =>
      simp only [Props.get_set_self]
      by_cases hk : getMonth tza t.date = k
      · subst hk
        simp [expensesAt, Props.get_set_self, hg]
      · simp [expensesAt, Props.get_set_ne _ _ _ _ (Ne.symm hk)]
    | some b =>
      simp only [hg]
      by_cases hk : getMonth tza t.date = k
      · subst hk
        simp [expensesAt, Props.get_set_self, hg]
      · simp [expensesAt, Props.get_set_ne _ _ _ _ (Ne.symm hk)]
  · simp [hy]

theorem expensesAt_addExpense_b64 (tza : Int → Int) (y : Int) (yd : YearlyData)
    (t : Transaction) (k : Option Nat) :
    expensesAt (addExpense tza y yd t) k
      = if getFullYear tza t.date = some y ∧ getMonth tza t.date = k
        then expensesAt yd k + t.amount else expensesAt yd k := by
  unfold addExpense
  by_cases hy : getFullYear tza t.date = some y
  · simp only [hy, if_true, true_and]
    unfold ensureMonth
    cases hg : Props.get yd (getMonth tza t.date) with
    | none =>
      simp only [Props.get_set_self]
      by_cases hk : getMonth tza t.date = k
      · subst hk
        simp [expensesAt, Props.get_set_self, hg]
      · simp [expensesAt, Props.get_set_ne _ _ _ _ (Ne.symm hk), hk]
    | some b =>
      simp only [hg]
      by_cases hk : getMonth tza t.date = k
      · subst hk
        simp [expensesAt, Props.get_set_self, hg]
      · simp [expensesAt, Props.get_set_ne _ _ _ _ (Ne.symm hk), hk]
  · simp [hy]

theorem incomeAt_addExpense_b64 (tza : Int → Int) (y : Int) (yd : YearlyData)
    (t : Transaction) (k : Option Nat) :
    incomeAt (addExpense tza y yd t) k = incomeAt yd k := by
  unfold addExpense
  by_cases hy : getFullYear tza t.date = some y
  · simp only [hy, if_true]
    unfold ensureMonth
    cases hg : Props.get yd (getMonth tza t.date) with
    | none =>
      simp only [Props.get_set_self]
      by_cases hk : getMonth tza t.date = k
      · subst hk
        simp [incomeAt, Props.get_set_self, hg]
      · simp [incomeAt, Props.get_set_ne _ _ _ _ (Ne.symm hk)]
    | some b =>
      simp only [hg]
      by_cases hk : getMonth tza t.date = k
      · subst hk
        simp [incomeAt, Props.get_set_self, hg]
      · simp [incomeAt, Props.get_set_ne _ _ _ _ (Ne.symm hk)]
  · simp [hy]

theorem inMonth_iff_b64 (tza : Int → Int) (y : Int) (i : Nat) (t : Transaction) :
    inMonth tza y i t = true
      ↔ getFullYear tza t.date = some y ∧ getMonth tza t.date = some i := by
  simp [inMonth, inYear]

theorem sumFrom_nil (x : Double) : sumFrom x [] = x := rfl

theorem sumFrom_cons (x : Double) (t : Transaction) (ts : List Transaction) :
    sumFrom x (t :: ts) = sumFrom (x + t.amount) ts := rfl

theorem sumFrom_filter_cons (p : Transaction → Bool) (x : Double) (t : Transaction)
    (ts : List Transaction) :
    sumFrom x ((t :: ts).filter p)
      = sumFrom (if p t = true then x + t.amount else x) (ts.filter p) := by
  by_cases h : p t = true
  · simp [List.filter_cons, h, sumFrom_cons]
  · simp [List.filter_cons, h]

theorem incomeAt_foldl_addIncome_b64 (tza : Int → Int) (y : Int) (i : Nat)
    (ts : List Transaction) (yd : YearlyData) :
    incomeAt (ts.foldl (addIncome tza y) yd) (some i)
      = sumFrom (incomeAt yd (some i)) (ts.filter (inMonth tza y i)) := by
  induction ts generalizing yd with
  | nil => rfl
  | cons t ts ih =>
    rw [List.foldl_cons, ih, incomeAt_addIncome_b64, sumFrom_filter_cons]
    simp only [inMonth_iff_b64]

theorem expensesAt_foldl_addIncome_b64 (tza : Int → Int) (y : Int) (k : Option Nat)
    (ts : List Transaction) (yd : YearlyData) :
    expensesAt (ts.foldl (addIncome tza y) yd) k = expensesAt yd k := by
  induction ts generalizing yd with
  | nil => rfl
  | cons t ts ih => rw [List.foldl_cons, ih, expensesAt_addIncome_b64]

theorem expensesAt_foldl_addExpense_b64 (tza : Int → Int) (y : Int) (i : Nat)
    (ts : List Transaction) (yd : YearlyData) :
    expensesAt (ts.foldl (addExpense tza y) yd) (some i)
      = sumFrom (expensesAt yd (some i)) (ts.filter (inMonth tza y i)) := by
  induction ts generalizing yd with
  | nil => rfl
  | cons t ts ih =>
    rw [List.foldl_cons, ih, expensesAt_addExpense_b64, sumFrom_filter_cons]
    simp only [inMonth_iff_b64]

theorem incomeAt_foldl_addExpense_b64 (tza : Int → Int) (y : Int) (k : Option Nat)
    (ts : List Transaction) (yd : YearlyData) :
    incomeAt (ts.foldl (addExpense tza y) yd) k = incomeAt yd k := by
  induction ts generalizing yd with
  | nil => rfl
  | cons t ts ih => rw [List.foldl_cons, ih, incomeAt_addExpense_b64]

theorem incomeAt_yearlyData_b64 (tza : Int → Int) (incomes expenses : List Transaction)
    (y : Int) (i : Nat) :
    incomeAt (yearlyData tza incomes expenses y) (some i)
      = sumFrom 0 (incomes.filter (inMonth tza y i)) := by
  unfold yearlyData
  rw [incomeAt_foldl_addExpense_b64, incomeAt_foldl_addIncome_b64]
  simp [incomeAt, Props.get]

theorem expensesAt_yearlyData_b64 (tza : Int → Int) (incomes expenses : List Transaction)
    (y : Int) (i : Nat) :
    expensesAt (yearlyData tza incomes expenses y) (some i)
      = sumFrom 0 (expenses.filter (inMonth tza y i)) := by
  unfold yearlyData
  rw [expensesAt_foldl_addExpense_b64, expensesAt_foldl_addIncome_b64]
  simp [expensesAt, Props.get]

theorem monthlyIncome_eq_b64 (yd : YearlyData) :
    monthlyIncome yd = (List.range 12).map fun i => Double.orZero (incomeAt yd (some i)) := by
  unfold monthlyIncome incomeAt
  have h12 : months.length = 12 := by decide
  rw [h12]
  apply List.map_congr_left
  intro i _
  cases Props.get yd (some i) <;> simp [orZero_zero]

theorem monthlyExpenses_eq_b64 (yd : YearlyData) :
    monthlyExpenses yd
      = (List.range 12).map fun i => Double.orZero (expensesAt yd (some i)) := by
  unfold monthlyExpenses expensesAt
  have h12 : months.length = 12 := by decide
  rw [h12]
  apply List.map_congr_left
  intro i _
  cases Props.get yd (some i) <;> simp [orZero_zero]

/-- In double precision, entry `i` of the income series is the sum, from left to
right and rounded at each addition, of the incomes of month `i`. -/
theorem monthlyIncome_statistics_b64 (tza : Int → Int) (incomes expenses : List Transaction)
    (y : Int) :
    (Statistics tza incomes expenses y).monthlyIncome
      = (List.range 12).map
          (fun i => Double.orZero (sumFrom 0 (incomes.filter (inMonth tza y i)))) := by
  show monthlyIncome (yearlyData tza incomes expenses y) = _
  rw [monthlyIncome_eq_b64]
  simp only [incomeAt_yearlyData_b64]

/-- In double precision, entry `i` of the expense series is the sum, from left to
right and rounded at each addition, of the expenses of month `i`. -/
theorem monthlyExpenses_statistics_b64 (tza : Int → Int)
    (incomes expenses : List Transaction) (y : Int) :
    (Statistics tza incomes expenses y).monthlyExpenses
      = (List.range 12).map
          (fun i => Double.orZero (sumFrom 0 (expenses.filter (inMonth tza y i)))) := by
  show monthlyExpenses (yearlyData tza incomes expenses y) = _
  rw [monthlyExpenses_eq_b64]
  simp only [expensesAt_yearlyData_b64]

end Binary64

/-! ## Sums that do not round -/

namespace Binary64

theorem overflowUnits_eq : overflowUnits = 2 ^ 2098 := by
  unfold overflowUnits
  rfl

theorem unitsPerOne_eq : unitsPerOne = 2 ^ 1074 := by
  unfold unitsPerOne
  rfl

theorem two_pow_lt_overflowUnits (k : Nat) (h : k < 2098) : 2 ^ k < overflowUnits := by
  have key : ∀ n : Nat, k < n → 2 ^ k < 2 ^ n :=
    fun n hn => Nat.pow_lt_pow_right (by norm_num) hn
  rw [overflowUnits_eq]
  exact key 2098 h

/-- Two multiples of `2 ^ j` units whose sum is at most `2 ^ (j + 53)` units in
magnitude add without rounding. -/
theorem add_exact_on_grid (j : Nat) (a b : Int) (hj : j + 53 < 2098)
    (ha : (2 : Int) ^ j ∣ a) (hb : (2 : Int) ^ j ∣ b) (h : |a + b| ≤ 2 ^ (j + 53)) :
    Double.finite a + Double.finite b = Double.finite (a + b) := by
  have hd : (2 : Int) ^ j ∣ a + b := dvd_add ha hb
  have hd2 : 2 ^ j ∣ (a + b).natAbs := by
    have := Int.natAbs_dvd_natAbs.2 hd
    simpa [Int.natAbs_pow] using this
  have hle : (a + b).natAbs ≤ 2 ^ (j + 53) := by
    have h1 : ((a + b).natAbs : Int) ≤ ((2 ^ (j + 53) : Nat) : Int) := by
      rw [Int.natCast_natAbs]
      exact_mod_cast h
    exact_mod_cast h1
  apply Double.add_exact
  · exact isRepresentable_of_dvd j _ hd2 hle
  · exact lt_of_le_of_lt hle (two_pow_lt_overflowUnits _ hj)

/-- A left-to-right sum of multiples of `2 ^ j` units whose magnitudes add up to
at most `2 ^ (j + 53)` units is exact. -/
theorem foldl_finite_exact (j : Nat) (hj : j + 53 < 2098) (l : List Int) :
    ∀ a0 : Int, (∀ u ∈ l, (2 : Int) ^ j ∣ u) → (2 : Int) ^ j ∣ a0 →
      |a0| + (l.map fun u => |u|).sum ≤ 2 ^ (j + 53) →
      (l.map Double.finite).foldl (fun a b => a + b) (Double.finite a0)
        = Double.finite (a0 + l.sum) := by
  induction l with
  | nil => intro a0 _ _ _; simp
  | cons u l ih =>
    intro a0 hg h0 hb
    have hu : (2 : Int) ^ j ∣ u := hg u (List.mem_cons_self _ _)
    simp only [List.map_cons, List.sum_cons] at hb
    have hrest : 0 ≤ (l.map fun u => |u|).sum :=
      List.sum_nonneg (by
        intro x hx
        obtain ⟨y, _, rfl⟩ := List.mem_map.1 hx
        exact abs_nonneg y)
    have habs : |a0 + u| ≤ |a0| + |u| := abs_add a0 u
    have hstep : Double.finite a0 + Double.finite u = Double.finite (a0 + u) :=
      add_exact_on_grid j a0 u hj h0 hu (by linarith)
    simp only [List.map_cons, List.foldl_cons, List.sum_cons]
    rw [hstep, ih (a0 + u) (fun v hv => hg v (List.mem_cons_of_mem _ hv)) (dvd_add h0 hu)
      (by linarith)]
    congr 1
    ring

theorem amounts_of_allOnGrid (j : Nat) (ts : List Transaction) (h : allOnGrid j ts) :
    (ts.map fun t => t.amount) = (ts.map fun t => units t.amount).map Double.finite
    ∧ ∀ u ∈ (ts.map fun t => units t.amount), (2 : Int) ^ j ∣ u := by
  induction ts with
  | nil => simp
  | cons t ts ih =>
    have ht : onGrid j t.amount := h t (List.mem_cons_self _ _)
    obtain ⟨e1, e2⟩ := ih (fun x hx => h x (List.mem_cons_of_mem _ hx))
    cases hta : t.amount with
    | finite u =>
      rw [hta] at ht
      refine ⟨?_, ?_⟩
      · simp only [List.map_cons]
        rw [e1, hta]
        rfl
      · intro v hv
        simp only [List.map_cons, List.mem_cons] at hv
        rcases hv with hv | hv
        · rw [hv, hta]; exact ht
        · exact e2 v hv
    | infinity s => rw [hta] at ht; exact absurd ht (by simp [onGrid])
    | nan => rw [hta] at ht; exact absurd ht (by simp [onGrid])

/-- The sum the code computes over transactions on the grid is their exact sum. -/
theorem sumFrom_exact (j : Nat) (hj : j + 53 < 2098) (ts : List Transaction)
    (hg : allOnGrid j ts) (hb : magnitudeSum ts ≤ 2 ^ (j + 53)) :
    sumFrom 0 ts = Double.finite (exactSum ts) := by
  obtain ⟨e1, e2⟩ := amounts_of_allOnGrid j ts hg
  have hfold : sumFrom 0 ts
      = (ts.map fun t => t.amount).foldl (fun a b => a + b) 0 := by
    unfold sumFrom
    rw [List.foldl_map]
  rw [hfold, e1, Double.zero_eq,
    foldl_finite_exact j hj _ 0 e2 (dvd_zero _) (by
      simp only [abs_zero, zero_add, List.map_map]
      exact hb)]
  simp [exactSum]

theorem abs_exactSum_le (ts : List Transaction) : |exactSum ts| ≤ magnitudeSum ts := by
  induction ts with
  | nil => simp [exactSum, magnitudeSum]
  | cons t ts ih =>
    simp only [exactSum, magnitudeSum, List.map_cons, List.sum_cons] at ih ⊢
    exact le_trans (abs_add _ _) (by linarith)

theorem magnitudeSum_nonneg (ts : List Transaction) : 0 ≤ magnitudeSum ts :=
  le_trans (abs_nonneg _) (abs_exactSum_le ts)

theorem exactSum_dvd (j : Nat) (ts : List Transaction) (h : allOnGrid j ts) :
    (2 : Int) ^ j ∣ exactSum ts := by
  obtain ⟨_, e2⟩ := amounts_of_allOnGrid j ts h
  unfold exactSum
  exact List.dvd_sum e2

theorem allOnGrid_filter (j : Nat) (p : Transaction → Bool) (ts : List Transaction)
    (h : allOnGrid j ts) : allOnGrid j (ts.filter p) :=
  fun t ht => h t (List.mem_filter.1 ht).1

/-- Whatever is summed over the transactions, the twelve months of the year
count every transaction of the year once. -/
theorem sum_buckets_b64 (f : Transaction → Int) (tza : Int → Int) (y : Int)
    (ts : List Transaction) :
    ((List.range 12).map fun i => ((ts.filter (inMonth tza y i)).map f).sum).sum
      = ((ts.filter (inYear tza y)).map f).sum := by
  induction ts with
  | nil => simp
  | cons t ts ih =>
    have hcons : ∀ p : Transaction → Bool,
        (((t :: ts).filter p).map f).sum
          = (if p t = true then f t else 0) + ((ts.filter p).map f).sum := by
      intro p
      by_cases h : p t = true <;> simp [List.filter_cons, h]
    simp only [hcons, List.sum_map_add, ih]
    congr 1
    by_cases hy : inYear tza y t = true
    · obtain ⟨m, hm, hmo⟩ := getMonth_lt_of_year (by simpa [inYear] using hy :
        getFullYear tza t.date = some y)
      simp only [inMonth, hy, hmo, Bool.true_and, decide_eq_true_eq, Option.some.injEq, if_true]
      interval_cases m <;> simp [List.range_succ]
    · simp [inMonth, hy]

theorem inMonth_filter_inYear (tza : Int → Int) (y : Int) (i : Nat) (ts : List Transaction) :
    (ts.filter (inYear tza y)).filter (inMonth tza y i) = ts.filter (inMonth tza y i) := by
  rw [List.filter_filter]
  apply List.filter_congr
  intro t _
  simp only [inMonth]
  cases inYear tza y t <;> simp

/-- The series and the total of a list on the grid, as the code computes them. -/
theorem total_exact (j : Nat) (hj : j + 53 < 2098) (tza : Int → Int) (y : Int)
    (ts : List Transaction) (hg : allOnGrid j (ts.filter (inYear tza y)))
    (hb : magnitudeSum (ts.filter (inYear tza y)) ≤ 2 ^ (j + 53)) :
    ((List.range 12).map
        (fun i => Double.orZero (sumFrom 0 (ts.filter (inMonth tza y i)))))
      = (List.range 12).map (fun i => Double.finite (exactSum (ts.filter (inMonth tza y i))))
    ∧ reduceSum ((List.range 12).map
        (fun i => Double.orZero (sumFrom 0 (ts.filter (inMonth tza y i)))))
      = Double.finite (exactSum (ts.filter (inYear tza y))) := by
  have hgi : ∀ i, allOnGrid j (ts.filter (inMonth tza y i)) := by
    intro i
    rw [← inMonth_filter_inYear]
    exact allOnGrid_filter j _ _ hg
  have hmag : ((List.range 12).map fun i => magnitudeSum (ts.filter (inMonth tza y i))).sum
      = magnitudeSum (ts.filter (inYear tza y)) :=
    sum_buckets_b64 (fun t => |units t.amount|) tza y ts
  have hbi : ∀ i, i ∈ List.range 12 →
      magnitudeSum (ts.filter (inMonth tza y i)) ≤ 2 ^ (j + 53) := by
    intro i hi
    have h1 : magnitudeSum (ts.filter (inMonth tza y i))
        ≤ ((List.range 12).map fun i => magnitudeSum (ts.filter (inMonth tza y i))).sum :=
      List.single_le_sum (by
        intro x hx
        obtain ⟨k, _, rfl⟩ := List.mem_map.1 hx
        exact magnitudeSum_nonneg _) _ (List.mem_map_of_mem _ hi)
    linarith
  have hseries : ((List.range 12).map
        (fun i => Double.orZero (sumFrom 0 (ts.filter (inMonth tza y i)))))
      = (List.range 12).map
          (fun i => Double.finite (exactSum (ts.filter (inMonth tza y i)))) := by
    apply List.map_congr_left
    intro i hi
    rw [sumFrom_exact j hj _ (hgi i) (hbi i hi), orZero_finite]
  refine ⟨hseries, ?_⟩
  rw [hseries]
  have hmap : (List.range 12).map
        (fun i => Double.finite (exactSum (ts.filter (inMonth tza y i))))
      = ((List.range 12).map fun i => exactSum (ts.filter (inMonth tza y i))).map
          Double.finite := by
    rw [List.map_map]
    rfl
  unfold reduceSum
  rw [hmap, Double.zero_eq, foldl_finite_exact j hj _ 0 ?_ (dvd_zero _) ?_]
  · rw [zero_add]
    congr 1
    exact sum_buckets_b64 (fun t => units t.amount) tza y ts
  · intro u hu
    obtain ⟨i, _, rfl⟩ := List.mem_map.1 hu
    exact exactSum_dvd j _ (hgi i)
  · simp only [abs_zero, zero_add, List.map_map]
    refine le_trans ?_ (le_of_eq_of_le hmag hb)
    apply List.sum_le_sum
    intro i _
    exact abs_exactSum_le _

end Binary64

/-! ## Totals in double precision -/

namespace Binary64

theorem statistics_totalIncome_b64 (tza : Int → Int) (incomes expenses : List Transaction)
    (y : Int) :
    (Statistics tza incomes expenses y).totalIncome
      = reduceSum ((List.range 12).map
          (fun i => Double.orZero (sumFrom 0 (incomes.filter (inMonth tza y i))))) := by
  show reduceSum (Statistics tza incomes expenses y).monthlyIncome = _
  rw [monthlyIncome_statistics_b64]

theorem statistics_totalExpenses_b64 (tza : Int → Int) (incomes expenses : List Transaction)
    (y : Int) :
    (Statistics tza incomes expenses y).totalExpenses
      = reduceSum ((List.range 12).map
          (fun i => Double.orZero (sumFrom 0 (expenses.filter (inMonth tza y i))))) := by
  show reduceSum (Statistics tza incomes expenses y).monthlyExpenses = _
  rw [monthlyExpenses_statistics_b64]

theorem statistics_savings_b64 (tza : Int → Int) (incomes expenses : List Transaction)
    (y : Int) :
    (Statistics tza incomes expenses y).savings
      = (Statistics tza incomes expenses y).totalIncome
        - (Statistics tza incomes expenses y).totalExpenses := rfl

theorem statistics_savingsRate_b64 (tza : Int → Int) (incomes expenses : List Transaction)
    (y : Int) :
    (Statistics tza incomes expenses y).savingsRate
      = savingsRate (Statistics tza incomes expenses y).totalIncome
          ((Statistics tza incomes expenses y).totalIncome
            - (Statistics tza incomes expenses y).totalExpenses) := rfl

theorem statistics_savingsRateColor_b64 (tza : Int → Int)
    (incomes expenses : List Transaction) (y : Int) :
    (Statistics tza incomes expenses y).savingsRateColor
      = savingsRateColor (Statistics tza incomes expenses y).savingsRate := rfl

/-- The totals and the savings of lists on the grid. -/
theorem totals_on_grid (tza : Int → Int) (incomes expenses : List Transaction)
    (y : Int) (j : Nat) (hj : j ≤ 2044)
    (hI : allOnGrid j (incomes.filter (inYear tza y)))
    (hE : allOnGrid j (expenses.filter (inYear tza y)))
    (hB : magnitudeSum (incomes.filter (inYear tza y))
        + magnitudeSum (expenses.filter (inYear tza y)) ≤ 2 ^ (j + 53)) :
    (Statistics tza incomes expenses y).totalIncome
        = Double.finite (exactSum (incomes.filter (inYear tza y)))
    ∧ (Statistics tza incomes expenses y).totalExpenses
        = Double.finite (exactSum (expenses.filter (inYear tza y)))
    ∧ (Statistics tza incomes expenses y).savings
        = Double.finite (exactSum (incomes.filter (inYear tza y))
            - exactSum (expenses.filter (inYear tza y))) := by
  have hj2 : j + 53 < 2098 := by omega
  have hmI := magnitudeSum_nonneg (incomes.filter (inYear tza y))
  have hmE := magnitudeSum_nonneg (expenses.filter (inYear tza y))
  have hTI : (Statistics tza incomes expenses y).totalIncome
      = Double.finite (exactSum (incomes.filter (inYear tza y))) := by
    rw [statistics_totalIncome_b64]
    exact (total_exact j hj2 tza y incomes hI (by linarith)).2
  have hTE : (Statistics tza incomes expenses y).totalExpenses
      = Double.finite (exactSum (expenses.filter (inYear tza y))) := by
    rw [statistics_totalExpenses_b64]
    exact (total_exact j hj2 tza y expenses hE (by linarith)).2
  refine ⟨hTI, hTE, ?_⟩
  rw [statistics_savings_b64, hTI, hTE, Double.sub_def]
  show Double.finite _ + Double.finite (- _) = _
  have h1 := abs_exactSum_le (incomes.filter (inYear tza y))
  have h2 := abs_exactSum_le (expenses.filter (inYear tza y))
  rw [add_exact_on_grid j _ _ hj2 (exactSum_dvd j _ hI)
    ((dvd_neg).2 (exactSum_dvd j _ hE)) (by
      have := abs_add (exactSum (incomes.filter (inYear tza y)))
        (-exactSum (expenses.filter (inYear tza y)))
      rw [abs_neg] at this
      linarith)]
  rfl

/-- C1, amended: in double precision, when the amounts of the selected year are
all integer multiples of one power of two `2 ^ j` units (whole numbers for
`j = 1074`) and their magnitudes add up to at most `2 ^ 53` times that step, no
addition rounds: totalIncome and totalExpenses are the exact sums of the amounts
of the incomes, respectively expenses, dated in the selected year, and the
savings are their exact difference. -/
theorem totals_exact_on_binary_grid (tza : Int → Int) (incomes expenses : List Transaction)
    (selectedYear : Int) (j : Nat) (hj : j ≤ 2044)
    (hI : allOnGrid j (incomes.filter (inYear tza selectedYear)))
    (hE : allOnGrid j (expenses.filter (inYear tza selectedYear)))
    (hB : magnitudeSum (incomes.filter (inYear tza selectedYear))
        + magnitudeSum (expenses.filter (inYear tza selectedYear)) ≤ 2 ^ (j + 53)) :
    (Statistics tza incomes expenses selectedYear).totalIncome
        = Double.finite (exactSum (incomes.filter (inYear tza selectedYear)))
    ∧ (Statistics tza incomes expenses selectedYear).totalExpenses
        = Double.finite (exactSum (expenses.filter (inYear tza selectedYear)))
    ∧ (Statistics tza incomes expenses selectedYear).savings
        = Double.finite (exactSum (incomes.filter (inYear tza selectedYear))
            - exactSum (expenses.filter (inYear tza selectedYear))) :=
  totals_on_grid tza incomes expenses selectedYear j hj hI hE hB

/-- The amended C1 at the March 2024 example, whose amounts 3000, 1200 and 300
are whole numbers. -/
theorem totals_exact_on_binary_grid_witness :
    1074 ≤ 2044
    ∧ allOnGrid 1074 (marchIncomes.filter (inYear utc 2024))
    ∧ allOnGrid 1074 (marchExpenses.filter (inYear utc 2024))
    ∧ magnitudeSum (marchIncomes.filter (inYear utc 2024))
        + magnitudeSum (marchExpenses.filter (inYear utc 2024)) ≤ 2 ^ (1074 + 53)
    ∧ (Statistics utc marchIncomes marchExpenses 2024).totalIncome
        = Double.finite (exactSum (marchIncomes.filter (inYear utc 2024)))
    ∧ (Statistics utc marchIncomes marchExpenses 2024).totalExpenses
        = Double.finite (exactSum (marchExpenses.filter (inYear utc 2024)))
    ∧ (Statistics utc marchIncomes marchExpenses 2024).savings
        = Double.finite (exactSum (marchIncomes.filter (inYear utc 2024))
            - exactSum (marchExpenses.filter (inYear utc 2024))) :=
  ⟨by decide, by decide!, by decide!, by decide!,
   totals_exact_on_binary_grid utc marchIncomes marchExpenses 2024 1074 (by decide)
     (by decide!) (by decide!) (by decide!)⟩

/-- The totals of the March 2024 example in double precision: 3000, 1500 and 1500. -/
theorem march_totals_b64 :
    (Statistics utc marchIncomes marchExpenses 2024).totalIncome = 3000
    ∧ (Statistics utc marchIncomes marchExpenses 2024).totalExpenses = 1500
    ∧ (Statistics utc marchIncomes marchExpenses 2024).savings = 1500
    ∧ (Statistics utc marchIncomes marchExpenses 2024).savingsRate = 50 := by decide!

/-- C1 as stated fails: the amounts are doubles and every addition rounds. With
expenses of 0.1 in January and of 0.2 and 0.3 in February 2024, totalExpenses is
the double 0.6, which is neither the exact sum of the three amounts nor their sum
in the order of the list, 0.6000000000000001; with an income of 1e16 and an
expense of 0.1 the savings are the income, not the difference of the totals. -/
theorem totals_round_in_doubles :
    tenthsExpenses.filter (inYear utc 2024) = tenthsExpenses
    ∧ (Statistics utc [] tenthsExpenses 2024).totalExpenses = Double.ofRatio 6 10
    ∧ (Statistics utc [] tenthsExpenses 2024).totalExpenses
        ≠ Double.finite (exactSum (tenthsExpenses.filter (inYear utc 2024)))
    ∧ sumFrom 0 tenthsExpenses = Double.ofRatio 6000000000000001 10000000000000000
    ∧ (Statistics utc [] tenthsExpenses 2024).totalExpenses ≠ sumFrom 0 tenthsExpenses
    ∧ (Statistics utc largeIncome dimeExpense 2024).totalExpenses = Double.ofRatio 1 10
    ∧ (Statistics utc largeIncome dimeExpense 2024).savings
        = (Statistics utc largeIncome dimeExpense 2024).totalIncome
    ∧ (Statistics utc largeIncome dimeExpense 2024).savings
        ≠ Double.finite (units (Statistics utc largeIncome dimeExpense 2024).totalIncome
            - units (Statistics utc largeIncome dimeExpense 2024).totalExpenses) := by
  decide!

end Binary64

/-! ## Category values in double precision -/

namespace Binary64

/-- The values of the category breakdown round too: with expenses of 0.1 in
January and of 0.2 and 0.3 in February 2024, the first two in one category, the
values are 0.30000000000000004 and 0.3, whose sum 0.6000000000000001 is not
the totalExpenses 0.6 of the page. -/
theorem category_values_round_in_doubles :
    (Statistics utc [] tenthsExpenses 2024).categoryLabels = ["Logement", "Nourriture"]
    ∧ (Statistics utc [] tenthsExpenses 2024).categoryValues
        = [JSVal.num (Double.ofRatio 30000000000000004 100000000000000000),
           JSVal.num (Double.ofRatio 3 10)]
    ∧ reduceSum [Double.ofRatio 30000000000000004 100000000000000000, Double.ofRatio 3 10]
        = Double.ofRatio 6000000000000001 10000000000000000
    ∧ (Statistics utc [] tenthsExpenses 2024).totalExpenses = Double.ofRatio 6 10
    ∧ reduceSum [Double.ofRatio 30000000000000004 100000000000000000, Double.ofRatio 3 10]
        ≠ (Statistics utc [] tenthsExpenses 2024).totalExpenses := by
  refine ⟨?_, ?_, ?_, ?_, ?_⟩
  · decide!
  · decide!
  · decide!
  · decide!
  · decide!

end Binary64

/-! ## Category objects in double precision -/

namespace Binary64

theorem keys_accumulate_b64 (obj : Props String JSVal) (k : String) (a : Double)
    (hk : k ≠ "__proto__") :
    (accumulate obj k a).map Prod.fst
      = if k ∈ obj.map Prod.fst then obj.map Prod.fst else obj.map Prod.fst ++ [k] := by
  unfold accumulate
  cases hg : Props.get obj k with
  | none =>
    have hn := (Props.get_eq_none_iff obj k).1 hg
    simp only [hk, if_false]
    split_ifs <;> simp [Props.keys_set, hn]
  | some v =>
    have hin : k ∈ obj.map Prod.fst := by
      by_contra hc
      rw [(Props.get_eq_none_iff obj k).2 hc] at hg
      cases hg
    cases v <;> simp [Props.keys_set, hin]

theorem keys_accumulate_proto_b64 (obj : Props String JSVal) (a : Double)
    (h : "__proto__" ∉ obj.map Prod.fst) : accumulate obj "__proto__" a = obj := by
  unfold accumulate
  rw [(Props.get_eq_none_iff obj _).2 h]
  simp

theorem addCategory_of_inYear_b64 (tza : Int → Int) (y : Int) (obj : Props String JSVal)
    (t : Transaction) (h : inYear tza y t = true) :
    addCategory tza y obj t = accumulate obj t.category t.amount := by
  have : getFullYear tza t.date = some y := by simpa [inYear] using h
  simp [addCategory, this]

theorem addCategory_of_not_inYear_b64 (tza : Int → Int) (y : Int) (obj : Props String JSVal)
    (t : Transaction) (h : ¬ inYear tza y t = true) :
    addCategory tza y obj t = obj := by
  have : ¬ getFullYear tza t.date = some y := by simpa [inYear] using h
  simp [addCategory, this]

theorem yearCategories_cons_b64 (tza : Int → Int) (y : Int) (t : Transaction)
    (ts : List Transaction) :
    yearCategories tza y (t :: ts)
      = if inYear tza y t = true then t.category :: yearCategories tza y ts
        else yearCategories tza y ts := by
  by_cases h : inYear tza y t = true <;> simp [yearCategories, List.filter_cons, h]

/-- Keys of a category object after the loop, as a set. -/
theorem keys_foldl_nodup_mem_b64 (tza : Int → Int) (y : Int) (ts : List Transaction)
    (obj : Props String JSVal) (hn : (obj.map Prod.fst).Nodup)
    (hp : "__proto__" ∉ obj.map Prod.fst) :
    ((ts.foldl (addCategory tza y) obj).map Prod.fst).Nodup
    ∧ "__proto__" ∉ (ts.foldl (addCategory tza y) obj).map Prod.fst
    ∧ ∀ k, k ∈ (ts.foldl (addCategory tza y) obj).map Prod.fst
        ↔ k ∈ obj.map Prod.fst ∨ (k ∈ yearCategories tza y ts ∧ k ≠ "__proto__") := by
  induction ts generalizing obj with
  | nil => exact ⟨hn, hp, fun k => by simp [yearCategories]⟩
  | cons t ts ih =>
    rw [List.foldl_cons, yearCategories_cons_b64]
    by_cases hy : inYear tza y t = true
    · rw [addCategory_of_inYear_b64 _ _ _ _ hy]
      simp only [hy, if_true]
      by_cases hc : t.category = "__proto__"
      · rw [hc, keys_accumulate_proto_b64 _ _ hp]
        obtain ⟨a1, a2, a3⟩ := ih obj hn hp
        refine ⟨a1, a2, fun k => ?_⟩
        rw [a3 k]
        constructor
        · rintro (h | ⟨h1, h2⟩)
          · exact Or.inl h
          · exact Or.inr ⟨List.mem_cons_of_mem _ h1, h2⟩
        · rintro (h | ⟨h1, h2⟩)
          · exact Or.inl h
          · rcases List.mem_cons.1 h1 with h1 | h1
            · exact absurd h1 h2
            · exact Or.inr ⟨h1, h2⟩
      · have hk := keys_accumulate_b64 obj t.category t.amount hc
        have hn2 : ((accumulate obj t.category t.amount).map Prod.fst).Nodup := by
          rw [hk]
          split_ifs with hin
          · exact hn
          · exact List.Nodup.append hn (List.nodup_singleton _) (by simpa using hin)
        have hp2 : "__proto__" ∉ (accumulate obj t.category t.amount).map Prod.fst := by
          rw [hk]
          split_ifs with hin
          · exact hp
          · simp only [List.mem_append, List.mem_singleton, not_or]
            exact ⟨hp, fun e => hc e.symm⟩
        have hm : ∀ k, k ∈ (accumulate obj t.category t.amount).map Prod.fst
            ↔ k ∈ obj.map Prod.fst ∨ k = t.category := by
          intro k
          rw [hk]
          split_ifs with hin
          · constructor
            · exact fun h => Or.inl h
            · rintro (h | h)
              · exact h
              · exact h ▸ hin
          · simp
        obtain ⟨a1, a2, a3⟩ := ih _ hn2 hp2
        refine ⟨a1, a2, fun k => ?_⟩
        rw [a3 k, hm k]
        constructor
        · rintro ((h | h) | ⟨h1, h2⟩)
          · exact Or.inl h
          · exact Or.inr ⟨h ▸ List.mem_cons_self _ _, h ▸ hc⟩
          · exact Or.inr ⟨List.mem_cons_of_mem _ h1, h2⟩
        · rintro (h | ⟨h1, h2⟩)
          · exact Or.inl (Or.inl h)
          · rcases List.mem_cons.1 h1 with h1 | h1
            · exact Or.inl (Or.inr h1)
            · exact Or.inr ⟨h1, h2⟩
    · rw [addCategory_of_not_inYear_b64 _ _ _ _ hy]
      simp only [hy]
      exact ih obj hn hp

/-- Labels of the category objects of two lists that are permutations of each other. -/
theorem labels_perm_b64 (tza : Int → Int) (y : Int) {l1 l2 : List Transaction}
    (h : l1.Perm l2) :
    (objectKeys (l1.foldl (addCategory tza y) [])).Perm
      (objectKeys (l2.foldl (addCategory tza y) [])) := by
  obtain ⟨n1, _, m1⟩ := keys_foldl_nodup_mem_b64 tza y l1 [] (by simp) (by simp)
  obtain ⟨n2, _, m2⟩ := keys_foldl_nodup_mem_b64 tza y l2 [] (by simp) (by simp)
  refine ((objectKeys_perm_keys _).trans ?_).trans (objectKeys_perm_keys _).symm
  rw [List.perm_ext_iff_of_nodup n1 n2]
  intro k
  rw [m1 k, m2 k]
  have hyc : k ∈ yearCategories tza y l1 ↔ k ∈ yearCategories tza y l2 :=
    ((h.filter _).map _).mem_iff
  rw [hyc]

theorem get_accumulate_ne_b64 (obj : Props String JSVal) (k c : String) (a : Double)
    (h : c ≠ k) : (accumulate obj k a).get c = obj.get c := by
  unfold accumulate
  cases Props.get obj k with
  | none =>
    simp only
    split_ifs
    · rfl
    · exact Props.get_set_ne _ _ _ _ h
    · exact Props.get_set_ne _ _ _ _ h
  | some v =>
    cases v <;> exact Props.get_set_ne _ _ _ _ h

theorem filter_cons_b64 (p : Transaction → Bool) (t : Transaction) (ts : List Transaction) :
    (t :: ts).filter p = if p t = true then t :: ts.filter p else ts.filter p := by
  by_cases h : p t = true <;> simp [List.filter_cons, h]

theorem exactSum_cons (t : Transaction) (ts : List Transaction) :
    exactSum (t :: ts) = units t.amount + exactSum ts := by
  simp [exactSum]

theorem magnitudeSum_cons (t : Transaction) (ts : List Transaction) :
    magnitudeSum (t :: ts) = |units t.amount| + magnitudeSum ts := by
  simp [magnitudeSum]

/-- On the grid, a category that holds a Number holds afterwards that Number plus
the exact sum of the amounts added to it. -/
theorem get_foldl_num_on_grid (j : Nat) (hj : j + 53 < 2098) (tza : Int → Int) (y : Int)
    (c : String) (ts : List Transaction) :
    ∀ (obj : Props String JSVal) (v : Int),
      obj.get c = some (JSVal.num (Double.finite v)) → (2 : Int) ^ j ∣ v →
      allOnGrid j (ts.filter (inYearCategory tza y c)) →
      |v| + magnitudeSum (ts.filter (inYearCategory tza y c)) ≤ 2 ^ (j + 53) →
      (ts.foldl (addCategory tza y) obj).get c
        = some (JSVal.num (Double.finite
            (v + exactSum (ts.filter (inYearCategory tza y c))))) := by
  induction ts with
  | nil => intro obj v h _ _ _; simp [exactSum, h]
  | cons t ts ih =>
    intro obj v h hv hg hb
    rw [List.foldl_cons]
    by_cases hy : inYear tza y t = true
    · rw [addCategory_of_inYear_b64 _ _ _ _ hy]
      by_cases hc : t.category = c
      · have hp : inYearCategory tza y c t = true := by simp [inYearCategory, hy, hc]
        rw [filter_cons_b64, if_pos hp] at hg hb ⊢
        have ht : onGrid j t.amount := hg t (List.mem_cons_self _ _)
        cases hta : t.amount with
        | finite u =>
          rw [hta] at ht
          rw [magnitudeSum_cons, hta] at hb
          simp only [units] at hb
          have hm := magnitudeSum_nonneg (ts.filter (inYearCategory tza y c))
          have habs := abs_add v u
          have hstep : (accumulate obj t.category (Double.finite u)).get c
              = some (JSVal.num (Double.finite (v + u))) := by
            subst hc
            simp only [accumulate, h, Props.get_set_self, orZero_finite]
            rw [add_exact_on_grid j v u hj hv ht (by linarith)]
          rw [ih _ (v + u) hstep (dvd_add hv ht)
            (fun x hx => hg x (List.mem_cons_of_mem _ hx)) (by linarith)]
          rw [exactSum_cons, hta]
          simp only [units]
          congr 3
          ring
        | infinity s => rw [hta] at ht; exact absurd ht (by simp [onGrid])
        | nan => rw [hta] at ht; exact absurd ht (by simp [onGrid])
      · have hp : ¬ inYearCategory tza y c t = true := by simp [inYearCategory, hy, hc]
        rw [filter_cons_b64, if_neg hp] at hg hb ⊢
        have hstep : (accumulate obj t.category t.amount).get c
            = some (JSVal.num (Double.finite v)) := by
          rw [get_accumulate_ne_b64 _ _ _ _ (Ne.symm hc), h]
        exact ih _ v hstep hv hg hb
    · have hp : ¬ inYearCategory tza y c t = true := by simp [inYearCategory, hy]
      rw [filter_cons_b64, if_neg hp] at hg hb ⊢
      rw [addCategory_of_not_inYear_b64 _ _ _ _ hy]
      exact ih _ v h hv hg hb

/-- On the grid, a category that is not an inherited property name holds the
exact sum of the amounts of its transactions of the year, and is absent when
there is none. -/
theorem get_foldl_none_on_grid (j : Nat) (hj : j + 53 < 2098) (tza : Int → Int) (y : Int)
    (c : String) (hc : c ∉ inheritedNames) (ts : List Transaction) :
    ∀ (obj : Props String JSVal), obj.get c = none →
      allOnGrid j (ts.filter (inYearCategory tza y c)) →
      magnitudeSum (ts.filter (inYearCategory tza y c)) ≤ 2 ^ (j + 53) →
      (ts.foldl (addCategory tza y) obj).get c
        = if ts.any (inYearCategory tza y c) = true
          then some (JSVal.num (Double.finite
            (exactSum (ts.filter (inYearCategory tza y c)))))
          else none := by
  have hc1 : c ≠ "__proto__" := by
    intro e; apply hc; simp [inheritedNames, e]
  have hc2 : c ∉ objectPrototypeMethods := by
    intro e; apply hc; simp [inheritedNames, e]
  induction ts with
  | nil => intro obj h _ _; simp [h]
  | cons t ts ih =>
    intro obj h hg hb
    rw [List.foldl_cons]
    by_cases hy : inYear tza y t = true
    · rw [addCategory_of_inYear_b64 _ _ _ _ hy]
      by_cases hk : t.category = c
      · have hp : inYearCategory tza y c t = true := by simp [inYearCategory, hy, hk]
        rw [filter_cons_b64, if_pos hp] at hg hb ⊢
        have ht : onGrid j t.amount := hg t (List.mem_cons_self _ _)
        cases hta : t.amount with
        | finite u =>
          rw [hta] at ht
          rw [magnitudeSum_cons, hta] at hb
          simp only [units] at hb
          have hm := magnitudeSum_nonneg (ts.filter (inYearCategory tza y c))
          have hstep : (accumulate obj t.category (Double.finite u)).get c
              = some (JSVal.num (Double.finite u)) := by
            subst hk
            simp only [accumulate, h, hc1, hc2, if_false, Props.get_set_self]
            rw [Double.zero_eq, add_exact_on_grid j 0 u hj (dvd_zero _) ht (by
              rw [zero_add]; linarith), zero_add]
          rw [get_foldl_num_on_grid j hj tza y c ts _ u hstep ht
            (fun x hx => hg x (List.mem_cons_of_mem _ hx)) hb]
          rw [exactSum_cons, hta]
          simp [hp, units]
        | infinity s => rw [hta] at ht; exact absurd ht (by simp [onGrid])
        | nan => rw [hta] at ht; exact absurd ht (by simp [onGrid])
      · have hp : ¬ inYearCategory tza y c t = true := by simp [inYearCategory, hy, hk]
        rw [filter_cons_b64, if_neg hp] at hg hb ⊢
        have hstep : (accumulate obj t.category t.amount).get c = none := by
          rw [get_accumulate_ne_b64 _ _ _ _ (Ne.symm hk), h]
        rw [ih _ hstep hg hb]
        simp [hp]
    · have hp : ¬ inYearCategory tza y c t = true := by simp [inYearCategory, hy]
      rw [filter_cons_b64, if_neg hp] at hg hb ⊢
      rw [addCategory_of_not_inYear_b64 _ _ _ _ hy, ih _ h hg hb]
      simp [hp]

theorem magnitudeSum_filter_le (p : Transaction → Bool) (ts : List Transaction) :
    magnitudeSum (ts.filter p) ≤ magnitudeSum ts := by
  induction ts with
  | nil => simp
  | cons t ts ih =>
    rw [filter_cons_b64]
    split_ifs
    · rw [magnitudeSum_cons, magnitudeSum_cons]
      linarith
    · rw [magnitudeSum_cons]
      have := abs_nonneg (units t.amount)
      linarith

theorem inYearCategory_filter_inYear (tza : Int → Int) (y : Int) (c : String)
    (ts : List Transaction) :
    (ts.filter (inYear tza y)).filter (inYearCategory tza y c)
      = ts.filter (inYearCategory tza y c) := by
  rw [List.filter_filter]
  apply List.filter_congr
  intro t _
  simp only [inYearCategory]
  cases inYear tza y t <;> simp

/-- On the grid, the amount a category of the breakdown holds. -/
theorem get_category_on_grid (j : Nat) (hj : j + 53 < 2098) (tza : Int → Int) (y : Int)
    (c : String) (hc : c ∉ inheritedNames) (ts : List Transaction)
    (hg : allOnGrid j (ts.filter (inYear tza y)))
    (hb : magnitudeSum (ts.filter (inYear tza y)) ≤ 2 ^ (j + 53)) :
    (ts.foldl (addCategory tza y) []).get c
      = if ts.any (inYearCategory tza y c) = true
        then some (JSVal.num (Double.finite
          (exactSum (ts.filter (inYearCategory tza y c)))))
        else none := by
  apply get_foldl_none_on_grid j hj tza y c hc ts [] rfl
  · rw [← inYearCategory_filter_inYear]
    exact allOnGrid_filter j _ _ hg
  · rw [← inYearCategory_filter_inYear]
    exact le_trans (magnitudeSum_filter_le _ _) hb

theorem exactSum_filter_perm (p : Transaction → Bool) {l1 l2 : List Transaction}
    (h : l1.Perm l2) : exactSum (l1.filter p) = exactSum (l2.filter p) := by
  unfold exactSum
  exact ((h.filter p).map fun t => units t.amount).sum_eq

theorem magnitudeSum_filter_perm (p : Transaction → Bool) {l1 l2 : List Transaction}
    (h : l1.Perm l2) : magnitudeSum (l1.filter p) = magnitudeSum (l2.filter p) := by
  unfold magnitudeSum
  exact ((h.filter p).map fun t => |units t.amount|).sum_eq

theorem allOnGrid_filter_perm (j : Nat) (p : Transaction → Bool) {l1 l2 : List Transaction}
    (h : l1.Perm l2) (hg : allOnGrid j (l1.filter p)) : allOnGrid j (l2.filter p) :=
  fun t ht => hg t ((h.filter p).mem_iff.2 ht)

theorem any_perm_b64 (p : Transaction → Bool) {l1 l2 : List Transaction} (h : l1.Perm l2) :
    l1.any p = l2.any p := by
  rw [Bool.eq_iff_iff, List.any_eq_true, List.any_eq_true]
  constructor
  · rintro ⟨x, hx, hp⟩
    exact ⟨x, h.mem_iff.1 hx, hp⟩
  · rintro ⟨x, hx, hp⟩
    exact ⟨x, h.mem_iff.2 hx, hp⟩

end Binary64

/-! ## Order of the input lists, in double precision -/

namespace Binary64

/-- On the grid, both monthly series. -/
theorem series_on_grid (tza : Int → Int) (incomes expenses : List Transaction)
    (y : Int) (j : Nat) (hj : j ≤ 2044)
    (hI : allOnGrid j (incomes.filter (inYear tza y)))
    (hE : allOnGrid j (expenses.filter (inYear tza y)))
    (hB : magnitudeSum (incomes.filter (inYear tza y))
        + magnitudeSum (expenses.filter (inYear tza y)) ≤ 2 ^ (j + 53)) :
    (Statistics tza incomes expenses y).monthlyIncome
        = (List.range 12).map
            (fun i => Double.finite (exactSum (incomes.filter (inMonth tza y i))))
    ∧ (Statistics tza incomes expenses y).monthlyExpenses
        = (List.range 12).map
            (fun i => Double.finite (exactSum (expenses.filter (inMonth tza y i)))) := by
  have hj2 : j + 53 < 2098 := by omega
  have hmI := magnitudeSum_nonneg (incomes.filter (inYear tza y))
  have hmE := magnitudeSum_nonneg (expenses.filter (inYear tza y))
  rw [monthlyIncome_statistics_b64, monthlyExpenses_statistics_b64]
  exact ⟨(total_exact j hj2 tza y incomes hI (by linarith)).1,
    (total_exact j hj2 tza y expenses hE (by linarith)).1⟩

/-- C17, amended: in double precision the result depends on the order of the
lists, because every addition rounds. When the amounts of the selected year are
all integer multiples of one power of two `2 ^ j` units (whole numbers for
`j = 1074`) and their magnitudes add up to at most `2 ^ 53` times that step, no
addition rounds and a permutation of the list of incomes and of the list of
expenses leaves both monthly series, the totals, the savings, the savings rate
and its colour unchanged, as well as the amount held under every category that
is not a property name inherited from `Object.prototype`; the labels of both
category breakdowns are the same up to their order. -/
theorem statistics_permutation_invariant (tza : Int → Int)
    (incomes incomes2 expenses expenses2 : List Transaction) (selectedYear : Int)
    (j : Nat) (hj : j ≤ 2044)
    (hI : incomes.Perm incomes2) (hE : expenses.Perm expenses2)
    (hgI : allOnGrid j (incomes.filter (inYear tza selectedYear)))
    (hgE : allOnGrid j (expenses.filter (inYear tza selectedYear)))
    (hB : magnitudeSum (incomes.filter (inYear tza selectedYear))
        + magnitudeSum (expenses.filter (inYear tza selectedYear)) ≤ 2 ^ (j + 53)) :
    (Statistics tza incomes expenses selectedYear).monthlyIncome
        = (Statistics tza incomes2 expenses2 selectedYear).monthlyIncome
    ∧ (Statistics tza incomes expenses selectedYear).monthlyExpenses
        = (Statistics tza incomes2 expenses2 selectedYear).monthlyExpenses
    ∧ (Statistics tza incomes expenses selectedYear).totalIncome
        = (Statistics tza incomes2 expenses2 selectedYear).totalIncome
    ∧ (Statistics tza incomes expenses selectedYear).totalExpenses
        = (Statistics tza incomes2 expenses2 selectedYear).totalExpenses
    ∧ (Statistics tza incomes expenses selectedYear).savings
        = (Statistics tza incomes2 expenses2 selectedYear).savings
    ∧ (Statistics tza incomes expenses selectedYear).savingsRate
        = (Statistics tza incomes2 expenses2 selectedYear).savingsRate
    ∧ (Statistics tza incomes expenses selectedYear).savingsRateColor
        = (Statistics tza incomes2 expenses2 selectedYear).savingsRateColor
    ∧ (∀ c, c ∉ inheritedNames →
        (categoryExpenses tza expenses selectedYear).get c
          = (categoryExpenses tza expenses2 selectedYear).get c
        ∧ (categoryIncomes tza incomes selectedYear).get c
          = (categoryIncomes tza incomes2 selectedYear).get c)
    ∧ (Statistics tza incomes expenses selectedYear).categoryLabels.Perm
        (Statistics tza incomes2 expenses2 selectedYear).categoryLabels
    ∧ (Statistics tza incomes expenses selectedYear).incomeCategoryLabels.Perm
        (Statistics tza incomes2 expenses2 selectedYear).incomeCategoryLabels := by
  have hj2 : j + 53 < 2098 := by omega
  have hmI := magnitudeSum_nonneg (incomes.filter (inYear tza selectedYear))
  have hmE := magnitudeSum_nonneg (expenses.filter (inYear tza selectedYear))
  have hgI2 : allOnGrid j (incomes2.filter (inYear tza selectedYear)) :=
    allOnGrid_filter_perm j _ hI hgI
  have hgE2 : allOnGrid j (expenses2.filter (inYear tza selectedYear)) :=
    allOnGrid_filter_perm j _ hE hgE
  have hmagI := magnitudeSum_filter_perm (inYear tza selectedYear) hI
  have hmagE := magnitudeSum_filter_perm (inYear tza selectedYear) hE
  have hB2 : magnitudeSum (incomes2.filter (inYear tza selectedYear))
      + magnitudeSum (expenses2.filter (inYear tza selectedYear)) ≤ 2 ^ (j + 53) := by
    rw [← hmagI, ← hmagE]
    exact hB
  obtain ⟨s1, s2⟩ := series_on_grid tza incomes expenses selectedYear j hj hgI hgE hB
  obtain ⟨s3, s4⟩ := series_on_grid tza incomes2 expenses2 selectedYear j hj hgI2 hgE2 hB2
  obtain ⟨t1, t2, t3⟩ := totals_on_grid tza incomes expenses selectedYear j hj hgI hgE hB
  obtain ⟨t4, t5, t6⟩ := totals_on_grid tza incomes2 expenses2 selectedYear j hj hgI2 hgE2 hB2
  have hMI : (Statistics tza incomes expenses selectedYear).monthlyIncome
      = (Statistics tza incomes2 expenses2 selectedYear).monthlyIncome := by
    rw [s1, s3]
    apply List.map_congr_left
    intro i _
    rw [exactSum_filter_perm _ hI]
  have hME : (Statistics tza incomes expenses selectedYear).monthlyExpenses
      = (Statistics tza incomes2 expenses2 selectedYear).monthlyExpenses := by
    rw [s2, s4]
    apply List.map_congr_left
    intro i _
    rw [exactSum_filter_perm _ hE]
  have hTI : (Statistics tza incomes expenses selectedYear).totalIncome
      = (Statistics tza incomes2 expenses2 selectedYear).totalIncome := by
    rw [t1, t4, exactSum_filter_perm _ hI]
  have hTE : (Statistics tza incomes expenses selectedYear).totalExpenses
      = (Statistics tza incomes2 expenses2 selectedYear).totalExpenses := by
    rw [t2, t5, exactSum_filter_perm _ hE]
  have hS : (Statistics tza incomes expenses selectedYear).savings
      = (Statistics tza incomes2 expenses2 selectedYear).savings := by
    rw [t3, t6, exactSum_filter_perm _ hI, exactSum_filter_perm _ hE]
  have hR : (Statistics tza incomes expenses selectedYear).savingsRate
      = (Statistics tza incomes2 expenses2 selectedYear).savingsRate := by
    rw [statistics_savingsRate_b64, statistics_savingsRate_b64, hTI, hTE]
  have hC : (Statistics tza incomes expenses selectedYear).savingsRateColor
      = (Statistics tza incomes2 expenses2 selectedYear).savingsRateColor := by
    rw [statistics_savingsRateColor_b64, statistics_savingsRateColor_b64, hR]
  refine ⟨hMI, hME, hTI, hTE, hS, hR, hC, ?_, labels_perm_b64 tza selectedYear hE,
    labels_perm_b64 tza selectedYear hI⟩
  intro c hc
  constructor
  · show (expenses.foldl (addCategory tza selectedYear) []).get c
      = (expenses2.foldl (addCategory tza selectedYear) []).get c
    rw [get_category_on_grid j hj2 tza selectedYear c hc expenses hgE (by linarith),
      get_category_on_grid j hj2 tza selectedYear c hc expenses2 hgE2 (by linarith),
      any_perm_b64 _ hE, exactSum_filter_perm _ hE]
  · show (incomes.foldl (addCategory tza selectedYear) []).get c
      = (incomes2.foldl (addCategory tza selectedYear) []).get c
    rw [get_category_on_grid j hj2 tza selectedYear c hc incomes hgI (by linarith),
      get_category_on_grid j hj2 tza selectedYear c hc incomes2 hgI2 (by linarith),
      any_perm_b64 _ hI, exactSum_filter_perm _ hI]

/-- The amended C17 at the March 2024 example and its reverse, whose amounts
3000, 1200 and 300 are whole numbers. -/
theorem statistics_permutation_invariant_witness :
    1074 ≤ 2044
    ∧ marchIncomes.Perm marchIncomes.reverse ∧ marchExpenses.Perm marchExpenses.reverse
    ∧ allOnGrid 1074 (marchIncomes.filter (inYear utc 2024))
    ∧ allOnGrid 1074 (marchExpenses.filter (inYear utc 2024))
    ∧ magnitudeSum (marchIncomes.filter (inYear utc 2024))
        + magnitudeSum (marchExpenses.filter (inYear utc 2024)) ≤ 2 ^ (1074 + 53)
    ∧ (Statistics utc marchIncomes marchExpenses 2024).monthlyIncome
        = (Statistics utc marchIncomes.reverse marchExpenses.reverse 2024).monthlyIncome
    ∧ (Statistics utc marchIncomes marchExpenses 2024).monthlyExpenses
        = (Statistics utc marchIncomes.reverse marchExpenses.reverse 2024).monthlyExpenses
    ∧ (Statistics utc marchIncomes marchExpenses 2024).totalIncome
        = (Statistics utc marchIncomes.reverse marchExpenses.reverse 2024).totalIncome
    ∧ (Statistics utc marchIncomes marchExpenses 2024).totalExpenses
        = (Statistics utc marchIncomes.reverse marchExpenses.reverse 2024).totalExpenses
    ∧ (Statistics utc marchIncomes marchExpenses 2024).savings
        = (Statistics utc marchIncomes.reverse marchExpenses.reverse 2024).savings
    ∧ (Statistics utc marchIncomes marchExpenses 2024).savingsRate
        = (Statistics utc marchIncomes.reverse marchExpenses.reverse 2024).savingsRate
    ∧ (Statistics utc marchIncomes marchExpenses 2024).savingsRateColor
        = (Statistics utc marchIncomes.reverse marchExpenses.reverse 2024).savingsRateColor
    ∧ (∀ c, c ∉ inheritedNames →
        (categoryExpenses utc marchExpenses 2024).get c
          = (categoryExpenses utc marchExpenses.reverse 2024).get c
        ∧ (categoryIncomes utc marchIncomes 2024).get c
          = (categoryIncomes utc marchIncomes.reverse 2024).get c)
    ∧ (Statistics utc marchIncomes marchExpenses 2024).categoryLabels.Perm
        (Statistics utc marchIncomes.reverse marchExpenses.reverse 2024).categoryLabels
    ∧ (Statistics utc marchIncomes marchExpenses 2024).incomeCategoryLabels.Perm
        (Statistics utc marchIncomes.reverse marchExpenses.reverse 2024).incomeCategoryLabels :=
  ⟨by decide, (List.reverse_perm _).symm, (List.reverse_perm _).symm,
   by decide!, by decide!, by decide!,
   statistics_permutation_invariant utc marchIncomes marchIncomes.reverse marchExpenses
     marchExpenses.reverse 2024 1074 (by decide) (List.reverse_perm _).symm
     (List.reverse_perm _).symm (by decide!) (by decide!) (by decide!)⟩

/-- C17 as stated fails: with an income of 3 and the expenses 0.38, 0.37, 0.65
and 1.3 of March 2024, exchanging the last two expenses changes totalExpenses
from 2.7 to 2.6999999999999997, the expenses of March, the savings and the
savings rate, and the colour of the rate from `#f39c12` to `#3498db`. -/
theorem totals_depend_on_order :
    fourExpenses.Perm fourExpensesSwapped
    ∧ (Statistics utc threeIncome fourExpenses 2024).totalExpenses = Double.ofRatio 27 10
    ∧ (Statistics utc threeIncome fourExpensesSwapped 2024).totalExpenses
        = Double.ofRatio 26999999999999997 10000000000000000
    ∧ (Statistics utc threeIncome fourExpenses 2024).totalExpenses
        ≠ (Statistics utc threeIncome fourExpensesSwapped 2024).totalExpenses
    ∧ (Statistics utc threeIncome fourExpenses 2024).monthlyExpenses
        ≠ (Statistics utc threeIncome fourExpensesSwapped 2024).monthlyExpenses
    ∧ (Statistics utc threeIncome fourExpenses 2024).savings
        ≠ (Statistics utc threeIncome fourExpensesSwapped 2024).savings
    ∧ (Statistics utc threeIncome fourExpenses 2024).savingsRate
        ≠ (Statistics utc threeIncome fourExpensesSwapped 2024).savingsRate
    ∧ (Statistics utc threeIncome fourExpenses 2024).savingsRateColor = "#f39c12"
    ∧ (Statistics utc threeIncome fourExpensesSwapped 2024).savingsRateColor = "#3498db" := by
  refine ⟨?_, ?_, ?_, ?_, ?_, ?_, ?_, ?_, ?_⟩
  · unfold fourExpenses fourExpensesSwapped
    exact List.Perm.cons _ (List.Perm.cons _
      (List.Perm.swap (⟨Double.ofRatio 13 10, "Loisirs", parseDateOnly 2024 3 5⟩ : Transaction)
        (⟨Double.ofRatio 65 100, "Transport", parseDateOnly 2024 3 4⟩ : Transaction) []))
  · decide!
  · decide!
  · decide!
  · decide!
  · decide!
  · decide!
  · decide!
  · decide!

end Binary64

/-! ## Savings rate in double precision -/

namespace Binary64

theorem unitsPerOne_pos : 0 < unitsPerOne := by decide!

theorem isRepresentable_unitsPerOne : isRepresentable unitsPerOne := by decide!

theorem unitsPerOne_lt_overflowUnits : unitsPerOne < overflowUnits := by decide!

theorem isRepresentable_hundred : isRepresentable (100 * unitsPerOne) := by decide!

theorem hundred_lt_overflowUnits : 100 * unitsPerOne < overflowUnits := by decide!

theorem le_zero_hundred : Double.le 0 100 = true := by decide!

theorem roundRat_ne_nan (p : Int) (q : Nat) : roundRat p q ≠ Double.nan := by
  unfold roundRat
  by_cases h1 : overflowUnits ≤ roundUnits p.natAbs q
  · simp [h1]
  · by_cases h2 : p < 0 <;> simp [h1, h2]

theorem valid_zero : valid 0 := by
  rw [Double.zero_eq]
  exact ⟨isRepresentable_zero, by decide!⟩

theorem foldl_add_valid (l : List Double) :
    ∀ x : Double, valid x → valid (l.foldl (fun a b => a + b) x) := by
  induction l with
  | nil => intro x hx; exact hx
  | cons a l ih => intro x _; exact ih (x + a) (Double.add_valid x a)

/-- Both totals of the Statistics page are doubles. -/
theorem totals_valid (tza : Int → Int) (incomes expenses : List Transaction) (y : Int) :
    valid (Statistics tza incomes expenses y).totalIncome
    ∧ valid (Statistics tza incomes expenses y).totalExpenses :=
  ⟨foldl_add_valid _ 0 valid_zero, foldl_add_valid _ 0 valid_zero⟩

theorem div_notPositive (x : Double) (a : Int) (ha : 0 < a) (hx : notPositive x) :
    notPositive (x / Double.finite a) := by
  have hne : a ≠ 0 := by omega
  have hna : ¬ a < 0 := by omega
  cases x with
  | finite u =>
    have hu : u ≤ 0 := hx
    rw [Double.div_def]
    simp only [Double.div, hne, if_false]
    apply roundRat_of_nonpos _ _ (by omega)
    rw [Int.sign_eq_one_of_pos ha, mul_one]
    exact mul_nonpos_of_nonpos_of_nonneg hu (by positivity)
  | infinity s =>
    have hs : s = true := hx
    subst hs
    rw [Double.div_def]
    simp [Double.div, hna, notPositive]
  | nan => exact absurd hx (by simp [notPositive])

theorem mul_hundred_notPositive (x : Double) (hx : notPositive x) :
    notPositive (x * 100) := by
  have hU := unitsPerOne_pos
  rw [Double.ofNat_hundred, Double.mul_def]
  cases x with
  | finite u =>
    have hu : u ≤ 0 := hx
    simp only [Double.mul]
    apply roundRat_of_nonpos _ _ hU
    exact mul_nonpos_of_nonpos_of_nonneg hu (by positivity)
  | infinity s =>
    have hs : s = true := hx
    subst hs
    have h1 : ¬ (100 * (unitsPerOne : Int) = 0) := by omega
    have h2 : ¬ (100 * (unitsPerOne : Int) < 0) := by omega
    simp [Double.mul, h1, h2, notPositive]
  | nan => exact absurd hx (by simp [notPositive])

theorem le_hundred_of_notPositive (x : Double) (hx : notPositive x) :
    Double.le x 100 = true := by
  have hU := unitsPerOne_pos
  rw [Double.ofNat_hundred]
  cases x with
  | finite u =>
    have hu : u ≤ 0 := hx
    simp only [Double.le, decide_eq_true_eq]
    omega
  | infinity s =>
    have hs : s = true := hx
    subst hs
    rfl
  | nan => exact absurd hx (by simp [notPositive])

/-- The savings rate of a finite positive total income and of total expenses
that are not negative is at most 100. -/
theorem savingsRate_le_hundred (I E : Double) (hv : valid I) (hf : I.isFinite = true)
    (hE : Double.le 0 E = true) : Double.le (savingsRate I (I - E)) 100 = true := by
  have hU := unitsPerOne_pos
  cases I with
  | infinity s => simp [Double.isFinite] at hf
  | nan => simp [Double.isFinite] at hf
  | finite a =>
    obtain ⟨hrep, hbound⟩ := hv
    unfold savingsRate
    by_cases ha : 0 < a
    · have hlt : Double.lt 0 (Double.finite a) = true := by
        rw [Double.zero_eq]
        simp [Double.lt, ha]
      rw [if_pos hlt]
      have hnat : (a.natAbs : Int) = a := Int.natAbs_of_nonneg (by omega)
      have key : ∀ x : Double, notPositive x →
          Double.le (x / Double.finite a * 100) 100 = true := fun x hx =>
        le_hundred_of_notPositive _ (mul_hundred_notPositive _ (div_notPositive x a ha hx))
      cases E with
      | nan => simp [Double.le, Double.zero_eq] at hE
      | infinity s =>
        have hs : s = false := by
          rw [Double.zero_eq] at hE
          simpa [Double.le] using hE
        subst hs
        exact key _ (by
          show notPositive (Double.add (Double.finite a) (Double.neg (Double.infinity false)))
          simp [Double.add, Double.neg, notPositive])
      | finite e =>
        have he : 0 ≤ e := by
          rw [Double.zero_eq] at hE
          simpa [Double.le] using hE
        have hsub : Double.finite a - Double.finite e = roundRat (a + -e) 1 := rfl
        rw [hsub]
        by_cases hae : 0 ≤ a + -e
        · obtain ⟨m, hm, hle⟩ := roundRat_le (a + -e) 1 a.natAbs (by norm_num) hae hrep hbound
            (by simp only [Nat.cast_one, mul_one, hnat]; omega)
          rw [hm]
          have hne : a ≠ 0 := by omega
          have hdiv : Double.finite (m : Int) / Double.finite a
              = roundRat ((m : Int) * unitsPerOne) a.natAbs := by
            rw [Double.div_def]
            simp only [Double.div, hne, if_false]
            rw [Int.sign_eq_one_of_pos ha, mul_one]
          have hmle : (m : Int) ≤ a := by
            have : (m : Int) ≤ (a.natAbs : Int) := by exact_mod_cast hle
            omega
          obtain ⟨r, hr, hrle⟩ := roundRat_le ((m : Int) * unitsPerOne) a.natAbs unitsPerOne
            (by omega) (by positivity) isRepresentable_unitsPerOne unitsPerOne_lt_overflowUnits
            (by
              rw [hnat, mul_comm]
              exact mul_le_mul_of_nonneg_left hmle (by positivity))
          rw [hdiv, hr, Double.ofNat_hundred]
          have hmul : Double.finite (r : Int) * Double.finite (100 * unitsPerOne)
              = roundRat ((r : Int) * (100 * unitsPerOne)) unitsPerOne := rfl
          obtain ⟨w, hw, hwle⟩ := roundRat_le ((r : Int) * (100 * unitsPerOne)) unitsPerOne
            (100 * unitsPerOne) hU (by positivity) isRepresentable_hundred
            hundred_lt_overflowUnits (by
              push_cast
              have : (r : Int) ≤ unitsPerOne := by exact_mod_cast hrle
              rw [mul_comm]
              exact mul_le_mul_of_nonneg_left this (by positivity))
          rw [hmul, hw]
          simp only [Double.le, decide_eq_true_eq]
          have : (w : Int) ≤ ((100 * unitsPerOne : Nat) : Int) := by exact_mod_cast hwle
          push_cast at this
          exact this
        · exact key _ (roundRat_of_nonpos _ 1 (by norm_num) (by omega))
    · have hlt : ¬ Double.lt 0 (Double.finite a) = true := by
        rw [Double.zero_eq]
        simp [Double.lt, ha]
      rw [if_neg hlt]
      exact le_zero_hundred

/-- The savings rate of a finite total income and of total expenses that are a
number is a number. -/
theorem savingsRate_ne_nan (I E : Double) (hf : I.isFinite = true) (hE : E ≠ Double.nan) :
    savingsRate I (I - E) ≠ Double.nan := by
  have hU := unitsPerOne_pos
  cases I with
  | infinity s => simp [Double.isFinite] at hf
  | nan => simp [Double.isFinite] at hf
  | finite a =>
    unfold savingsRate
    by_cases ha : 0 < a
    · have hlt : Double.lt 0 (Double.finite a) = true := by
        rw [Double.zero_eq]
        simp [Double.lt, ha]
      rw [if_pos hlt]
      have hne : a ≠ 0 := by omega
      have h1 : ¬ (100 * (unitsPerOne : Int) = 0) := by omega
      have hmul : ∀ y : Double, y ≠ Double.nan → y * 100 ≠ Double.nan := by
        intro y hy
        rw [Double.ofNat_hundred, Double.mul_def]
        cases y with
        | finite u => exact roundRat_ne_nan _ _
        | infinity s => simp [Double.mul, h1]
        | nan => exact absurd rfl hy
      have hdiv : ∀ x : Double, x ≠ Double.nan → x / Double.finite a ≠ Double.nan := by
        intro x hx
        rw [Double.div_def]
        cases x with
        | finite u =>
          simp only [Double.div, hne, if_false]
          exact roundRat_ne_nan _ _
        | infinity s => simp [Double.div]
        | nan => exact absurd rfl hx
      apply hmul
      apply hdiv
      cases E with
      | finite e => exact roundRat_ne_nan _ _
      | infinity s =>
        show Double.add (Double.finite a) (Double.neg (Double.infinity s)) ≠ Double.nan
        simp [Double.add, Double.neg]
      | nan => exact absurd rfl hE
    · have hlt : ¬ Double.lt 0 (Double.finite a) = true := by
        rw [Double.zero_eq]
        simp [Double.lt, ha]
      rw [if_neg hlt, Double.zero_eq]
      simp

/-- C11, amended: in double precision, for every input the savings rate is
`(totalIncome - totalExpenses) / totalIncome * 100`, each operation rounding,
when `totalIncome > 0`, and is 0, with no division, otherwise (a total income
that is zero, negative or `NaN`). It is not always finite. When totalIncome is
finite and `totalExpenses ≥ 0` the rate is at most 100, and when totalIncome is
finite and totalExpenses is not `NaN` the rate is not `NaN`. -/
theorem savings_rate_formula_and_bound (tza : Int → Int) (incomes expenses : List Transaction)
    (selectedYear : Int) :
    (Double.lt 0 (Statistics tza incomes expenses selectedYear).totalIncome = true →
        (Statistics tza incomes expenses selectedYear).savingsRate
          = ((Statistics tza incomes expenses selectedYear).totalIncome
              - (Statistics tza incomes expenses selectedYear).totalExpenses)
            / (Statistics tza incomes expenses selectedYear).totalIncome * 100)
    ∧ (Double.lt 0 (Statistics tza incomes expenses selectedYear).totalIncome = false →
        (Statistics tza incomes expenses selectedYear).savingsRate = 0)
    ∧ ((Statistics tza incomes expenses selectedYear).totalIncome.isFinite = true →
        Double.le 0 (Statistics tza incomes expenses selectedYear).totalExpenses = true →
        Double.le (Statistics tza incomes expenses selectedYear).savingsRate 100 = true)
    ∧ ((Statistics tza incomes expenses selectedYear).totalIncome.isFinite = true →
        (Statistics tza incomes expenses selectedYear).totalExpenses ≠ Double.nan →
        (Statistics tza incomes expenses selectedYear).savingsRate ≠ Double.nan) := by
  have hv := (totals_valid tza incomes expenses selectedYear).1
  rw [statistics_savingsRate_b64]
  generalize (Statistics tza incomes expenses selectedYear).totalIncome = I at *
  generalize (Statistics tza incomes expenses selectedYear).totalExpenses = E at *
  refine ⟨?_, ?_, ?_, ?_⟩
  · intro hI
    simp [savingsRate, hI]
  · intro hI
    simp [savingsRate, hI]
  · intro hf hE
    exact savingsRate_le_hundred I E hv hf hE
  · intro hf hE
    exact savingsRate_ne_nan I E hf hE

/-- C11 as stated fails: two incomes of 1e308 in 2024 and no expense give a
total income of `Infinity`, which is positive, and a savings rate of `NaN`: the
rate is not finite, and it is not at most 100 although totalExpenses is 0. -/
theorem savings_rate_not_finite_on_overflow :
    (Statistics utc hugeIncomes [] 2024).totalIncome = Double.infinity false
    ∧ Double.lt 0 (Statistics utc hugeIncomes [] 2024).totalIncome = true
    ∧ (Statistics utc hugeIncomes [] 2024).totalExpenses = 0
    ∧ Double.le 0 (Statistics utc hugeIncomes [] 2024).totalExpenses = true
    ∧ (Statistics utc hugeIncomes [] 2024).savingsRate = Double.nan
    ∧ (Statistics utc hugeIncomes [] 2024).savingsRate.isFinite = false
    ∧ Double.le (Statistics utc hugeIncomes [] 2024).savingsRate 100 = false := by
  decide!

end Binary64

/-! ## Progress text of a savings goal -/

namespace Binary64

theorem hundred_lt_limit : 100 * unitsPerOne < 10 ^ 21 * unitsPerOne := by
  have := unitsPerOne_pos
  have h : (100 : Nat) < 10 ^ 21 := by norm_num
  exact Nat.mul_lt_mul_of_pos_right h this

/-- What `toFixed(1)` writes for a finite Number that is not negative. -/
theorem toFixed_one_of_nat (w : Nat) :
    (w < 10 ^ 21 * unitsPerOne
      ∧ (Double.finite (w : Int)).toFixed 1
          = Shown.decimal ((w : Int).sign * ((2 * w * 10 ^ 1 + unitsPerOne) / (2 * unitsPerOne) : Nat)) 1)
    ∨ (10 ^ 21 * unitsPerOne ≤ w
      ∧ (Double.finite (w : Int)).toFixed 1 = Shown.asString (Double.finite (w : Int))) := by
  by_cases h : w < 10 ^ 21 * unitsPerOne
  · left
    refine ⟨h, ?_⟩
    simp only [Double.toFixed, Int.natAbs_ofNat, h, if_true]
  · right
    refine ⟨by omega, ?_⟩
    simp only [Double.toFixed, Int.natAbs_ofNat, h, if_false]

theorem showsAtLeast_zero_of_nat (w : Nat) :
    showsAtLeast 0 ((Double.finite (w : Int)).toFixed 1) := by
  rcases toFixed_one_of_nat w with ⟨_, e⟩ | ⟨_, e⟩
  · rw [e]
    simp only [showsAtLeast, Nat.cast_zero, zero_mul]
    exact mul_nonneg (Int.sign_nonneg.2 (by positivity)) (by positivity)
  · rw [e]
    show Double.le (Double.ofNat 0) (Double.finite (w : Int)) = true
    have h0 : Double.ofNat 0 = Double.finite 0 := Double.zero_eq
    rw [h0]
    simp [Double.le]

theorem showsAtMost_hundred_of_le (w : Nat) (h : w ≤ 100 * unitsPerOne) :
    showsAtMost 100 ((Double.finite (w : Int)).toFixed 1) := by
  have hU := unitsPerOne_pos
  rcases toFixed_one_of_nat w with ⟨_, e⟩ | ⟨h2, _⟩
  · rw [e]
    simp only [showsAtMost]
    have hn : (2 * w * 10 ^ 1 + unitsPerOne) / (2 * unitsPerOne) < 1001 := by
      rw [Nat.div_lt_iff_lt_mul (by omega)]
      omega
    have hs : (w : Int).sign ≤ 1 := by
      rcases Nat.eq_zero_or_pos w with h0 | h0
      · simp [h0]
      · rw [Int.sign_eq_one_of_pos (by exact_mod_cast h0)]
    have hn0 : (0 : Int) ≤ ((2 * w * 10 ^ 1 + unitsPerOne) / (2 * unitsPerOne) : Nat) := by
      positivity
    have hn2 : (((2 * w * 10 ^ 1 + unitsPerOne) / (2 * unitsPerOne) : Nat) : Int) ≤ 1000 := by
      exact_mod_cast Nat.lt_succ_iff.1 hn
    calc (w : Int).sign * ((2 * w * 10 ^ 1 + unitsPerOne) / (2 * unitsPerOne) : Nat)
        ≤ 1 * ((2 * w * 10 ^ 1 + unitsPerOne) / (2 * unitsPerOne) : Nat) :=
          mul_le_mul_of_nonneg_right hs hn0
      _ ≤ ((100 : Nat) : Int) * 10 ^ 1 := by
          rw [one_mul]
          norm_num
          exact hn2
  · have := hundred_lt_limit
    omega

theorem showsAtLeast_hundred_of_ge (w : Nat) (h : 100 * unitsPerOne ≤ w) :
    showsAtLeast 100 ((Double.finite (w : Int)).toFixed 1) := by
  have hU := unitsPerOne_pos
  rcases toFixed_one_of_nat w with ⟨_, e⟩ | ⟨_, e⟩
  · rw [e]
    simp only [showsAtLeast]
    have hw : 0 < (w : Int) := by
      have : 0 < w := by omega
      exact_mod_cast this
    rw [Int.sign_eq_one_of_pos hw, one_mul]
    have hn : 1000 ≤ (2 * w * 10 ^ 1 + unitsPerOne) / (2 * unitsPerOne) := by
      rw [Nat.le_div_iff_mul_le (by omega)]
      omega
    have hn2 : ((1000 : Nat) : Int)
        ≤ (((2 * w * 10 ^ 1 + unitsPerOne) / (2 * unitsPerOne) : Nat) : Int) := by
      exact_mod_cast hn
    norm_num at hn2 ⊢
    exact hn2
  · rw [e]
    show Double.le (Double.ofNat 100) (Double.finite (w : Int)) = true
    have h0 : Double.ofNat 100 = Double.finite (100 * unitsPerOne) := Double.ofNat_hundred
    rw [h0]
    simp only [Double.le, decide_eq_true_eq]
    have : ((100 * unitsPerOne : Nat) : Int) ≤ (w : Int) := by exact_mod_cast h
    push_cast at this
    exact this

theorem progress_eq (goal : SavingsGoal) (t c : Int)
    (ht : goal.target_amount = Double.finite t) (hc : goal.current_amount = Double.finite c)
    (htpos : 0 < t) :
    progress goal = roundRat (c * unitsPerOne) t.natAbs * 100 := by
  have hne : t ≠ 0 := by omega
  unfold progress
  rw [ht, hc, Double.div_def]
  simp only [Double.div, hne, if_false]
  rw [Int.sign_eq_one_of_pos htpos, mul_one]

theorem mul_hundred_finite (r : Nat) :
    Double.finite (r : Int) * 100 = roundRat ((r : Int) * (100 * unitsPerOne)) unitsPerOne := by
  rw [Double.ofNat_hundred]
  rfl

theorem mul_hundred_infinity : Double.infinity false * 100 = Double.infinity false := by
  decide!

theorem toFixed_infinity :
    (Double.infinity false).toFixed 1 = Shown.asString (Double.infinity false) := rfl

/-- C15, amended: for a goal with a finite positive target and a finite current
amount that is not negative, the percentage written in the progress text is
what `toFixed(1)` writes for the double `current / target * 100`, with no clamp
at 100: it shows at least 0, at most 100 when the current amount is at most the
target, and at least 100 when the current amount has reached or exceeds the
target. -/
theorem progress_text_not_clamped (goal : SavingsGoal) (t c : Int)
    (ht : goal.target_amount = Double.finite t) (hc : goal.current_amount = Double.finite c)
    (htpos : 0 < t) (hcnn : 0 ≤ c) :
    (renderGoal goal).1.progressText
        = (goal.current_amount / goal.target_amount * 100).toFixed 1
    ∧ showsAtLeast 0 (renderGoal goal).1.progressText
    ∧ (c ≤ t → showsAtMost 100 (renderGoal goal).1.progressText)
    ∧ (t ≤ c → showsAtLeast 100 (renderGoal goal).1.progressText) := by
  have hU := unitsPerOne_pos
  have hw : (renderGoal goal).1.progressText = (progress goal).toFixed 1 := rfl
  have hnat : (t.natAbs : Int) = t := Int.natAbs_of_nonneg (by omega)
  have hq : 0 < t.natAbs := by omega
  have hp : (0 : Int) ≤ c * unitsPerOne := by positivity
  refine ⟨rfl, ?_, ?_, ?_⟩
  · rw [hw, progress_eq goal t c ht hc htpos]
    rcases roundRat_of_nonneg (c * unitsPerOne) t.natAbs hp with e | ⟨r, e⟩
    · rw [e, mul_hundred_infinity, toFixed_infinity]
      show Double.le (Double.ofNat 0) (Double.infinity false) = true
      decide!
    · rw [e, mul_hundred_finite]
      rcases roundRat_of_nonneg ((r : Int) * (100 * unitsPerOne)) unitsPerOne
        (by positivity) with e2 | ⟨w, e2⟩
      · rw [e2, toFixed_infinity]
        show Double.le (Double.ofNat 0) (Double.infinity false) = true
        decide!
      · rw [e2]
        exact showsAtLeast_zero_of_nat w
  · intro hct
    rw [hw, progress_eq goal t c ht hc htpos]
    obtain ⟨r, e, hr⟩ := roundRat_le (c * unitsPerOne) t.natAbs unitsPerOne hq hp
      isRepresentable_unitsPerOne unitsPerOne_lt_overflowUnits (by
        rw [hnat, mul_comm]
        exact mul_le_mul_of_nonneg_left hct (by positivity))
    rw [e, mul_hundred_finite]
    obtain ⟨w, e2, hwle⟩ := roundRat_le ((r : Int) * (100 * unitsPerOne)) unitsPerOne
      (100 * unitsPerOne) hU (by positivity) isRepresentable_hundred hundred_lt_overflowUnits
      (by
        push_cast
        have : (r : Int) ≤ unitsPerOne := by exact_mod_cast hr
        rw [mul_comm]
        exact mul_le_mul_of_nonneg_left this (by positivity))
    rw [e2]
    exact showsAtMost_hundred_of_le w hwle
  · intro htc
    rw [hw, progress_eq goal t c ht hc htpos]
    rcases roundRat_ge (c * unitsPerOne) t.natAbs unitsPerOne hq
      isRepresentable_unitsPerOne (by
        rw [hnat, mul_comm]
        exact mul_le_mul_of_nonneg_right htc (by positivity)) with e | ⟨r, e, hr⟩
    · rw [e, mul_hundred_infinity, toFixed_infinity]
      show Double.le (Double.ofNat 100) (Double.infinity false) = true
      decide!
    · rw [e, mul_hundred_finite]
      rcases roundRat_ge ((r : Int) * (100 * unitsPerOne)) unitsPerOne (100 * unitsPerOne) hU
        isRepresentable_hundred (by
          push_cast
          have : (unitsPerOne : Int) ≤ r := by exact_mod_cast hr
          rw [mul_comm]
          exact mul_le_mul_of_nonneg_right this (by positivity)) with e2 | ⟨w, e2, hwge⟩
      · rw [e2, toFixed_infinity]
        show Double.le (Double.ofNat 100) (Double.infinity false) = true
        decide!
      · rw [e2]
        exact showsAtLeast_hundred_of_ge w hwge

/-- The amended C15 at a goal of 1000 of which 1500 are saved: the current
amount exceeds the target. -/
theorem progress_text_not_clamped_witness :
    exceededGoal.target_amount = Double.finite (1000 * unitsPerOne)
    ∧ exceededGoal.current_amount = Double.finite (1500 * unitsPerOne)
    ∧ (0 : Int) < 1000 * unitsPerOne ∧ (0 : Int) ≤ 1500 * unitsPerOne
    ∧ (renderGoal exceededGoal).1.progressText
        = (exceededGoal.current_amount / exceededGoal.target_amount * 100).toFixed 1
    ∧ showsAtLeast 0 (renderGoal exceededGoal).1.progressText
    ∧ ((1500 * unitsPerOne : Int) ≤ 1000 * unitsPerOne
        → showsAtMost 100 (renderGoal exceededGoal).1.progressText)
    ∧ ((1000 * unitsPerOne : Int) ≤ 1500 * unitsPerOne
        → showsAtLeast 100 (renderGoal exceededGoal).1.progressText) :=
  ⟨by decide!, by decide!, by decide!, by decide!,
   progress_text_not_clamped exceededGoal (1000 * unitsPerOne) (1500 * unitsPerOne)
     (by decide!) (by decide!) (by decide!) (by decide!)⟩

/-- C15 as stated fails: for a goal of 1000 of which 1500 are saved the
progress text shows `150.0`, above 100, while the bar is 100 wide. -/
theorem progress_text_exceeds_hundred :
    Double.lt 0 exceededGoal.target_amount = true
    ∧ Double.le 0 exceededGoal.current_amount = true
    ∧ (renderGoal exceededGoal).1.progressText = Shown.decimal 1500 1
    ∧ ¬ showsAtMost 100 (renderGoal exceededGoal).1.progressText
    ∧ (renderGoal exceededGoal).1.progressFillWidth = 100 := by
  refine ⟨?_, ?_, ?_, ?_, ?_⟩
  · decide!
  · decide!
  · decide!
  · have h : (renderGoal exceededGoal).1.progressText = Shown.decimal 1500 1 := by decide!
    rw [h]
    simp [showsAtMost]
  · decide!

/-- The digit written is that of the double, not of the exact ratio: for a goal
of 80 of which 23 are saved the progress is the double 28.749999999999996 and
the text shows `28.7`, where the exact 28.75 would be written `28.8`; for a goal
half reached it shows `50.0`. -/
theorem progress_text_rounds_the_double :
    progress smallGoal = Double.ofRatio 28749999999999996 1000000000000000
    ∧ (renderGoal smallGoal).1.progressText = Shown.decimal 287 1
    ∧ (renderGoal halfGoal).1.progressText = Shown.decimal 500 1
    ∧ (renderGoal halfGoal).1.progressFillWidth = 50 := by
  refine ⟨?_, ?_, ?_, ?_⟩
  · decide!
  · decide!
  · decide!
  · decide!

end Binary64

end FinanceApp
